import Mathlib

/-!
State reconciliation and CRUD orchestration of the Jamf Pro Terraform provider

A shallow embedding of

* `internal/endpoints/mobiledeviceconfigurationprofilesplist/mobiledeviceconfigurationprofilesplist_state.go`
  (the state reconciler `updateTerraformState`, `setScope`, `setLimitations`,
  `setExclusions` and the four `flattenAndSort…` helpers),
* `internal/endpoints/filesharedistributionpoints/filesharedistributionpoints_resource.go`
  (Create / Read / Update / Delete and the `connection_type` validator) and
  `internal/endpoints/packages/packages_resource.go` (Create / Read / Update / Delete
  and the `category` validator),

followed by the theorems about them.

Conventions.  Go `int` values are `Int` (no arithmetic is performed on them, so
the machine width never matters except in `Atoi`, where the range check is
explicit).  Go `error` values are their message strings; a nil error is `none`
/ `Except.ok`.  A Go `map[string]interface{}` is an association list in
insertion order, written with `mapSet` (replace an existing key, else append);
a nil slice and an empty slice are both `[]`, a nil result that the code tests
with `!= nil` is `none`.
-/

namespace JamfPro

/-! ## Data model of the reconciled state -/

/-- Scope entity of the SDK (`MobileDeviceConfigurationProfileSubsetScopeEntity`):
an ID and a name. -/
structure ScopeEntity where
  ID : Int
  Name : String
deriving DecidableEq, Repr

/-- Mobile device entry of the SDK (`MobileDeviceConfigurationProfileSubsetMobileDevice`);
only `ID` is read by the reconciler. -/
structure MobileDevice where
  ID : Int
  Name : String
deriving DecidableEq, Repr

/-- Network segment entry of the SDK
(`MobileDeviceConfigurationProfileSubsetNetworkSegment`); only `ID` is read. -/
structure NetworkSegment where
  ID : Int
  Name : String
deriving DecidableEq, Repr

/-- Limitations of a scope: the four collections read by `setLimitations`. -/
structure Limitation where
  NetworkSegments : List NetworkSegment
  Ibeacons : List ScopeEntity
  Users : List ScopeEntity
  UserGroups : List ScopeEntity
deriving DecidableEq, Repr

/-- Exclusions of a scope: the ten collections read by `setExclusions`. -/
structure Exclusion where
  MobileDevices : List MobileDevice
  MobileDeviceGroups : List ScopeEntity
  Buildings : List ScopeEntity
  JSSUsers : List ScopeEntity
  JSSUserGroups : List ScopeEntity
  Departments : List ScopeEntity
  NetworkSegments : List NetworkSegment
  Users : List ScopeEntity
  UserGroups : List ScopeEntity
  IBeacons : List ScopeEntity
deriving DecidableEq, Repr

/-- Scope of a mobile device configuration profile. -/
structure Scope where
  AllMobileDevices : Bool
  AllJSSUsers : Bool
  MobileDevices : List MobileDevice
  MobileDeviceGroups : List ScopeEntity
  JSSUsers : List ScopeEntity
  JSSUserGroups : List ScopeEntity
  Buildings : List ScopeEntity
  Departments : List ScopeEntity
  Limitations : Limitation
  Exclusions : Exclusion
deriving DecidableEq, Repr

/-- Site or category reference of the SDK; only `ID` is read. -/
structure SharedRef where
  ID : Int
  Name : String
deriving DecidableEq, Repr

/-- General block of the profile, with the fields `updateTerraformState` reads. -/
structure General where
  Name : String
  Description : String
  UUID : String
  DeploymentMethod : String
  RedeployOnUpdate : String
  RedeployDaysBeforeCertExpires : Int
  Level : String
  Site : SharedRef
  Category : SharedRef
  Payloads : String
deriving DecidableEq, Repr

/-- Remote entity `jamfpro.ResourceMobileDeviceConfigurationProfile`. -/
structure ResourceMobileDeviceConfigurationProfile where
  General : General
  Scope : Scope
deriving DecidableEq, Repr

/-- Values stored under a key of a block: scalars and flat lists. -/
inductive Leaf where
  | str (s : String)
  | int (n : Int)
  | bool (b : Bool)
  | ints (l : List Int)
  | strs (l : List String)
deriving DecidableEq, Repr

/-- A `map[string]interface{}` whose values are leaves. -/
abbrev Block := List (String × Leaf)

/-- Values of the scope map: a leaf, or a list of blocks (limitations, exclusions). -/
inductive ScopeValue where
  | leaf (v : Leaf)
  | blocks (bs : List Block)
deriving DecidableEq, Repr

/-- The `map[string]interface{}` built by `setScope`. -/
abbrev ScopeData := List (String × ScopeValue)

/-- Values handed to `d.Set`. -/
inductive Value where
  | leaf (v : Leaf)
  | blocks (bs : List Block)
  | scope (ss : List ScopeData)
deriving DecidableEq, Repr

/-- Go map assignment `m[k] = v` on an association list: an existing key is
overwritten in place, a new key is appended. -/
def mapSet {β : Type} : List (String × β) → String → β → List (String × β)
  | [], k, v => [(k, v)]
  | (k', v') :: m, k, v => if k' = k then (k, v) :: m else (k', v') :: mapSet m k v

/-- Go map read `m[k]` with the presence flag. -/
def mapGet {β : Type} : List (String × β) → String → Option β
  | [], _ => none
  | (k', v') :: m, k => if k' = k then some v' else mapGet m k

/-! ## Sorting (Go `sort.Ints`, `sort.Strings`) -/

/-- Go `sort.Ints`: sorts in increasing order.  The result of sorting integers is
determined by the input multiset alone (`sortInts_unique`), so the model does not
depend on the algorithm of the standard library. -/
def sortInts (l : List Int) : List Int := l.insertionSort (· ≤ ·)

/-- Go string comparison `a <= b`: lexicographic on the characters (on valid
UTF-8 the byte order of Go coincides with the code point order). -/
def strLe (a b : String) : Prop := a.toList ≤ b.toList

instance strLe.decidable (a b : String) : Decidable (strLe a b) :=
  inferInstanceAs (Decidable (a.toList ≤ b.toList))

instance strLe.isTotal : IsTotal String strLe :=
  ⟨fun a b => le_total a.toList b.toList⟩

instance strLe.isTrans : IsTrans String strLe :=
  ⟨fun a b c h₁ h₂ => le_trans (a := a.toList) (b := b.toList) (c := c.toList) h₁ h₂⟩

instance strLe.isAntisymm : IsAntisymm String strLe :=
  ⟨fun a b h₁ h₂ => String.ext (le_antisymm (a := a.toList) (b := b.toList) h₁ h₂)⟩

/-- Go `sort.Strings`: sorts in increasing (lexicographic) order. -/
def sortStrings (l : List String) : List String := l.insertionSort strLe

/-! ## The flatten-and-sort helpers -/

/-- The loop `for _, e := range xs { if e.ID != 0 { ids = append(ids, e.ID) } }`. -/
def collectIds {α : Type} (getID : α → Int) : List α → List Int
  | [] => []
  | e :: es => if getID e ≠ 0 then getID e :: collectIds getID es else collectIds getID es

/-- The loop `for _, e := range xs { if e.Name != "" { names = append(names, e.Name) } }`. -/
def collectNames : List ScopeEntity → List String
  | [] => []
  | e :: es => if e.Name ≠ "" then e.Name :: collectNames es else collectNames es

/-- Source: `flattenAndSortScopeEntityIds`. -/
def flattenAndSortScopeEntityIds (entities : List ScopeEntity) : List Int :=
  sortInts (collectIds ScopeEntity.ID entities)

/-- Source: `flattenAndSortScopeEntityNames`. -/
def flattenAndSortScopeEntityNames (entities : List ScopeEntity) : List String :=
  sortStrings (collectNames entities)

/-- Source: `flattenAndSortMobileDeviceIDs`. -/
def flattenAndSortMobileDeviceIDs (devices : List MobileDevice) : List Int :=
  sortInts (collectIds MobileDevice.ID devices)

/-- Source: `flattenAndSortNetworkSegmentIds`. -/
def flattenAndSortNetworkSegmentIds (segments : List NetworkSegment) : List Int :=
  sortInts (collectIds NetworkSegment.ID segments)

/-! ## Limitations, exclusions and scope -/

/-- One guarded step of `setLimitations` / `setExclusions` for an ID collection of
length `n` whose flattened list is `ids`:
`if len(xs) > 0 { ids := flatten(xs); if len(ids) > 0 { result[key] = ids } }`. -/
def putIds (result : Block) (key : String) (n : Nat) (ids : List Int) : Block :=
  if n > 0 then (if ids.length > 0 then mapSet result key (Leaf.ints ids) else result)
  else result

/-- The same guarded step for the user-name collection. -/
def putNames (result : Block) (key : String) (n : Nat) (names : List String) : Block :=
  if n > 0 then (if names.length > 0 then mapSet result key (Leaf.strs names) else result)
  else result

/-- Source: `setLimitations`, the four guarded steps in source order.  A collection
is looked at only when it is non-empty, and its key is written only when the
flattened list is non-empty.  The Go function returns `(nil, nil)` for an empty
result map; the error component is part of its signature and is kept as `Except`. -/
def setLimitations (limitations : Limitation) : Except String (Option (List Block)) :=
  let result : Block := []
  let result := putIds result "network_segment_ids" limitations.NetworkSegments.length
    (flattenAndSortNetworkSegmentIds limitations.NetworkSegments)
  let result := putIds result "ibeacon_ids" limitations.Ibeacons.length
    (flattenAndSortScopeEntityIds limitations.Ibeacons)
  let result := putNames result "directory_service_or_local_usernames" limitations.Users.length
    (flattenAndSortScopeEntityNames limitations.Users)
  let result := putIds result "directory_service_usergroup_ids" limitations.UserGroups.length
    (flattenAndSortScopeEntityIds limitations.UserGroups)
  if result.length = 0 then Except.ok none else Except.ok (some [result])

/-- Source: `setExclusions`, the ten guarded steps in source order. -/
def setExclusions (exclusions : Exclusion) : Except String (Option (List Block)) :=
  let result : Block := []
  let result := putIds result "mobile_device_ids" exclusions.MobileDevices.length
    (flattenAndSortMobileDeviceIDs exclusions.MobileDevices)
  let result := putIds result "mobile_device_group_ids" exclusions.MobileDeviceGroups.length
    (flattenAndSortScopeEntityIds exclusions.MobileDeviceGroups)
  let result := putIds result "building_ids" exclusions.Buildings.length
    (flattenAndSortScopeEntityIds exclusions.Buildings)
  let result := putIds result "jss_user_ids" exclusions.JSSUsers.length
    (flattenAndSortScopeEntityIds exclusions.JSSUsers)
  let result := putIds result "jss_user_group_ids" exclusions.JSSUserGroups.length
    (flattenAndSortScopeEntityIds exclusions.JSSUserGroups)
  let result := putIds result "department_ids" exclusions.Departments.length
    (flattenAndSortScopeEntityIds exclusions.Departments)
  let result := putIds result "network_segment_ids" exclusions.NetworkSegments.length
    (flattenAndSortNetworkSegmentIds exclusions.NetworkSegments)
  let result := putNames result "directory_service_or_local_usernames" exclusions.Users.length
    (flattenAndSortScopeEntityNames exclusions.Users)
  let result := putIds result "directory_service_usergroup_ids" exclusions.UserGroups.length
    (flattenAndSortScopeEntityIds exclusions.UserGroups)
  let result := putIds result "ibeacon_ids" exclusions.IBeacons.length
    (flattenAndSortScopeEntityIds exclusions.IBeacons)
  if result.length = 0 then Except.ok none else Except.ok (some [result])

/-- Source: `setScope`.  The two flags, the six ID lists, then the limitations and
exclusions blocks, each written only when the helper returned a non-nil value;
an error of a helper is returned at once. -/
def setScope (resource : ResourceMobileDeviceConfigurationProfile) : Except String ScopeData :=
  let scopeData : ScopeData :=
    [("all_mobile_devices", ScopeValue.leaf (Leaf.bool resource.Scope.AllMobileDevices)),
     ("all_jss_users", ScopeValue.leaf (Leaf.bool resource.Scope.AllJSSUsers))]
  let scopeData := mapSet scopeData "mobile_device_ids"
    (ScopeValue.leaf (Leaf.ints (flattenAndSortMobileDeviceIDs resource.Scope.MobileDevices)))
  let scopeData := mapSet scopeData "mobile_device_group_ids"
    (ScopeValue.leaf (Leaf.ints (flattenAndSortScopeEntityIds resource.Scope.MobileDeviceGroups)))
  let scopeData := mapSet scopeData "jss_user_ids"
    (ScopeValue.leaf (Leaf.ints (flattenAndSortScopeEntityIds resource.Scope.JSSUsers)))
  let scopeData := mapSet scopeData "jss_user_group_ids"
    (ScopeValue.leaf (Leaf.ints (flattenAndSortScopeEntityIds resource.Scope.JSSUserGroups)))
  let scopeData := mapSet scopeData "building_ids"
    (ScopeValue.leaf (Leaf.ints (flattenAndSortScopeEntityIds resource.Scope.Buildings)))
  let scopeData := mapSet scopeData "department_ids"
    (ScopeValue.leaf (Leaf.ints (flattenAndSortScopeEntityIds resource.Scope.Departments)))
  match setLimitations resource.Scope.Limitations with
  | Except.error err => Except.error err
  | Except.ok limitationsData =>
    let scopeData :=
      match limitationsData with
      | some ls => mapSet scopeData "limitations" (ScopeValue.blocks ls)
      | none => scopeData
    match setExclusions resource.Scope.Exclusions with
    | Except.error err => Except.error err
    | Except.ok exclusionsData =>
      let scopeData :=
        match exclusionsData with
        | some es => mapSet scopeData "exclusions" (ScopeValue.blocks es)
        | none => scopeData
      Except.ok scopeData

/-- Two limitation blocks hold the same entries, possibly in another order. -/
def Limitation.SameUpToOrder (a b : Limitation) : Prop :=
  a.NetworkSegments.Perm b.NetworkSegments ∧ a.Ibeacons.Perm b.Ibeacons ∧
  a.Users.Perm b.Users ∧ a.UserGroups.Perm b.UserGroups

/-- Two exclusion blocks hold the same entries, possibly in another order. -/
def Exclusion.SameUpToOrder (a b : Exclusion) : Prop :=
  a.MobileDevices.Perm b.MobileDevices ∧ a.MobileDeviceGroups.Perm b.MobileDeviceGroups ∧
  a.Buildings.Perm b.Buildings ∧ a.JSSUsers.Perm b.JSSUsers ∧
  a.JSSUserGroups.Perm b.JSSUserGroups ∧ a.Departments.Perm b.Departments ∧
  a.NetworkSegments.Perm b.NetworkSegments ∧ a.Users.Perm b.Users ∧
  a.UserGroups.Perm b.UserGroups ∧ a.IBeacons.Perm b.IBeacons

/-- Two scopes differ at most in the order of their scope, limitation and
exclusion collections. -/
def Scope.SameUpToOrder (a b : Scope) : Prop :=
  a.AllMobileDevices = b.AllMobileDevices ∧ a.AllJSSUsers = b.AllJSSUsers ∧
  a.MobileDevices.Perm b.MobileDevices ∧ a.MobileDeviceGroups.Perm b.MobileDeviceGroups ∧
  a.JSSUsers.Perm b.JSSUsers ∧ a.JSSUserGroups.Perm b.JSSUserGroups ∧
  a.Buildings.Perm b.Buildings ∧ a.Departments.Perm b.Departments ∧
  a.Limitations.SameUpToOrder b.Limitations ∧ a.Exclusions.SameUpToOrder b.Exclusions

/-- All four collections of the limitations are empty. -/
def Limitation.AllEmpty (a : Limitation) : Prop :=
  a.NetworkSegments = [] ∧ a.Ibeacons = [] ∧ a.Users = [] ∧ a.UserGroups = []

/-- All ten collections of the exclusions are empty. -/
def Exclusion.AllEmpty (a : Exclusion) : Prop :=
  a.MobileDevices = [] ∧ a.MobileDeviceGroups = [] ∧ a.Buildings = [] ∧ a.JSSUsers = [] ∧
  a.JSSUserGroups = [] ∧ a.Departments = [] ∧ a.NetworkSegments = [] ∧ a.Users = [] ∧
  a.UserGroups = [] ∧ a.IBeacons = []

/-- A profile used to evaluate the definitions: devices 30, 10, 20, two groups, a
building, two network segments and two users in the limitations, two buildings
in the exclusions. -/
def sampleProfile : ResourceMobileDeviceConfigurationProfile :=
  { General :=
      { Name := "wifi", Description := "office wifi", UUID := "u-1", DeploymentMethod := "Install Automatically",
        RedeployOnUpdate := "Newly Assigned", RedeployDaysBeforeCertExpires := 0, Level := "System",
        Site := ⟨-1, "None"⟩, Category := ⟨4, "Network"⟩, Payloads := "<plist/>" },
    Scope :=
      { AllMobileDevices := false, AllJSSUsers := false,
        MobileDevices := [⟨30, "c"⟩, ⟨10, "a"⟩, ⟨20, "b"⟩],
        MobileDeviceGroups := [⟨2, "g2"⟩, ⟨1, "g1"⟩],
        JSSUsers := [], JSSUserGroups := [], Buildings := [⟨7, "b7"⟩], Departments := [],
        Limitations :=
          { NetworkSegments := [⟨5, "n5"⟩, ⟨4, "n4"⟩], Ibeacons := [],
            Users := [⟨0, "bob"⟩, ⟨0, "alice"⟩], UserGroups := [] },
        Exclusions :=
          { MobileDevices := [], MobileDeviceGroups := [], Buildings := [⟨9, "b9"⟩, ⟨8, "b8"⟩],
            JSSUsers := [], JSSUserGroups := [], Departments := [], NetworkSegments := [],
            Users := [], UserGroups := [], IBeacons := [] } } }

/-- The profile `sampleProfile` with every collection of its scope reversed. -/
def sampleProfileReordered : ResourceMobileDeviceConfigurationProfile :=
  { sampleProfile with
    Scope :=
      { AllMobileDevices := false, AllJSSUsers := false,
        MobileDevices := [⟨20, "b"⟩, ⟨10, "a"⟩, ⟨30, "c"⟩],
        MobileDeviceGroups := [⟨1, "g1"⟩, ⟨2, "g2"⟩],
        JSSUsers := [], JSSUserGroups := [], Buildings := [⟨7, "b7"⟩], Departments := [],
        Limitations :=
          { NetworkSegments := [⟨4, "n4"⟩, ⟨5, "n5"⟩], Ibeacons := [],
            Users := [⟨0, "alice"⟩, ⟨0, "bob"⟩], UserGroups := [] },
        Exclusions :=
          { MobileDevices := [], MobileDeviceGroups := [], Buildings := [⟨8, "b8"⟩, ⟨9, "b9"⟩],
            JSSUsers := [], JSSUserGroups := [], Departments := [], NetworkSegments := [],
            Users := [], UserGroups := [], IBeacons := [] } } }

/-- A profile without limitations and without exclusions. -/
def sampleProfileBare : ResourceMobileDeviceConfigurationProfile :=
  { sampleProfile with
    Scope :=
      { sampleProfile.Scope with
        Limitations := { NetworkSegments := [], Ibeacons := [], Users := [], UserGroups := [] },
        Exclusions :=
          { MobileDevices := [], MobileDeviceGroups := [], Buildings := [],
            JSSUsers := [], JSSUserGroups := [], Departments := [], NetworkSegments := [],
            Users := [], UserGroups := [], IBeacons := [] } } }

/-! ## Diagnostics and the Terraform resource data -/

/-- Severity of a diagnostic (`diag.Error`, `diag.Warning`). -/
inductive Severity where
  | Error
  | Warning
deriving DecidableEq, Repr

/-- One `diag.Diagnostic`: severity and summary. -/
structure Diagnostic where
  Severity : Severity
  Summary : String
deriving DecidableEq, Repr

/-- The slice type `diag.Diagnostics`. -/
abbrev Diagnostics := List Diagnostic

/-- SDK `diag.FromErr(err)` for a non-nil error: one error-severity entry whose
summary is the error message. -/
def diagFromErr (err : String) : Diagnostics := [⟨Severity.Error, err⟩]

/-- SDK `diag.Errorf`: one error-severity entry with the formatted message. -/
def diagErrorf (msg : String) : Diagnostics := [⟨Severity.Error, msg⟩]

/-- SDK `Diagnostics.HasError`: some entry has severity `Error`. -/
def HasError (diags : Diagnostics) : Bool := diags.any (fun x => x.Severity = Severity.Error)

/-- The `*schema.ResourceData` handle: the resource ID, the attribute store and
the schema check that `Set` applies.  `setErr k v` is the error `d.Set(k, v)`
returns for that key and value (`none` when the schema accepts the write); it
belongs to the schema and no write changes it. -/
structure ResourceData where
  id : String
  attrs : String → Option Value
  setErr : String → Value → Option String

/-- SDK `d.Set(key, value)` as a deterministic keyed write: when the schema accepts
the value it is stored under the key and nil is returned, otherwise the error is
returned and the store is left as it was. -/
def ResourceData.Set (d : ResourceData) (key : String) (value : Value) :
    ResourceData × Option String :=
  match d.setErr key value with
  | none => ({ d with attrs := fun k => if k = key then some value else d.attrs k }, none)
  | some err => (d, some err)

/-- SDK `d.SetId`. -/
def ResourceData.SetId (d : ResourceData) (v : String) : ResourceData := { d with id := v }

/-- SDK `d.Get(key).(string)`: the stored string, the zero value `""` when the
attribute is unset (the schemas declare these attributes as strings). -/
def ResourceData.GetString (d : ResourceData) (key : String) : String :=
  match d.attrs key with
  | some (Value.leaf (Leaf.str s)) => s
  | _ => ""

/-- The statement `if err := d.Set(k, v); err != nil { diags = append(diags, diag.FromErr(err)...) }`. -/
def setAndCollect (acc : ResourceData × Diagnostics) (key : String) (value : Value) :
    ResourceData × Diagnostics :=
  match acc.1.Set key value with
  | (d', none) => (d', acc.2)
  | (d', some err) => (d', acc.2 ++ diagFromErr err)

/-! ## The state reconciler `updateTerraformState` -/

/-- The map literal `resourceData` of `updateTerraformState` together with the
later assignment `resourceData["level"] = levelValue`, where a remote level
`"System"` is replaced by `"Device Level"`. -/
def resourceData (resource : ResourceMobileDeviceConfigurationProfile) : Block :=
  let m : Block :=
    [("name", Leaf.str resource.General.Name),
     ("description", Leaf.str resource.General.Description),
     ("uuid", Leaf.str resource.General.UUID),
     ("deployment_method", Leaf.str resource.General.DeploymentMethod),
     ("redeploy_on_update", Leaf.str resource.General.RedeployOnUpdate),
     ("redeploy_days_before_cert_expires", Leaf.int resource.General.RedeployDaysBeforeCertExpires)]
  let levelValue := resource.General.Level
  let levelValue := if levelValue = "System" then "Device Level" else levelValue
  mapSet m "level" (Leaf.str levelValue)

/-- The keys of `resourceData`. -/
def resourceDataKeys : List String :=
  ["name", "description", "uuid", "deployment_method", "redeploy_on_update",
   "redeploy_days_before_cert_expires", "level"]

/-- The loop `for k, v := range resourceData { if err := d.Set(k, v); ... }`.  Go
leaves the iteration order of a map unspecified; `rangeOrder` is the order in
which the keys are visited in this run. -/
def rangeSet (m : Block) (rangeOrder : List String) (acc : ResourceData × Diagnostics) :
    ResourceData × Diagnostics :=
  rangeOrder.foldl
    (fun acc k =>
      match mapGet m k with
      | some v => setAndCollect acc k (Value.leaf v)
      | none => acc)
    acc

/-- Source: `updateTerraformState` of the mobile device configuration profile.
`NormalizePayloadState` is the plist helper of the repository (not part of the
sources at hand) and `rangeOrder` the order in which the final `range` visits the
keys of `resourceData`.  Writes, in order: `site` (only when `Site.ID != -1`),
`payloads`, `category` (only when `Category.ID != -1`), `scope` (or the error of
`setScope`), then every entry of `resourceData`. -/
def updateTerraformState (NormalizePayloadState : String → String) (rangeOrder : List String)
    (d : ResourceData) (resource : ResourceMobileDeviceConfigurationProfile) :
    ResourceData × Diagnostics :=
  let acc : ResourceData × Diagnostics := (d, [])
  let site : List Block :=
    if resource.General.Site.ID ≠ -1 then [[("id", Leaf.int resource.General.Site.ID)]] else []
  let acc := if site.length > 0 then setAndCollect acc "site" (Value.blocks site) else acc
  let profile := NormalizePayloadState resource.General.Payloads
  let acc := setAndCollect acc "payloads" (Value.leaf (Leaf.str profile))
  let category : List Block :=
    if resource.General.Category.ID ≠ -1 then [[("id", Leaf.int resource.General.Category.ID)]]
    else []
  let acc := if category.length > 0 then setAndCollect acc "category" (Value.blocks category) else acc
  let acc :=
    match setScope resource with
    | Except.error err => (acc.1, acc.2 ++ diagFromErr err)
    | Except.ok scopeData => setAndCollect acc "scope" (Value.scope [scopeData])
  rangeSet (resourceData resource) rangeOrder acc

/-- The writes `updateTerraformState` attempts, in program order, when the final
`range` visits the keys in the order `rangeOrder`. -/
def attemptedWrites (NormalizePayloadState : String → String) (rangeOrder : List String)
    (resource : ResourceMobileDeviceConfigurationProfile) : List (String × Value) :=
  (if resource.General.Site.ID ≠ -1 then
      [("site", Value.blocks [[("id", Leaf.int resource.General.Site.ID)]])] else []) ++
  [("payloads", Value.leaf (Leaf.str (NormalizePayloadState resource.General.Payloads)))] ++
  (if resource.General.Category.ID ≠ -1 then
      [("category", Value.blocks [[("id", Leaf.int resource.General.Category.ID)]])] else []) ++
  (match setScope resource with
    | Except.ok scopeData => [("scope", Value.scope [scopeData])]
    | Except.error _ => []) ++
  rangeOrder.filterMap (fun k => (mapGet (resourceData resource) k).map (fun v => (k, Value.leaf v)))

/-- A list of writes applied with `setAndCollect`, left to right. -/
def applyWrites (ws : List (String × Value)) (acc : ResourceData × Diagnostics) :
    ResourceData × Diagnostics :=
  ws.foldl (fun acc p => setAndCollect acc p.1 p.2) acc

/-- A state whose schema rejects the attributes `name` and `uuid`. -/
def sampleState : ResourceData :=
  { id := "12",
    attrs := fun _ => none,
    setErr := fun k _ => if k = "name" ∨ k = "uuid" then some ("invalid value for " ++ k) else none }

/-! ## Go `strconv` -/

/-- Go `strconv.Itoa`: the decimal representation, with a leading `-` for
negative numbers. -/
def Itoa (n : Int) : String :=
  match n with
  | Int.ofNat m => Nat.repr m
  | Int.negSucc m => "-" ++ Nat.repr (m + 1)

/-- The digit loop of `strconv.Atoi`: `n = n*10 + int(ch - '0')`, failing on a
byte that is not a decimal digit. -/
def parseDigits : List Char → Nat → Option Nat
  | [], acc => some acc
  | c :: cs, acc =>
    if 48 ≤ c.toNat ∧ c.toNat ≤ 57 then parseDigits cs (acc * 10 + (c.toNat - 48)) else none

/-- Go `strconv.Atoi` on a 64-bit platform: an optional sign `+` or `-`, then at
least one decimal digit and nothing else; a value outside the range of `int`
is an error.  The error is the message of the `*strconv.NumError`. -/
def Atoi (s : String) : Except String Int :=
  let syntaxError : String := "strconv.Atoi: parsing \"" ++ s ++ "\": invalid syntax"
  let rangeError : String := "strconv.Atoi: parsing \"" ++ s ++ "\": value out of range"
  match s.toList with
  | [] => Except.error syntaxError
  | c :: cs =>
    let neg : Bool := c = '-'
    let ds : List Char := if c = '-' ∨ c = '+' then cs else c :: cs
    if ds.length < 1 then Except.error syntaxError
    else
      match parseDigits ds 0 with
      | none => Except.error syntaxError
      | some n =>
        if neg then (if n ≤ 2 ^ 63 then Except.ok (-(n : Int)) else Except.error rangeError)
        else (if n < 2 ^ 63 then Except.ok (n : Int) else Except.error rangeError)

/-! ## Remote system, collaborators and the retry policy -/

/-- The payload exchanged with the remote API (the SDK resource structs); the
orchestration reads only `Name`. -/
structure RemoteResource where
  Name : String
  Payload : String
deriving DecidableEq, Repr

/-- What a run does, in order: calls of the remote API, of the helpers and of
`d.SetId`.  The log is bookkeeping of the model; no code reads it. -/
inductive Event where
  | construct
  | generateHash (path : String)
  | remoteUpload (path : String)
  | remoteCreate (name : String)
  | remoteUpdateByID (id : Int)
  | remoteGetByID (id : Int)
  | remoteDeleteByID (id : Int)
  | remoteDeleteByName (name : String)
  | setId (v : String)
  | waitForResource (id : String)
  | read
  | handleNotFound
  | updateState
deriving DecidableEq, Repr

/-- Is the event a call of the remote API (made directly or by the poller)? -/
def Event.isRemote : Event → Bool
  | Event.remoteUpload _ => true
  | Event.remoteCreate _ => true
  | Event.remoteUpdateByID _ => true
  | Event.remoteGetByID _ => true
  | Event.remoteDeleteByID _ => true
  | Event.remoteDeleteByName _ => true
  | Event.waitForResource _ => true
  | _ => false

/-- Is the event a delete call of the remote API? -/
def Event.isDelete : Event → Bool
  | Event.remoteDeleteByID _ => true
  | Event.remoteDeleteByName _ => true
  | _ => false

/-- The remote system in state `remote : σ` and the log of the run so far. -/
structure World (σ : Type) where
  remote : σ
  trace : List Event

/-- Append an event to the log. -/
def World.log {σ : Type} (w : World σ) (e : Event) : World σ :=
  { w with trace := w.trace ++ [e] }

/-- The SDK client behind `meta`.  Every method takes the state of the remote
system and returns the new state with its answer.  For the distribution point
resource the fields are `CreateDistributionPoint`, `GetDistributionPointByID`,
`UpdateDistributionPointByID`, `DeleteDistributionPointByID` and
`DeleteDistributionPointByName`; for the package resource `CreatePackage`,
`GetPackageByID`, `UpdatePackageByID`, `DeletePackageByID`,
`DeletePackageByName` and the upload `CreateJCDS2PackageV2`. -/
structure Client (σ : Type) where
  Create : σ → RemoteResource → σ × Except String Int
  GetByID : σ → Int → σ × Except String RemoteResource
  UpdateByID : σ → Int → RemoteResource → σ × Option String
  DeleteByID : σ → Int → σ × Option String
  DeleteByName : σ → String → σ × Option String
  CreateJCDS2PackageV2 : σ → String → σ × Except String String

/-- Code of the repository outside the sources at hand, taken as parameters:
the `construct…` function of the resource, `waitfor.ResourceIsAvailable` (given
the state, the ID and the check function; it works on the remote system only),
`state.HandleResourceNotFoundError`, the `updateTerraformState` of the resource
and `generateMD5FileHash`; and the three timeouts `d.Timeout(…)`, each as the
number of closure runs that fit into it. -/
structure Env (σ : Type) where
  construct : ResourceData → Except String RemoteResource
  ResourceIsAvailable : ResourceData → String →
    (String → σ → σ × Except String RemoteResource) → σ → σ × Diagnostics
  HandleResourceNotFoundError : String → ResourceData → ResourceData × Diagnostics
  updateTerraformState : ResourceData → RemoteResource → ResourceData × Diagnostics
  generateMD5FileHash : String → Except String String
  TimeoutCreate : Nat
  TimeoutUpdate : Nat
  TimeoutDelete : Nat

/-- SDK `*retry.RetryError`: the error and whether the call may be repeated. -/
structure RetryError where
  Err : String
  Retryable : Bool
deriving DecidableEq, Repr

/-- SDK `retry.RetryableError(err)`. -/
def RetryableError (err : String) : RetryError := ⟨err, true⟩

/-- SDK `retry.RetryContext(ctx, timeout, f)`, with the timeout counted in runs
of `f`: `f` is run again while it reports a retryable error and the timeout
allows; nil from `f` ends with nil, a non-retryable error ends with that error
at once, and when the timeout is reached the last error of `f` is returned (the
timeout error when `f` never reported one).  `resultErr` is the variable of that
name in the SDK function. -/
def RetryContext {S : Type} (f : S → S × Option RetryError) :
    Nat → S → Option String → S × Option String
  | 0, s, resultErr =>
    (s, some (resultErr.getD "timeout while waiting for state to become \x27success\x27"))
  | timeout + 1, s, _ =>
    match f s with
    | (s', none) => (s', none)
    | (s', some rerr) =>
      if rerr.Retryable then RetryContext f timeout s' (some rerr.Err) else (s', some rerr.Err)

/-! ## Read, Create and Delete of the two resources -/

/-- Source: the closure `checkResourceExists` of both Create functions: parse the
ID, then fetch by ID; a malformed ID is an error and no fetch is made. -/
def checkResourceExists {σ : Type} (client : Client σ) (id : String) (remote : σ) :
    σ × Except String RemoteResource :=
  match Atoi id with
  | Except.error err =>
    (remote, Except.error ("error converting ID \x27" ++ id ++ "\x27 to integer: " ++ err))
  | Except.ok intID => client.GetByID remote intID

/-- The body shared by `ResourceJamfProFileShareDistributionPointsRead` and
`ResourceJamfProPackagesRead`, which differ in the message of the failed `meta`
assertion only. -/
def resourceRead {σ : Type} (assertMsg : String) (env : Env σ) (clientOfMeta : Option (Client σ))
    (d : ResourceData) (w : World σ) : ResourceData × World σ × Diagnostics :=
  let w := w.log Event.read
  match clientOfMeta with
  | none => (d, w, diagErrorf assertMsg)
  | some client =>
    let resourceID := d.id
    match Atoi resourceID with
    | Except.error err =>
      (d, w, diagFromErr ("error converting resource ID \x27" ++ resourceID ++ "\x27 to int: " ++ err))
    | Except.ok resourceIDInt =>
      let w := w.log (Event.remoteGetByID resourceIDInt)
      match client.GetByID w.remote resourceIDInt with
      | (remote, Except.error err) =>
        let w : World σ := { w with remote := remote }
        let w := w.log Event.handleNotFound
        let (d, diags) := env.HandleResourceNotFoundError err d
        (d, w, diags)
      | (remote, Except.ok resource) =>
        let w : World σ := { w with remote := remote }
        let w := w.log Event.updateState
        let (d, diags) := env.updateTerraformState d resource
        if diags.length > 0 then (d, w, diags) else (d, w, [])

/-- Source: `ResourceJamfProFileShareDistributionPointsRead`.  `clientOfMeta` is
the outcome of the assertion `meta.(*jamfpro.Client)`, `none` when it fails. -/
def ResourceJamfProFileShareDistributionPointsRead {σ : Type} (env : Env σ)
    (clientOfMeta : Option (Client σ)) (d : ResourceData) (w : World σ) :
    ResourceData × World σ × Diagnostics :=
  resourceRead "error asserting meta as *client.client" env clientOfMeta d w

/-- Source: `ResourceJamfProPackagesRead`. -/
def ResourceJamfProPackagesRead {σ : Type} (env : Env σ)
    (clientOfMeta : Option (Client σ)) (d : ResourceData) (w : World σ) :
    ResourceData × World σ × Diagnostics :=
  resourceRead "error asserting meta as *client.APIClient" env clientOfMeta d w

/-- The closure passed to `retry.RetryContext` by the fileshare Create.  Its state
is the world and the captured variable `creationResponse` (the ID of the
response, `none` for nil). -/
def createAttempt {σ : Type} (client : Client σ) (resource : RemoteResource)
    (s : World σ × Option Int) : (World σ × Option Int) × Option RetryError :=
  let w := s.1.log (Event.remoteCreate resource.Name)
  match client.Create w.remote resource with
  | (remote, Except.error apiErr) => (({ w with remote := remote }, none), some (RetryableError apiErr))
  | (remote, Except.ok id) => (({ w with remote := remote }, some id), none)

/-- The tail shared by both Create functions once the remote create has returned
ID `id`: run the poller, return its diagnostics when they contain an error,
otherwise run `read`.  `diags` are the diagnostics gathered before the poll and
`merge` is what the function does with the diagnostics of Read. -/
def waitAndRead {σ : Type} (env : Env σ) (client : Client σ)
    (read : ResourceData → World σ → ResourceData × World σ × Diagnostics)
    (merge : Diagnostics → Diagnostics → Diagnostics)
    (id : Int) (diags : Diagnostics) (d : ResourceData) (w : World σ) :
    ResourceData × World σ × Diagnostics :=
  let w := w.log (Event.waitForResource (Itoa id))
  let (remote, waitDiags) := env.ResourceIsAvailable d (Itoa id) (checkResourceExists client) w.remote
  let w : World σ := { w with remote := remote }
  if HasError waitDiags then (d, w, waitDiags)
  else
    let (d, w, readDiags) := read d w
    (d, w, merge diags readDiags)

/-- Source: `ResourceJamfProFileShareDistributionPointsCreate`: construct, the
retried remote create, `d.SetId`, the poller, Read.  When Read returns
diagnostics they are returned, otherwise the empty `diags`. -/
def ResourceJamfProFileShareDistributionPointsCreate {σ : Type} (env : Env σ)
    (clientOfMeta : Option (Client σ)) (d : ResourceData) (w : World σ) :
    ResourceData × World σ × Diagnostics :=
  match clientOfMeta with
  | none => (d, w, diagErrorf "error asserting meta as *client.client")
  | some client =>
    let diags : Diagnostics := []
    let w := w.log Event.construct
    match env.construct d with
    | Except.error err =>
      (d, w, diagFromErr ("failed to construct Jamf Pro Fileshare Distribution Point: " ++ err))
    | Except.ok resource =>
      match RetryContext (createAttempt client resource) env.TimeoutCreate (w, none) none with
      | ((w, _), some err) =>
        (d, w, diagFromErr ("failed to create Jamf Pro Fileshare Distribution Point \x27"
          ++ resource.Name ++ "\x27 after retries: " ++ err))
      | ((w, none), none) =>
        -- not reachable: a run of the closure that reports success stores the response
        (d, w, diagErrorf "nil creationResponse")
      | ((w, some id), none) =>
        let d := d.SetId (Itoa id)
        let w := w.log (Event.setId (Itoa id))
        waitAndRead env client (ResourceJamfProFileShareDistributionPointsRead env clientOfMeta)
          (fun diags readDiags => if readDiags.length > 0 then readDiags else diags) id diags d w

/-- Source: `ResourceJamfProPackagesCreate`: upload of the file, hash, construct,
one remote create, `d.SetId`, the two attribute writes, the poller, Read.  The
`fmt.Printf` of the upload URI is output only and is left out. -/
def ResourceJamfProPackagesCreate {σ : Type} (env : Env σ)
    (clientOfMeta : Option (Client σ)) (d : ResourceData) (w : World σ) :
    ResourceData × World σ × Diagnostics :=
  match clientOfMeta with
  | none => (d, w, diagErrorf "error asserting meta as *client.APIClient")
  | some conn =>
    let diags : Diagnostics := []
    let filePath := d.GetString "package_file_path"
    let w := w.log (Event.remoteUpload filePath)
    match conn.CreateJCDS2PackageV2 w.remote filePath with
    | (remote, Except.error err) =>
      (d, { w with remote := remote }, diagFromErr ("failed to upload file to JCDS 2.0 with file path \x27"
        ++ filePath ++ "\x27: " ++ err))
    | (remote, Except.ok packageURI) =>
      let w : World σ := { w with remote := remote }
      let fullPath := d.GetString "package_file_path"
      let w := w.log (Event.generateHash fullPath)
      match env.generateMD5FileHash fullPath with
      | Except.error err =>
        (d, w, diagFromErr ("failed to generate file hash for " ++ fullPath ++ ": " ++ err))
      | Except.ok fileHash =>
        let w := w.log Event.construct
        match env.construct d with
        | Except.error err => (d, w, diagFromErr ("failed to construct Jamf Pro Package: " ++ err))
        | Except.ok packageResource =>
          let w := w.log (Event.remoteCreate packageResource.Name)
          match conn.Create w.remote packageResource with
          | (remote, Except.error err) =>
            (d, { w with remote := remote }, diagFromErr ("failed to create Jamf Pro Package \x27"
              ++ packageResource.Name ++ "\x27: " ++ err))
          | (remote, Except.ok id) =>
            let w : World σ := { w with remote := remote }
            let d := d.SetId (Itoa id)
            let w := w.log (Event.setId (Itoa id))
            let acc := setAndCollect (d, diags) "package_uri" (Value.leaf (Leaf.str packageURI))
            let acc := setAndCollect acc "md5_file_hash" (Value.leaf (Leaf.str fileHash))
            waitAndRead env conn (ResourceJamfProPackagesRead env clientOfMeta)
              (fun diags readDiags => if readDiags.length > 0 then diags ++ readDiags else diags)
              id acc.2 acc.1 w

/-- The closure passed to `retry.RetryContext` by both Delete functions: delete by
ID; when that fails delete by the name in the state; when that fails too, report
a retryable error. -/
def deleteAttempt {σ : Type} (client : Client σ) (resourceIDInt : Int) (d : ResourceData)
    (w : World σ) : World σ × Option RetryError :=
  let w := w.log (Event.remoteDeleteByID resourceIDInt)
  match client.DeleteByID w.remote resourceIDInt with
  | (remote, none) => ({ w with remote := remote }, none)
  | (remote, some _) =>
    let w : World σ := { w with remote := remote }
    let resourceName := d.GetString "name"
    let w := w.log (Event.remoteDeleteByName resourceName)
    match client.DeleteByName w.remote resourceName with
    | (remote, some apiErrByName) => ({ w with remote := remote }, some (RetryableError apiErrByName))
    | (remote, none) => ({ w with remote := remote }, none)

/-- The body shared by `ResourceJamfProFileShareDistributionPointsDelete` and
`ResourceJamfProPackagesDelete`, which differ in their two messages only. -/
def resourceDelete {σ : Type} (assertMsg failMsg : String) (env : Env σ)
    (clientOfMeta : Option (Client σ)) (d : ResourceData) (w : World σ) :
    ResourceData × World σ × Diagnostics :=
  match clientOfMeta with
  | none => (d, w, diagErrorf assertMsg)
  | some client =>
    let diags : Diagnostics := []
    let resourceID := d.id
    match Atoi resourceID with
    | Except.error err =>
      (d, w, diagFromErr ("error converting resource ID \x27" ++ resourceID ++ "\x27 to int: " ++ err))
    | Except.ok resourceIDInt =>
      match RetryContext (deleteAttempt client resourceIDInt d) env.TimeoutDelete w none with
      | (w, some err) =>
        (d, w, diagFromErr (failMsg ++ " \x27" ++ d.GetString "name" ++ "\x27 (ID: "
          ++ Itoa resourceIDInt ++ ") after retries: " ++ err))
      | (w, none) =>
        let d := d.SetId ""
        let w := w.log (Event.setId "")
        (d, w, diags)

/-- Source: `ResourceJamfProFileShareDistributionPointsDelete`. -/
def ResourceJamfProFileShareDistributionPointsDelete {σ : Type} (env : Env σ)
    (clientOfMeta : Option (Client σ)) (d : ResourceData) (w : World σ) :
    ResourceData × World σ × Diagnostics :=
  resourceDelete "error asserting meta as *client.client"
    "failed to delete Jamf Pro file share distribution point" env clientOfMeta d w

/-- Source: `ResourceJamfProPackagesDelete`. -/
def ResourceJamfProPackagesDelete {σ : Type} (env : Env σ)
    (clientOfMeta : Option (Client σ)) (d : ResourceData) (w : World σ) :
    ResourceData × World σ × Diagnostics :=
  resourceDelete "error asserting meta as *client.APIClient"
    "failed to delete Jamf Pro Package" env clientOfMeta d w

/-! ## Runs of the retried closure, and sample collaborators -/

/-- The state after `j` runs of the closure `f` from `s` that all reported a
retryable error; `none` when one of these runs did not. -/
def attemptsFail {S : Type} (f : S → S × Option RetryError) : Nat → S → Option S
  | 0, s => some s
  | j + 1, s =>
    match f s with
    | (s', some rerr) => if rerr.Retryable then attemptsFail f j s' else none
    | (_, none) => none

/-- A remote system that counts the calls it has received.  Create fails while
fewer than `createFails` calls were made and then answers ID 42; delete by ID
always fails; delete by name fails while fewer than `deleteFails` calls were
made. -/
def countingClient (createFails deleteFails : Nat) : Client Nat :=
  { Create := fun s _ =>
      (s + 1, if s < createFails then Except.error "503 unavailable" else Except.ok 42),
    GetByID := fun s _ => (s + 1, Except.ok ⟨"dp-1", "payload"⟩),
    UpdateByID := fun s _ _ => (s + 1, none),
    DeleteByID := fun s _ => (s + 1, some "404 unknown id"),
    DeleteByName := fun s _ => (s + 1, if s < deleteFails then some "409 busy" else none),
    CreateJCDS2PackageV2 := fun s path => (s + 1, Except.ok ("jcds://" ++ path)) }

/-- Sample helpers: construct succeeds with the name in the state, the poller
runs the check once and reports an error diagnostic when `pollFails`, the state
update writes the name, and the timeouts allow three runs. -/
def sampleEnv (pollFails : Bool) : Env Nat :=
  { construct := fun d => Except.ok ⟨d.GetString "name", "payload"⟩,
    ResourceIsAvailable := fun _ id check s =>
      ((check id s).1,
        if pollFails then [⟨Severity.Error, "resource " ++ id ++ " did not become available"⟩] else []),
    HandleResourceNotFoundError := fun err d => (d.SetId "", [⟨Severity.Warning, err⟩]),
    updateTerraformState := fun d r => ((d.Set "name" (Value.leaf (Leaf.str r.Name))).1, []),
    generateMD5FileHash := fun _ => Except.ok "9e107d9d372bb6826bd81d3542a419d6",
    TimeoutCreate := 3,
    TimeoutUpdate := 3,
    TimeoutDelete := 3 }

/-- Sample helpers whose construct function rejects the configuration. -/
def sampleEnvBadConstruct : Env Nat :=
  { sampleEnv false with construct := fun _ => Except.error "name is required" }

/-- A stored resource with ID `"12"`, name `dp-1` and a package file path; its
schema accepts every write. -/
def sampleResourceData : ResourceData :=
  { id := "12",
    attrs := fun k =>
      if k = "name" then some (Value.leaf (Leaf.str "dp-1"))
      else if k = "package_file_path" then some (Value.leaf (Leaf.str "/tmp/a.pkg"))
      else none,
    setErr := fun _ _ => none }

/-- The world before a run: the counting remote system at 0 and an empty log. -/
def sampleWorld : World Nat := { remote := 0, trace := [] }

/-- The events that follow a successful remote create: `d.SetId`, the poller and
Read. -/
def Event.isAfterCreate : Event → Bool
  | Event.setId _ => true
  | Event.waitForResource _ => true
  | Event.read => true
  | _ => false

/-- The fileshare Create fails at construct or at the retried remote create. -/
def FileShareCreateFails {σ : Type} (env : Env σ) (client : Client σ) (d : ResourceData)
    (w : World σ) : Prop :=
  (∃ e, env.construct d = Except.error e) ∨
  (∃ resource e, env.construct d = Except.ok resource ∧
    (RetryContext (createAttempt client resource) env.TimeoutCreate
      (w.log Event.construct, none) none).2 = some e)

/-- The package Create, after a successful upload and hash, fails at construct or
at the remote create. -/
def PackagesCreateFails {σ : Type} (env : Env σ) (conn : Client σ) (d : ResourceData)
    (w : World σ) : Prop :=
  ∃ r₁ uri hash,
    conn.CreateJCDS2PackageV2 w.remote (d.GetString "package_file_path") = (r₁, Except.ok uri) ∧
    env.generateMD5FileHash (d.GetString "package_file_path") = Except.ok hash ∧
    ((∃ e, env.construct d = Except.error e) ∨
     (∃ resource r₂ e, env.construct d = Except.ok resource ∧
        conn.Create r₁ resource = (r₂, Except.error e)))

/-! ## Update of the two resources -/

/-- The closure passed to `retry.RetryContext` by the fileshare Update: update by
ID, every error reported as retryable. -/
def updateAttempt {σ : Type} (client : Client σ) (resourceIDInt : Int) (resource : RemoteResource)
    (w : World σ) : World σ × Option RetryError :=
  let w := w.log (Event.remoteUpdateByID resourceIDInt)
  match client.UpdateByID w.remote resourceIDInt resource with
  | (remote, some apiErr) => ({ w with remote := remote }, some (RetryableError apiErr))
  | (remote, none) => ({ w with remote := remote }, none)

/-- Source: `ResourceJamfProFileShareDistributionPointsUpdate`: parse the ID,
construct, the retried remote update by ID, then Read, whose diagnostics are
appended to the empty `diags`. -/
def ResourceJamfProFileShareDistributionPointsUpdate {σ : Type} (env : Env σ)
    (clientOfMeta : Option (Client σ)) (d : ResourceData) (w : World σ) :
    ResourceData × World σ × Diagnostics :=
  match clientOfMeta with
  | none => (d, w, diagErrorf "error asserting meta as *client.client")
  | some client =>
    let diags : Diagnostics := []
    let resourceID := d.id
    match Atoi resourceID with
    | Except.error err =>
      (d, w, diagFromErr ("error converting resource ID \x27" ++ resourceID ++ "\x27 to int: " ++ err))
    | Except.ok resourceIDInt =>
      let w := w.log Event.construct
      match env.construct d with
      | Except.error err =>
        (d, w, diagFromErr
          ("failed to construct Jamf Pro file share distribution point for update: " ++ err))
      | Except.ok resource =>
        match RetryContext (updateAttempt client resourceIDInt resource) env.TimeoutUpdate w none with
        | (w, some err) =>
          (d, w, diagFromErr ("failed to update Jamf Pro file share distribution point \x27"
            ++ resource.Name ++ "\x27 (ID: " ++ Itoa resourceIDInt ++ ") after retries: " ++ err))
        | (w, none) =>
          let (d, w, readDiags) := ResourceJamfProFileShareDistributionPointsRead env clientOfMeta d w
          if readDiags.length > 0 then (d, w, diags ++ readDiags) else (d, w, diags)

/-- SDK `d.HasChange(key)`: the value of the key in the prior state `state` differs
from the value `d.Get` returns. -/
def ResourceData.HasChange (d : ResourceData) (state : String → Option Value) (key : String) :
    Bool :=
  decide (state key ≠ d.attrs key)

/-- SDK `d.GetChange(key)`, first result, asserted to be a string: the value of
the key in the prior state, `""` when unset. -/
def GetChangeOld (state : String → Option Value) (key : String) : String :=
  match state key with
  | some (Value.leaf (Leaf.str s)) => s
  | _ => ""

/-- Go `filepath.Base` with `/` as separator: `.` for the empty path, trailing
separators dropped, then the part after the last separator, `/` when nothing is
left. -/
def filepathBase (path : String) : String :=
  if path = "" then "."
  else
    let stripped := (path.toList.reverse.dropWhile (fun c => c = '/')).reverse
    let last := (stripped.reverse.takeWhile (fun c => c ≠ '/')).reverse
    if last = [] then "/" else String.mk last

/-- The block of `ResourceJamfProPackagesUpdate` guarded by
`d.HasChange("package_file_path")`: hash the file, and when the hash differs from
the stored one upload the file and write the three attributes (the errors of
these `d.Set` calls are dropped by the code).  The result is the error
diagnostics of an early return, if any. -/
def packagesUploadIfChanged {σ : Type} (env : Env σ) (conn : Client σ)
    (state : String → Option Value) (d : ResourceData) (w : World σ) :
    ResourceData × World σ × Option Diagnostics :=
  if d.HasChange state "package_file_path" then
    let filePath := d.GetString "package_file_path"
    let w := w.log (Event.generateHash filePath)
    match env.generateMD5FileHash filePath with
    | Except.error err =>
      (d, w, some (diagFromErr ("failed to generate file hash for " ++ filePath ++ ": " ++ err)))
    | Except.ok newFileHash =>
      let oldFileHash := GetChangeOld state "md5_file_hash"
      if newFileHash ≠ oldFileHash then
        let w := w.log (Event.remoteUpload filePath)
        match conn.CreateJCDS2PackageV2 w.remote filePath with
        | (remote, Except.error err) =>
          (d, { w with remote := remote },
            some (diagFromErr ("failed to upload file to JCDS 2.0 with file path \x27"
              ++ filePath ++ "\x27: " ++ err)))
        | (remote, Except.ok uri) =>
          let w : World σ := { w with remote := remote }
          let d := (d.Set "package_uri" (Value.leaf (Leaf.str uri))).1
          let d := (d.Set "md5_file_hash" (Value.leaf (Leaf.str newFileHash))).1
          let d := (d.Set "filename" (Value.leaf (Leaf.str (filepathBase filePath)))).1
          (d, w, none)
      else (d, w, none)
  else (d, w, none)

/-- Source: `ResourceJamfProPackagesUpdate`.  `state` is the prior state that `d`
carries for `HasChange` and `GetChange`.  Parse the ID, the guarded upload,
construct, one remote update by ID, then Read, whose diagnostics are appended
only when they contain an error. -/
def ResourceJamfProPackagesUpdate {σ : Type} (env : Env σ)
    (clientOfMeta : Option (Client σ)) (state : String → Option Value) (d : ResourceData)
    (w : World σ) : ResourceData × World σ × Diagnostics :=
  match clientOfMeta with
  | none => (d, w, diagErrorf "error asserting meta as *client.APIClient")
  | some conn =>
    let diags : Diagnostics := []
    match Atoi d.id with
    | Except.error err =>
      (d, w, diagFromErr ("error converting package ID \x27" ++ d.id ++ "\x27 to integer: " ++ err))
    | Except.ok packageID =>
      match packagesUploadIfChanged env conn state d w with
      | (d, w, some errDiags) => (d, w, errDiags)
      | (d, w, none) =>
        let w := w.log Event.construct
        match env.construct d with
        | Except.error err =>
          (d, w, diagFromErr ("failed to construct package for update: " ++ err))
        | Except.ok packageResource =>
          let w := w.log (Event.remoteUpdateByID packageID)
          match conn.UpdateByID w.remote packageID packageResource with
          | (remote, some err) =>
            (d, { w with remote := remote }, diagFromErr ("failed to update package with ID "
              ++ Itoa packageID ++ ": " ++ err))
          | (remote, none) =>
            let w : World σ := { w with remote := remote }
            let (d, w, readDiags) := ResourceJamfProPackagesRead env clientOfMeta d w
            if HasError readDiags then (d, w, diags ++ readDiags) else (d, w, diags)

/-! ## Helpers outside the sources, modelled from the specification -/

/-- Modelled from the spec: `state.HandleResourceNotFoundError`, which both Read
functions call on a failed fetch and whose code is not among the sources.  The
specification of Read says: on "not found", signal that the local configuration
should be cleared rather than erroring; on other errors, surface as terminal.
`isNotFound` is the classification rule of the remote API collaborator; the
signal to clear the local configuration is `d.SetId("")`. -/
def HandleResourceNotFoundError (isNotFound : String → Bool) (err : String) (d : ResourceData) :
    ResourceData × Diagnostics :=
  if isNotFound err then (d.SetId "", []) else (d, diagFromErr err)

/-- Modelled from the spec: the availability poller `waitfor.ResourceIsAvailable`,
whose code is not among the sources, after the contract
`waitUntilAvailable(identity, checkFn, pollInterval, deadline)`: `checkFn` is
invoked at `pollInterval` spacing until it returns the entity or the deadline
elapses; "not found yet" is a normal condition, any other error of `checkFn`
aborts polling at once with an error diagnostic; on deadline expiry a
warning-level diagnostic describes the timeout.  Durations are natural numbers,
`elapsed` is the time of the next poll, and `fuel` bounds the number of loop
rounds (`none` when it runs out). -/
def waitUntilAvailable {σ : Type} (isNotFound : String → Bool)
    (checkFn : String → σ → σ × Except String RemoteResource) (pollInterval deadline : Nat)
    (identity : String) : Nat → Nat → σ → Option (σ × Option RemoteResource × Diagnostics)
  | 0, _, _ => none
  | fuel + 1, elapsed, s =>
    if deadline ≤ elapsed then
      some (s, none, [⟨Severity.Warning, "timeout while waiting for resource " ++ identity⟩])
    else
      match checkFn identity s with
      | (s', Except.ok entity) => some (s', some entity, [])
      | (s', Except.error err) =>
        if isNotFound err then
          waitUntilAvailable isNotFound checkFn pollInterval deadline identity fuel
            (elapsed + pollInterval) s'
        else some (s', none, diagFromErr err)

/-- The state after `n` polls of `checkFn` from `s` that all reported "not found";
`none` when one of these polls did not. -/
def checksNotFound {σ : Type} (isNotFound : String → Bool)
    (checkFn : String → σ → σ × Except String RemoteResource) (identity : String) :
    Nat → σ → Option σ
  | 0, s => some s
  | n + 1, s =>
    match checkFn identity s with
    | (s', Except.error err) =>
      if isNotFound err then checksNotFound isNotFound checkFn identity n s' else none
    | (_, Except.ok _) => none

/-! ## The `connection_type` validator -/

/-- Source: the `ValidateFunc` of `connection_type` in the fileshare schema.  The
value is a `Leaf`, `GetString` is the helper `util.GetString` of the repository
(not among the sources), and the result is the pair `(warns, errs)`. -/
def connectionTypeValidateFunc (GetString : Leaf → String) (val : Leaf) (key : String) :
    List String × List String :=
  let warns : List String := []
  let errs : List String := []
  let v := GetString val
  let validTypes : List (String × Bool) := [("SMB", true), ("AFP", true)]
  let errs :=
    if (mapGet validTypes v).isNone then
      errs ++ ["\"" ++ key ++ "\" must be one of \x27SMB\x27, or \x27AFP\x27, got: " ++ v]
    else errs
  (warns, errs)

/-! ## More sample collaborators -/

/-- Sample helpers whose poller runs the check once and reports a timeout warning. -/
def sampleEnvPollWarns : Env Nat :=
  { sampleEnv false with
    ResourceIsAvailable := fun _ id check s =>
      ((check id s).1, [⟨Severity.Warning, "timeout while waiting for resource " ++ id⟩]) }

/-- The classification rule of the samples: the error `404 not found`. -/
def sampleIsNotFound (err : String) : Bool := decide (err = "404 not found")

/-- Sample helpers with the not-found handling modelled from the specification. -/
def sampleEnvSpec : Env Nat :=
  { sampleEnv false with
    HandleResourceNotFoundError := HandleResourceNotFoundError sampleIsNotFound,
    updateTerraformState := fun d _ => (d, []) }

/-- A remote system that rejects every create, update and delete with a
validation error and counts the calls. -/
def rejectingClient : Client Nat :=
  { Create := fun s _ => (s + 1, Except.error "400 bad request"),
    GetByID := fun s _ => (s + 1, Except.ok ⟨"dp-1", "payload"⟩),
    UpdateByID := fun s _ _ => (s + 1, some "400 bad request"),
    DeleteByID := fun s _ => (s + 1, some "400 bad request"),
    DeleteByName := fun s _ => (s + 1, some "400 bad request"),
    CreateJCDS2PackageV2 := fun s path => (s + 1, Except.ok ("jcds://" ++ path)) }

/-- A remote system that accepts updates but no longer knows the resource: every
fetch by ID answers `404 not found`. -/
def goneClient : Client Nat :=
  { Create := fun s _ => (s + 1, Except.ok 42),
    GetByID := fun s _ => (s + 1, Except.error "404 not found"),
    UpdateByID := fun s _ _ => (s + 1, none),
    DeleteByID := fun s _ => (s + 1, none),
    DeleteByName := fun s _ => (s + 1, none),
    CreateJCDS2PackageV2 := fun s path => (s + 1, Except.ok ("jcds://" ++ path)) }

/-- A remote system on which the resource becomes visible late: a fetch by ID
answers `404 not found` while fewer than `lag` calls were made. -/
def laggingClient (lag : Nat) : Client Nat :=
  { Create := fun s _ => (s + 1, Except.ok 42),
    GetByID := fun s _ =>
      (s + 1, if s < lag then Except.error "404 not found" else Except.ok ⟨"dp-1", "payload"⟩),
    UpdateByID := fun s _ _ => (s + 1, none),
    DeleteByID := fun s _ => (s + 1, none),
    DeleteByName := fun s _ => (s + 1, none),
    CreateJCDS2PackageV2 := fun s path => (s + 1, Except.ok ("jcds://" ++ path)) }

/-- The steps of a Read: the call itself, the fetch and what follows it. -/
def Event.isReadStep : Event → Bool
  | Event.read => true
  | Event.remoteGetByID _ => true
  | Event.handleNotFound => true
  | Event.updateState => true
  | _ => false

/-- Is the event a create call of the remote API? -/
def Event.isCreate : Event → Bool
  | Event.remoteCreate _ => true
  | _ => false

/-- The outcome of a Read whose fetch by ID answered `res`, with the not-found
handling modelled from the specification. -/
def ReadOutcome {σ : Type} (env : Env σ) (isNotFound : String → Bool) (d : ResourceData)
    (w : World σ) (n : Int) (res : Except String RemoteResource)
    (out : ResourceData × World σ × Diagnostics) : Prop :=
  match res with
  | Except.error err =>
    (isNotFound err = true → out.1 = d.SetId "" ∧ HasError out.2.2 = false) ∧
    (isNotFound err = false → out.1 = d ∧ HasError out.2.2 = true) ∧
    out.2.1.trace = w.trace ++ [Event.read, Event.remoteGetByID n, Event.handleNotFound] ∧
    Event.updateState ∉ [Event.read, Event.remoteGetByID n, Event.handleNotFound]
  | Except.ok resource =>
    out.2.2 = (env.updateTerraformState d resource).2 ∧
    out.1 = (env.updateTerraformState d resource).1 ∧
    out.2.1.trace = w.trace ++ [Event.read, Event.remoteGetByID n, Event.updateState]

/-- A sample of the helper `util.GetString`: the string held by the value, `""` for
a value that is not a string. -/
def sampleGetString : Leaf → String
  | Leaf.str s => s
  | _ => ""

/-! ## The `category` validator of the package resource -/

/-- What `%T` prints for a value: the name of its Go type. -/
def goTypeName : Leaf → String
  | Leaf.str _ => "string"
  | Leaf.int _ => "int"
  | Leaf.bool _ => "bool"
  | Leaf.ints _ => "[]int"
  | Leaf.strs _ => "[]string"

/-- The error of the `category` validator for a value that is not a string:
`fmt.Errorf("%q must be a string, got: %T", key, val)`. -/
def categoryNotStringError (key : String) (val : Leaf) : String :=
  "\"" ++ key ++ "\" must be a string, got: " ++ goTypeName val

/-- The error of the `category` validator for the empty string. -/
def categoryEmptyError (key : String) : String :=
  "\"" ++ key ++ "\" must not be empty. Either set \x27Unknown\x27 to apply no package category or a supply a valid category name string"

/-- The error of the third branch of the `category` validator:
`fmt.Errorf("%q must be 'Unknown' or a non-empty string", key)`. -/
def categoryUnknownError (key : String) : String :=
  "\"" ++ key ++ "\" must be \x27Unknown\x27 or a non-empty string"

/-- Source: the `ValidateFunc` of `category` in the package schema.  The type
assertion `val.(string)` is the match on the value, `len(v)` is the length of the
string in bytes, and the result is the pair `(warns, errs)`. -/
def categoryValidateFunc (val : Leaf) (key : String) : List String × List String :=
  let warns : List String := []
  let errs : List String := []
  match val with
  | Leaf.str v =>
    let errs :=
      if v = "" then errs ++ [categoryEmptyError key]
      else if v ≠ "Unknown" ∧ v.utf8ByteSize = 0 then errs ++ [categoryUnknownError key]
      else errs
    (warns, errs)
  | _ => (warns, errs ++ [categoryNotStringError key val])

/-! ## Predicates for the guarded upload and the scope blocks -/

/-- Is the event a computation of the file hash? -/
def Event.isHash : Event → Bool
  | Event.generateHash _ => true
  | _ => false

/-- Is the event an upload of the package file? -/
def Event.isUpload : Event → Bool
  | Event.remoteUpload _ => true
  | _ => false

/-- No collection of the limitations contributes a value: every network segment,
iBeacon and user group has ID 0 and every user has the empty name. -/
def Limitation.NothingToReport (a : Limitation) : Prop :=
  (∀ e ∈ a.NetworkSegments, e.ID = 0) ∧ (∀ e ∈ a.Ibeacons, e.ID = 0) ∧
  (∀ e ∈ a.Users, e.Name = "") ∧ (∀ e ∈ a.UserGroups, e.ID = 0)

/-- No collection of the exclusions contributes a value. -/
def Exclusion.NothingToReport (a : Exclusion) : Prop :=
  (∀ e ∈ a.MobileDevices, e.ID = 0) ∧ (∀ e ∈ a.MobileDeviceGroups, e.ID = 0) ∧
  (∀ e ∈ a.Buildings, e.ID = 0) ∧ (∀ e ∈ a.JSSUsers, e.ID = 0) ∧
  (∀ e ∈ a.JSSUserGroups, e.ID = 0) ∧ (∀ e ∈ a.Departments, e.ID = 0) ∧
  (∀ e ∈ a.NetworkSegments, e.ID = 0) ∧ (∀ e ∈ a.Users, e.Name = "") ∧
  (∀ e ∈ a.UserGroups, e.ID = 0) ∧ (∀ e ∈ a.IBeacons, e.ID = 0)

/-- The value is a list with at least one element. -/
def Leaf.isNonEmptyList : Leaf → Bool
  | Leaf.ints l => !l.isEmpty
  | Leaf.strs l => !l.isEmpty
  | _ => false

/-- Limitations whose collections are non-empty but hold only zero IDs and empty
names. -/
def sampleLimitationZeros : Limitation :=
  { NetworkSegments := [⟨0, "lan"⟩], Ibeacons := [⟨0, "b"⟩, ⟨0, "c"⟩],
    Users := [⟨7, ""⟩], UserGroups := [] }

/-- Limitations with one user group of ID 5 among zero-ID entries. -/
def sampleLimitationOne : Limitation :=
  { NetworkSegments := [⟨0, "lan"⟩], Ibeacons := [], Users := [],
    UserGroups := [⟨0, "g0"⟩, ⟨5, "g5"⟩] }

/-- Exclusions with two buildings, one of them with ID 0. -/
def sampleExclusionOne : Exclusion :=
  { MobileDevices := [], MobileDeviceGroups := [], Buildings := [⟨0, "hq"⟩, ⟨3, "lab"⟩],
    JSSUsers := [], JSSUserGroups := [], Departments := [], NetworkSegments := [],
    Users := [], UserGroups := [], IBeacons := [] }

/-- A stored package whose ID is not a decimal integer. -/
def sampleResourceDataBadId : ResourceData := { sampleResourceData with id := "abc" }

/-- The outcome `out` of an operation started on the state `d` and the world `w`
that ended in an error before any call of the remote API: the state (its ID
included) is as it was, the diagnostics hold an error, the remote system is
untouched and no logged event is a remote call. -/
def FailsWithoutRemoteCall {σ : Type} (d : ResourceData) (w : World σ)
    (out : ResourceData × World σ × Diagnostics) : Prop :=
  out.1 = d ∧ HasError out.2.2 = true ∧ out.2.1.remote = w.remote ∧
  ∃ t, out.2.1.trace = w.trace ++ t ∧ ∀ ev ∈ t, ev.isRemote = false

/-! ## Sorting lemmas -/

theorem sortInts_sorted (l : List Int) : (sortInts l).Sorted (· ≤ ·) :=
  List.sorted_insertionSort _ l

theorem sortInts_perm (l : List Int) : (sortInts l).Perm l :=
  List.perm_insertionSort _ l

/-- Any sorted rearrangement of `l` is `sortInts l`: the output of an integer sort
does not depend on the algorithm. -/
theorem sortInts_unique (l l' : List Int) (hp : l'.Perm l) (hs : l'.Sorted (· ≤ ·)) :
    l' = sortInts l :=
  List.eq_of_perm_of_sorted (hp.trans (sortInts_perm l).symm) hs (sortInts_sorted l)

theorem sortInts_congr {l₁ l₂ : List Int} (h : l₁.Perm l₂) : sortInts l₁ = sortInts l₂ :=
  sortInts_unique l₂ (sortInts l₁) ((sortInts_perm l₁).trans h) (sortInts_sorted l₁)

theorem sortStrings_sorted (l : List String) : (sortStrings l).Sorted strLe :=
  List.sorted_insertionSort _ l

theorem sortStrings_perm (l : List String) : (sortStrings l).Perm l :=
  List.perm_insertionSort _ l

theorem sortStrings_congr {l₁ l₂ : List String} (h : l₁.Perm l₂) :
    sortStrings l₁ = sortStrings l₂ :=
  List.eq_of_perm_of_sorted (((sortStrings_perm l₁).trans h).trans (sortStrings_perm l₂).symm)
    (sortStrings_sorted l₁) (sortStrings_sorted l₂)

theorem sortInts_strict_iff (l : List Int) :
    List.Chain' (· < ·) (sortInts l) ↔ l.Nodup := by
  rw [List.chain'_iff_pairwise]
  constructor
  · intro h
    exact (sortInts_perm l).nodup_iff.mp (List.Sorted.nodup h)
  · intro h
    exact (sortInts_sorted l).lt_of_le ((sortInts_perm l).nodup_iff.mpr h)

theorem sortInts_chain (l : List Int) : List.Chain' (· ≤ ·) (sortInts l) :=
  List.chain'_iff_pairwise.mpr (sortInts_sorted l)

theorem sortStrings_chain (l : List String) : List.Chain' strLe (sortStrings l) :=
  List.chain'_iff_pairwise.mpr (sortStrings_sorted l)

theorem sortStrings_strict_iff (l : List String) :
    List.Chain' (fun a b => strLe a b ∧ a ≠ b) (sortStrings l) ↔ l.Nodup := by
  constructor
  · intro h
    have hp : List.Pairwise (fun a b => strLe a b ∧ a ≠ b) (sortStrings l) := by
      haveI : IsTrans String (fun a b => strLe a b ∧ a ≠ b) :=
        ⟨fun a b c h₁ h₂ => ⟨strLe.isTrans.trans a b c h₁.1 h₂.1, fun hac => by
          subst hac
          exact h₁.2 (strLe.isAntisymm.antisymm a b h₁.1 h₂.1)⟩⟩
      exact List.chain'_iff_pairwise.mp h
    exact (sortStrings_perm l).nodup_iff.mp (hp.imp (fun h => h.2))
  · intro h
    have hn : (sortStrings l).Nodup := (sortStrings_perm l).nodup_iff.mpr h
    exact List.Pairwise.chain' ((sortStrings_sorted l).and hn)

theorem collectIds_eq {α : Type} (getID : α → Int) (l : List α) :
    collectIds getID l = (l.map getID).filter (fun n => decide (n ≠ 0)) := by
  induction l with
  | nil => rfl
  | cons e es ih =>
    by_cases h : getID e = 0 <;> simp [collectIds, h, ih]

theorem collectNames_eq (l : List ScopeEntity) :
    collectNames l = (l.map ScopeEntity.Name).filter (fun n => decide (n ≠ "")) := by
  induction l with
  | nil => rfl
  | cons e es ih =>
    by_cases h : e.Name = "" <;> simp [collectNames, h, ih]

theorem collectIds_perm {α : Type} (getID : α → Int) {l₁ l₂ : List α} (h : l₁.Perm l₂) :
    (collectIds getID l₁).Perm (collectIds getID l₂) := by
  rw [collectIds_eq, collectIds_eq]
  exact (h.map getID).filter _

theorem collectNames_perm {l₁ l₂ : List ScopeEntity} (h : l₁.Perm l₂) :
    (collectNames l₁).Perm (collectNames l₂) := by
  rw [collectNames_eq, collectNames_eq]
  exact (h.map _).filter _

theorem flattenAndSortScopeEntityIds_congr {l₁ l₂ : List ScopeEntity} (h : l₁.Perm l₂) :
    flattenAndSortScopeEntityIds l₁ = flattenAndSortScopeEntityIds l₂ :=
  sortInts_congr (collectIds_perm _ h)

theorem flattenAndSortMobileDeviceIDs_congr {l₁ l₂ : List MobileDevice} (h : l₁.Perm l₂) :
    flattenAndSortMobileDeviceIDs l₁ = flattenAndSortMobileDeviceIDs l₂ :=
  sortInts_congr (collectIds_perm _ h)

theorem flattenAndSortNetworkSegmentIds_congr {l₁ l₂ : List NetworkSegment} (h : l₁.Perm l₂) :
    flattenAndSortNetworkSegmentIds l₁ = flattenAndSortNetworkSegmentIds l₂ :=
  sortInts_congr (collectIds_perm _ h)

theorem flattenAndSortScopeEntityNames_congr {l₁ l₂ : List ScopeEntity} (h : l₁.Perm l₂) :
    flattenAndSortScopeEntityNames l₁ = flattenAndSortScopeEntityNames l₂ :=
  sortStrings_congr (collectNames_perm h)

/-! ## C1: ordering of the flattened lists -/

/-- C1, as stated, fails: two entities with the same ID 10 give `[10, 10]`, in
which the first element is not strictly less than its successor. -/
theorem flattenAndSort_not_strict :
    flattenAndSortScopeEntityIds [⟨10, "a"⟩, ⟨10, "b"⟩] = [10, 10] ∧
    ¬ List.Chain' (· < ·) (flattenAndSortScopeEntityIds [⟨10, "a"⟩, ⟨10, "b"⟩]) := by
  have h : flattenAndSortScopeEntityIds [⟨10, "a"⟩, ⟨10, "b"⟩] = [10, 10] := by decide
  rw [h]
  exact ⟨rfl, by simp⟩

/-- C1 (amended): for every input the output of each of the four flatten-and-sort
functions is ascending, every element being less than or equal to its successor,
and it is strictly ascending exactly when the non-zero IDs (non-empty names) of
the input are pairwise distinct. -/
theorem flattenAndSort_ascending (entities : List ScopeEntity) (devices : List MobileDevice)
    (segments : List NetworkSegment) :
    (List.Chain' (· ≤ ·) (flattenAndSortScopeEntityIds entities) ∧
      (List.Chain' (· < ·) (flattenAndSortScopeEntityIds entities) ↔
        (collectIds ScopeEntity.ID entities).Nodup)) ∧
    (List.Chain' (· ≤ ·) (flattenAndSortMobileDeviceIDs devices) ∧
      (List.Chain' (· < ·) (flattenAndSortMobileDeviceIDs devices) ↔
        (collectIds MobileDevice.ID devices).Nodup)) ∧
    (List.Chain' (· ≤ ·) (flattenAndSortNetworkSegmentIds segments) ∧
      (List.Chain' (· < ·) (flattenAndSortNetworkSegmentIds segments) ↔
        (collectIds NetworkSegment.ID segments).Nodup)) ∧
    (List.Chain' strLe (flattenAndSortScopeEntityNames entities) ∧
      (List.Chain' (fun a b => strLe a b ∧ a ≠ b) (flattenAndSortScopeEntityNames entities) ↔
        (collectNames entities).Nodup)) :=
  ⟨⟨sortInts_chain _, sortInts_strict_iff _⟩, ⟨sortInts_chain _, sortInts_strict_iff _⟩,
   ⟨sortInts_chain _, sortInts_strict_iff _⟩, ⟨sortStrings_chain _, sortStrings_strict_iff _⟩⟩

/-! ## C2: order independence -/

theorem setLimitations_congr {a b : Limitation} (h : a.SameUpToOrder b) :
    setLimitations a = setLimitations b := by
  obtain ⟨h1, h2, h3, h4⟩ := h
  simp only [setLimitations, h1.length_eq, h2.length_eq, h3.length_eq, h4.length_eq,
    flattenAndSortNetworkSegmentIds_congr h1, flattenAndSortScopeEntityIds_congr h2,
    flattenAndSortScopeEntityNames_congr h3, flattenAndSortScopeEntityIds_congr h4]

theorem setExclusions_congr {a b : Exclusion} (h : a.SameUpToOrder b) :
    setExclusions a = setExclusions b := by
  obtain ⟨h1, h2, h3, h4, h5, h6, h7, h8, h9, h10⟩ := h
  simp only [setExclusions, h1.length_eq, h2.length_eq, h3.length_eq, h4.length_eq,
    h5.length_eq, h6.length_eq, h7.length_eq, h8.length_eq, h9.length_eq, h10.length_eq,
    flattenAndSortMobileDeviceIDs_congr h1, flattenAndSortScopeEntityIds_congr h2,
    flattenAndSortScopeEntityIds_congr h3, flattenAndSortScopeEntityIds_congr h4,
    flattenAndSortScopeEntityIds_congr h5, flattenAndSortScopeEntityIds_congr h6,
    flattenAndSortNetworkSegmentIds_congr h7, flattenAndSortScopeEntityNames_congr h8,
    flattenAndSortScopeEntityIds_congr h9, flattenAndSortScopeEntityIds_congr h10]

theorem setScope_congr {r₁ r₂ : ResourceMobileDeviceConfigurationProfile}
    (h : r₁.Scope.SameUpToOrder r₂.Scope) : setScope r₁ = setScope r₂ := by
  obtain ⟨h1, h2, h3, h4, h5, h6, h7, h8, h9, h10⟩ := h
  simp only [setScope, h1, h2, flattenAndSortMobileDeviceIDs_congr h3,
    flattenAndSortScopeEntityIds_congr h4, flattenAndSortScopeEntityIds_congr h5,
    flattenAndSortScopeEntityIds_congr h6, flattenAndSortScopeEntityIds_congr h7,
    flattenAndSortScopeEntityIds_congr h8, setLimitations_congr h9, setExclusions_congr h10]

/-- C2: the reconciled multi-valued fields do not depend on the input order: each
of the four flatten-and-sort functions returns the same list on two inputs that
are permutations of each other, and `setScope` returns the same output for two
entities whose scopes differ only in the order of their scope, limitation and
exclusion collections. -/
theorem reconciled_fields_order_independent
    (xs ys : List ScopeEntity) (ds₁ ds₂ : List MobileDevice) (ss₁ ss₂ : List NetworkSegment)
    (r₁ r₂ : ResourceMobileDeviceConfigurationProfile)
    (hxs : xs.Perm ys) (hds : ds₁.Perm ds₂) (hss : ss₁.Perm ss₂)
    (hr : r₁.Scope.SameUpToOrder r₂.Scope) :
    flattenAndSortScopeEntityIds xs = flattenAndSortScopeEntityIds ys ∧
    flattenAndSortMobileDeviceIDs ds₁ = flattenAndSortMobileDeviceIDs ds₂ ∧
    flattenAndSortNetworkSegmentIds ss₁ = flattenAndSortNetworkSegmentIds ss₂ ∧
    flattenAndSortScopeEntityNames xs = flattenAndSortScopeEntityNames ys ∧
    setScope r₁ = setScope r₂ :=
  ⟨flattenAndSortScopeEntityIds_congr hxs, flattenAndSortMobileDeviceIDs_congr hds,
   flattenAndSortNetworkSegmentIds_congr hss, flattenAndSortScopeEntityNames_congr hxs,
   setScope_congr hr⟩

theorem sampleProfile_sameUpToOrder :
    sampleProfile.Scope.SameUpToOrder sampleProfileReordered.Scope :=
  ⟨rfl, rfl, (List.reverse_perm _).symm, List.Perm.swap _ _ _, List.Perm.refl _, List.Perm.refl _,
   List.Perm.refl _, List.Perm.refl _,
   ⟨List.Perm.swap _ _ _, List.Perm.refl _, List.Perm.swap _ _ _, List.Perm.refl _⟩,
   ⟨List.Perm.refl _, List.Perm.refl _, List.Perm.swap _ _ _, List.Perm.refl _, List.Perm.refl _,
    List.Perm.refl _, List.Perm.refl _, List.Perm.refl _, List.Perm.refl _, List.Perm.refl _⟩⟩

/-- C2 at a concrete input: the entity lists `[30, 10, 20]` and `[20, 10, 30]` and the
two sample profiles, which differ in the order of their collections. -/
theorem reconciled_fields_order_independent_witness :
    sampleProfile.Scope.SameUpToOrder sampleProfileReordered.Scope ∧
    (flattenAndSortScopeEntityIds [⟨30, "c"⟩, ⟨10, "a"⟩, ⟨20, "b"⟩]
        = flattenAndSortScopeEntityIds [⟨20, "b"⟩, ⟨10, "a"⟩, ⟨30, "c"⟩] ∧
      flattenAndSortMobileDeviceIDs [⟨30, "c"⟩, ⟨10, "a"⟩]
        = flattenAndSortMobileDeviceIDs [⟨10, "a"⟩, ⟨30, "c"⟩] ∧
      flattenAndSortNetworkSegmentIds [⟨5, "n5"⟩, ⟨4, "n4"⟩]
        = flattenAndSortNetworkSegmentIds [⟨4, "n4"⟩, ⟨5, "n5"⟩] ∧
      flattenAndSortScopeEntityNames [⟨30, "c"⟩, ⟨10, "a"⟩, ⟨20, "b"⟩]
        = flattenAndSortScopeEntityNames [⟨20, "b"⟩, ⟨10, "a"⟩, ⟨30, "c"⟩] ∧
      setScope sampleProfile = setScope sampleProfileReordered) :=
  ⟨sampleProfile_sameUpToOrder,
   reconciled_fields_order_independent _ _ _ _ _ _ sampleProfile sampleProfileReordered
    (List.reverse_perm ([⟨20, "b"⟩, ⟨10, "a"⟩, ⟨30, "c"⟩] : List ScopeEntity))
    (List.Perm.swap _ _ _)
    (List.Perm.swap _ _ _) sampleProfile_sameUpToOrder⟩

/-! ## C4: empty sub-blocks are omitted -/

theorem setLimitations_ok (l : Limitation) :
    setLimitations l = Except.ok none ∨ ∃ b, setLimitations l = Except.ok (some [b]) := by
  unfold setLimitations
  simp only
  split
  · exact Or.inl rfl
  · exact Or.inr ⟨_, rfl⟩

theorem setExclusions_ok (e : Exclusion) :
    setExclusions e = Except.ok none ∨ ∃ b, setExclusions e = Except.ok (some [b]) := by
  unfold setExclusions
  simp only
  split
  · exact Or.inl rfl
  · exact Or.inr ⟨_, rfl⟩

theorem setLimitations_allEmpty {l : Limitation} (h : l.AllEmpty) :
    setLimitations l = Except.ok none := by
  obtain ⟨h1, h2, h3, h4⟩ := h
  simp [setLimitations, putIds, putNames, h1, h2, h3, h4]

theorem setExclusions_allEmpty {e : Exclusion} (h : e.AllEmpty) :
    setExclusions e = Except.ok none := by
  obtain ⟨h1, h2, h3, h4, h5, h6, h7, h8, h9, h10⟩ := h
  simp [setExclusions, putIds, putNames, h1, h2, h3, h4, h5, h6, h7, h8, h9, h10]

/-- C4: when all four limitation collections of an entity are empty,
`setLimitations` returns nil and the map returned by `setScope` has no
`limitations` key; when all ten exclusion collections are empty, `setExclusions`
returns nil and the map returned by `setScope` has no `exclusions` key. -/
theorem empty_blocks_omitted (r₁ r₂ : ResourceMobileDeviceConfigurationProfile)
    (h₁ : r₁.Scope.Limitations.AllEmpty) (h₂ : r₂.Scope.Exclusions.AllEmpty) :
    (setLimitations r₁.Scope.Limitations = Except.ok none ∧
      ∃ m, setScope r₁ = Except.ok m ∧ mapGet m "limitations" = none) ∧
    (setExclusions r₂.Scope.Exclusions = Except.ok none ∧
      ∃ m, setScope r₂ = Except.ok m ∧ mapGet m "exclusions" = none) := by
  refine ⟨⟨setLimitations_allEmpty h₁, ?_⟩, ⟨setExclusions_allEmpty h₂, ?_⟩⟩
  · rcases setExclusions_ok r₁.Scope.Exclusions with he | ⟨b, he⟩
    · exact ⟨_, by simp only [setScope, setLimitations_allEmpty h₁, he]; rfl, by
        simp [mapSet, mapGet]⟩
    · exact ⟨_, by simp only [setScope, setLimitations_allEmpty h₁, he]; rfl, by
        simp [mapSet, mapGet]⟩
  · rcases setLimitations_ok r₂.Scope.Limitations with hl | ⟨b, hl⟩
    · exact ⟨_, by simp only [setScope, setExclusions_allEmpty h₂, hl]; rfl, by
        simp [mapSet, mapGet]⟩
    · exact ⟨_, by simp only [setScope, setExclusions_allEmpty h₂, hl]; rfl, by
        simp [mapSet, mapGet]⟩

/-- C4 at a concrete input: the sample profile without limitations and exclusions. -/
theorem empty_blocks_omitted_witness :
    (sampleProfileBare.Scope.Limitations.AllEmpty ∧ sampleProfileBare.Scope.Exclusions.AllEmpty) ∧
    (setLimitations sampleProfileBare.Scope.Limitations = Except.ok none ∧
      ∃ m, setScope sampleProfileBare = Except.ok m ∧ mapGet m "limitations" = none) ∧
    (setExclusions sampleProfileBare.Scope.Exclusions = Except.ok none ∧
      ∃ m, setScope sampleProfileBare = Except.ok m ∧ mapGet m "exclusions" = none) :=
  ⟨⟨⟨rfl, rfl, rfl, rfl⟩, ⟨rfl, rfl, rfl, rfl, rfl, rfl, rfl, rfl, rfl, rfl⟩⟩,
   empty_blocks_omitted sampleProfileBare sampleProfileBare ⟨rfl, rfl, rfl, rfl⟩
    ⟨rfl, rfl, rfl, rfl, rfl, rfl, rfl, rfl, rfl, rfl⟩⟩

/-! ## C3: applying the reconciler twice -/

theorem setScope_ok (r : ResourceMobileDeviceConfigurationProfile) :
    ∃ m, setScope r = Except.ok m := by
  rcases setLimitations_ok r.Scope.Limitations with hl | ⟨b, hl⟩ <;>
  rcases setExclusions_ok r.Scope.Exclusions with he | ⟨c, he⟩ <;>
  · simp only [setScope, hl, he]
    exact ⟨_, rfl⟩

theorem setAndCollect_fst_id (acc : ResourceData × Diagnostics) (k : String) (v : Value) :
    (setAndCollect acc k v).1.id = acc.1.id ∧ (setAndCollect acc k v).1.setErr = acc.1.setErr := by
  unfold setAndCollect ResourceData.Set
  cases h : acc.1.setErr k v <;> simp

theorem setAndCollect_attrs (acc : ResourceData × Diagnostics) (k : String) (v : Value) (k' : String) :
    (setAndCollect acc k v).1.attrs k' =
      if acc.1.setErr k v = none ∧ k' = k then some v else acc.1.attrs k' := by
  unfold setAndCollect ResourceData.Set
  cases h : acc.1.setErr k v <;> simp

theorem setAndCollect_snd (acc : ResourceData × Diagnostics) (k : String) (v : Value) :
    (setAndCollect acc k v).2 =
      acc.2 ++ ((acc.1.setErr k v).map (fun e => (⟨Severity.Error, e⟩ : Diagnostic))).toList := by
  unfold setAndCollect ResourceData.Set
  cases h : acc.1.setErr k v <;> simp [diagFromErr]

theorem applyWrites_cons (p : String × Value) (ws : List (String × Value))
    (acc : ResourceData × Diagnostics) :
    applyWrites (p :: ws) acc = applyWrites ws (setAndCollect acc p.1 p.2) := rfl

theorem applyWrites_append (ws₁ ws₂ : List (String × Value)) (acc : ResourceData × Diagnostics) :
    applyWrites (ws₁ ++ ws₂) acc = applyWrites ws₂ (applyWrites ws₁ acc) := by
  simp [applyWrites, List.foldl_append]

theorem applyWrites_frame (ws : List (String × Value)) (acc : ResourceData × Diagnostics) :
    (applyWrites ws acc).1.id = acc.1.id ∧ (applyWrites ws acc).1.setErr = acc.1.setErr := by
  induction ws generalizing acc with
  | nil => exact ⟨rfl, rfl⟩
  | cons p ws ih =>
    rw [applyWrites_cons]
    have h := setAndCollect_fst_id acc p.1 p.2
    exact ⟨(ih _).1.trans h.1, (ih _).2.trans h.2⟩

/-- The diagnostics of a list of writes: one entry per rejected write, in order. -/
theorem applyWrites_snd (ws : List (String × Value)) (acc : ResourceData × Diagnostics) :
    (applyWrites ws acc).2 =
      acc.2 ++ ws.filterMap (fun p =>
        (acc.1.setErr p.1 p.2).map (fun e => (⟨Severity.Error, e⟩ : Diagnostic))) := by
  induction ws generalizing acc with
  | nil => simp [applyWrites]
  | cons p ws ih =>
    rw [applyWrites_cons, ih, setAndCollect_snd, (setAndCollect_fst_id acc p.1 p.2).2]
    cases h : acc.1.setErr p.1 p.2 <;> simp [List.filterMap_cons, h]

theorem applyWrites_attrs_untouched (ws : List (String × Value)) (acc : ResourceData × Diagnostics)
    (k : String) (h : ∀ v, (k, v) ∈ ws → acc.1.setErr k v ≠ none) :
    (applyWrites ws acc).1.attrs k = acc.1.attrs k := by
  induction ws generalizing acc with
  | nil => rfl
  | cons p ws ih =>
    rw [applyWrites_cons, ih]
    · rw [setAndCollect_attrs]
      split
      · rename_i hc
        obtain ⟨hacc, hk⟩ := hc
        subst hk
        exact absurd hacc (h p.2 (List.mem_cons_self _ _))
      · rfl
    · intro v hv
      rw [(setAndCollect_fst_id acc p.1 p.2).2]
      exact h v (List.mem_cons_of_mem _ hv)

theorem applyWrites_attrs_written (ws : List (String × Value)) (acc : ResourceData × Diagnostics)
    (hnd : (ws.map Prod.fst).Nodup) (k : String) (v : Value) (hmem : (k, v) ∈ ws)
    (hacc : acc.1.setErr k v = none) :
    (applyWrites ws acc).1.attrs k = some v := by
  induction ws generalizing acc with
  | nil => cases hmem
  | cons p ws ih =>
    rw [applyWrites_cons]
    rw [List.map_cons, List.nodup_cons] at hnd
    rcases List.mem_cons.mp hmem with heq | hin
    · subst heq
      rw [applyWrites_attrs_untouched]
      · rw [setAndCollect_attrs]
        simp [hacc]
      · intro v' hv'
        exact absurd (List.mem_map_of_mem Prod.fst hv') hnd.1
    · exact ih _ hnd.2 hin (by rw [(setAndCollect_fst_id acc p.1 p.2).2]; exact hacc)

theorem updateTerraformState_eq_applyWrites (N : String → String) (o : List String)
    (d : ResourceData) (r : ResourceMobileDeviceConfigurationProfile) :
    updateTerraformState N o d r = applyWrites (attemptedWrites N o r) (d, []) := by
  obtain ⟨m, hm⟩ := setScope_ok r
  have hrange : ∀ (o : List String) (acc : ResourceData × Diagnostics),
      rangeSet (resourceData r) o acc =
        applyWrites (o.filterMap (fun k =>
          (mapGet (resourceData r) k).map (fun v => (k, Value.leaf v)))) acc := by
    intro o
    induction o with
    | nil => intro acc; rfl
    | cons k ks ih =>
      intro acc
      have hstep : rangeSet (resourceData r) (k :: ks) acc =
          rangeSet (resourceData r) ks
            (match mapGet (resourceData r) k with
              | some v => setAndCollect acc k (Value.leaf v)
              | none => acc) := rfl
      rw [hstep, ih]
      cases hk : mapGet (resourceData r) k <;> simp [List.filterMap_cons, hk, applyWrites]
  unfold updateTerraformState attemptedWrites
  simp only [hm, hrange, applyWrites_append]
  by_cases hs : r.General.Site.ID = -1 <;> by_cases hc : r.General.Category.ID = -1 <;>
    simp [hs, hc, applyWrites]

theorem attemptedWrites_perm (N : String → String) {o₁ o₂ : List String} (h : o₁.Perm o₂)
    (r : ResourceMobileDeviceConfigurationProfile) :
    (attemptedWrites N o₁ r).Perm (attemptedWrites N o₂ r) := by
  unfold attemptedWrites
  exact List.Perm.append_left _ (h.filterMap _)

theorem attemptedWrites_keys_nodup (N : String → String) {o : List String}
    (h : o.Perm resourceDataKeys) (r : ResourceMobileDeviceConfigurationProfile) :
    ((attemptedWrites N o r).map Prod.fst).Nodup := by
  rw [((attemptedWrites_perm N h r).map Prod.fst).nodup_iff]
  obtain ⟨m, hm⟩ := setScope_ok r
  unfold attemptedWrites
  rw [hm]
  by_cases hs : r.General.Site.ID = -1 <;> by_cases hc : r.General.Category.ID = -1 <;>
    simp [hs, hc, resourceDataKeys, resourceData, mapSet, mapGet]

theorem ResourceData.ext_fields {a b : ResourceData} (h₁ : a.id = b.id)
    (h₂ : ∀ k, a.attrs k = b.attrs k) (h₃ : a.setErr = b.setErr) : a = b := by
  cases a
  cases b
  simp only [ResourceData.mk.injEq]
  exact ⟨h₁, funext h₂, h₃⟩

/-- C3, as stated, fails: the state `sampleState` rejects `name` and `uuid`, so two
scalar writes fail, and when the second run visits the keys of `resourceData` in
another order than the first (Go does not fix the order of a `range` over a
map), the diagnostics of the second run are not the diagnostics of the first. -/
theorem updateTerraformState_diagnostics_differ :
    resourceDataKeys.reverse.Perm resourceDataKeys ∧
    (updateTerraformState id resourceDataKeys.reverse
        (updateTerraformState id resourceDataKeys sampleState sampleProfile).1 sampleProfile).2
      ≠ (updateTerraformState id resourceDataKeys sampleState sampleProfile).2 := by
  refine ⟨List.reverse_perm _, ?_⟩
  decide

/-- C3 (amended): with `d.Set` a deterministic keyed write, for every state `d`,
every entity `r` and every two orders in which the `range` over `resourceData`
may visit its keys, a second run of `updateTerraformState` after a first one
leaves the state of the first run and returns the diagnostics of the first run
up to their order; when both runs visit the keys in the same order the
diagnostics are the same list. -/
theorem updateTerraformState_idempotent (N : String → String) (o₁ o₂ : List String)
    (d : ResourceData) (r : ResourceMobileDeviceConfigurationProfile)
    (h₁ : o₁.Perm resourceDataKeys) (h₂ : o₂.Perm resourceDataKeys) :
    (updateTerraformState N o₂ (updateTerraformState N o₁ d r).1 r).1
        = (updateTerraformState N o₁ d r).1 ∧
    (updateTerraformState N o₂ (updateTerraformState N o₁ d r).1 r).2.Perm
        (updateTerraformState N o₁ d r).2 ∧
    (o₂ = o₁ →
      (updateTerraformState N o₂ (updateTerraformState N o₁ d r).1 r).2
        = (updateTerraformState N o₁ d r).2) := by
  simp only [updateTerraformState_eq_applyWrites]
  have hp : (attemptedWrites N o₂ r).Perm (attemptedWrites N o₁ r) :=
    attemptedWrites_perm N (h₂.trans h₁.symm) r
  have hn₁ := attemptedWrites_keys_nodup N h₁ r
  have hn₂ := attemptedWrites_keys_nodup N h₂ r
  have hf₁ := applyWrites_frame (attemptedWrites N o₁ r) (d, [])
  have hf₂ := applyWrites_frame (attemptedWrites N o₂ r)
    ((applyWrites (attemptedWrites N o₁ r) (d, [])).1, [])
  refine ⟨?_, ?_, ?_⟩
  · apply ResourceData.ext_fields hf₂.1 _ hf₂.2
    intro k
    by_cases hk : ∃ v, (k, v) ∈ attemptedWrites N o₂ r ∧ d.setErr k v = none
    · obtain ⟨v, hv, hacc⟩ := hk
      rw [applyWrites_attrs_written _ _ hn₂ k v hv (by rw [hf₁.2]; exact hacc),
        applyWrites_attrs_written _ _ hn₁ k v (hp.mem_iff.mp hv) hacc]
    · rw [applyWrites_attrs_untouched]
      intro v hv hacc
      exact hk ⟨v, hv, by rw [← hf₁.2]; exact hacc⟩
  · rw [applyWrites_snd, applyWrites_snd, hf₁.2]
    exact List.Perm.append_left _ (hp.filterMap _)
  · intro ho
    subst ho
    rw [applyWrites_snd, applyWrites_snd, hf₁.2]

/-- C3 (amended) at a concrete input: the sample state and profile, the first run
in the order of the map literal and the second in the reverse order. -/
theorem updateTerraformState_idempotent_witness :
    (resourceDataKeys.Perm resourceDataKeys ∧ resourceDataKeys.reverse.Perm resourceDataKeys) ∧
    ((updateTerraformState id resourceDataKeys.reverse
        (updateTerraformState id resourceDataKeys sampleState sampleProfile).1 sampleProfile).1
        = (updateTerraformState id resourceDataKeys sampleState sampleProfile).1 ∧
    (updateTerraformState id resourceDataKeys.reverse
        (updateTerraformState id resourceDataKeys sampleState sampleProfile).1 sampleProfile).2.Perm
        (updateTerraformState id resourceDataKeys sampleState sampleProfile).2 ∧
    (resourceDataKeys.reverse = resourceDataKeys →
      (updateTerraformState id resourceDataKeys.reverse
        (updateTerraformState id resourceDataKeys sampleState sampleProfile).1 sampleProfile).2
        = (updateTerraformState id resourceDataKeys sampleState sampleProfile).2)) :=
  ⟨⟨List.Perm.refl _, List.reverse_perm _⟩,
   updateTerraformState_idempotent id resourceDataKeys resourceDataKeys.reverse sampleState
    sampleProfile (List.Perm.refl _) (List.reverse_perm _)⟩

/-! ## The retry policy -/

theorem RetryContext_succ {S : Type} (f : S → S × Option RetryError) (t : Nat) (s : S)
    (e : Option String) :
    RetryContext f (t + 1) s e =
      match f s with
      | (s', none) => (s', none)
      | (s', some rerr) =>
        if rerr.Retryable then RetryContext f t s' (some rerr.Err) else (s', some rerr.Err) := rfl

/-- After `j` failed runs within the timeout, a run that reports success ends the
retry with success. -/
theorem RetryContext_success_after {S : Type} (f : S → S × Option RetryError) :
    ∀ (j t : Nat) (s sj s' : S) (e : Option String), j < t → attemptsFail f j s = some sj →
      f sj = (s', none) → RetryContext f t s e = (s', none) := by
  intro j
  induction j with
  | zero =>
    intro t s sj s' e ht hj hf
    obtain ⟨t', rfl⟩ := Nat.exists_eq_succ_of_ne_zero (Nat.pos_iff_ne_zero.mp ht)
    simp only [attemptsFail, Option.some.injEq] at hj
    subst hj
    rw [RetryContext_succ, hf]
  | succ j ih =>
    intro t s sj s' e ht hj hf
    obtain ⟨t', rfl⟩ := Nat.exists_eq_succ_of_ne_zero (Nat.pos_iff_ne_zero.mp (Nat.lt_of_le_of_lt (Nat.zero_le _) ht))
    rw [RetryContext_succ]
    unfold attemptsFail at hj
    rcases hfs : f s with ⟨s₁, _ | rerr⟩
    · rw [hfs] at hj
      cases hj
    · rw [hfs] at hj
      simp only at hj ⊢
      by_cases hr : rerr.Retryable = true
      · rw [if_pos hr] at hj ⊢
        exact ih t' s₁ sj s' _ (Nat.lt_of_succ_lt_succ ht) hj hf
      · rw [if_neg hr] at hj
        cases hj

/-- When every run the timeout allows reports a retryable error, the retry ends
in an error, at the state after these runs. -/
theorem RetryContext_all_fail {S : Type} (f : S → S × Option RetryError) :
    ∀ (t : Nat) (s s' : S) (e : Option String), attemptsFail f t s = some s' →
      ∃ err, RetryContext f t s e = (s', some err) := by
  intro t
  induction t with
  | zero =>
    intro s s' e h
    simp only [attemptsFail, Option.some.injEq] at h
    subst h
    exact ⟨_, rfl⟩
  | succ t ih =>
    intro s s' e h
    rw [RetryContext_succ]
    unfold attemptsFail at h
    rcases hfs : f s with ⟨s₁, _ | rerr⟩
    · rw [hfs] at h
      cases h
    · rw [hfs] at h
      simp only at h ⊢
      by_cases hr : rerr.Retryable = true
      · rw [if_pos hr] at h ⊢
        exact ih s₁ s' _ h
      · rw [if_neg hr] at h
        cases h

/-! ## Delete: C5, C6, C7 -/

theorem World.log_remote {σ : Type} (w : World σ) (e : Event) : (w.log e).remote = w.remote := rfl

theorem World.log_trace {σ : Type} (w : World σ) (e : Event) :
    (w.log e).trace = w.trace ++ [e] := rfl

/-- One run of the delete closure logs the delete by ID, possibly followed by the
delete by name, and nothing else. -/
theorem deleteAttempt_trace {σ : Type} (client : Client σ) (n : Int) (d : ResourceData)
    (w : World σ) :
    ∃ t, (deleteAttempt client n d w).1.trace = w.trace ++ Event.remoteDeleteByID n :: t ∧
      ∀ ev ∈ t, ev.isDelete = true := by
  unfold deleteAttempt
  simp only [World.log_remote]
  rcases h₁ : client.DeleteByID w.remote n with ⟨r₁, _ | e₁⟩
  · exact ⟨[], by simp [World.log], by simp⟩
  · rcases h₂ : client.DeleteByName r₁ (d.GetString "name") with ⟨r₂, _ | e₂⟩
    · exact ⟨[Event.remoteDeleteByName (d.GetString "name")], by simp [World.log, h₂],
        by simp [Event.isDelete]⟩
    · exact ⟨[Event.remoteDeleteByName (d.GetString "name")], by simp [World.log, h₂],
        by simp [Event.isDelete]⟩

/-- When both deletes fail the closure reports the by-name error as retryable, and
the state it leaves is the one after both calls. -/
theorem deleteAttempt_both_fail {σ : Type} (client : Client σ) (n : Int) (d : ResourceData)
    (w : World σ) (r₁ r₂ : σ) (e₁ e₂ : String)
    (h₁ : client.DeleteByID w.remote n = (r₁, some e₁))
    (h₂ : client.DeleteByName r₁ (d.GetString "name") = (r₂, some e₂)) :
    deleteAttempt client n d w =
      ({ remote := r₂,
         trace := w.trace ++ [Event.remoteDeleteByID n, Event.remoteDeleteByName (d.GetString "name")] },
       some (RetryableError e₂)) := by
  unfold deleteAttempt
  simp [World.log, h₁, h₂]

/-- When the delete by ID fails and the delete by name succeeds the closure
reports success. -/
theorem deleteAttempt_fallback {σ : Type} (client : Client σ) (n : Int) (d : ResourceData)
    (w : World σ) (r₁ r₂ : σ) (e₁ : String)
    (h₁ : client.DeleteByID w.remote n = (r₁, some e₁))
    (h₂ : client.DeleteByName r₁ (d.GetString "name") = (r₂, none)) :
    deleteAttempt client n d w =
      ({ remote := r₂,
         trace := w.trace ++ [Event.remoteDeleteByID n, Event.remoteDeleteByName (d.GetString "name")] },
       none) := by
  unfold deleteAttempt
  simp [World.log, h₁, h₂]

/-- The retried delete logs delete calls only, and starts with a delete by ID when
the timeout allows a run at all. -/
theorem RetryContext_delete_trace {σ : Type} (client : Client σ) (n : Int) (d : ResourceData) :
    ∀ (t : Nat) (w : World σ) (e : Option String),
      ∃ evs, (RetryContext (deleteAttempt client n d) t w e).1.trace = w.trace ++ evs ∧
        (∀ ev ∈ evs, ev.isDelete = true) ∧
        (0 < t → ∃ rest, evs = Event.remoteDeleteByID n :: rest) := by
  intro t
  induction t with
  | zero =>
    intro w e
    exact ⟨[], by simp [RetryContext], by simp, fun h => absurd h (Nat.lt_irrefl 0)⟩
  | succ t ih =>
    intro w e
    obtain ⟨t₁, ht₁, hdel⟩ := deleteAttempt_trace client n d w
    rw [RetryContext_succ]
    rcases hf : deleteAttempt client n d w with ⟨w₁, _ | rerr⟩
    · rw [hf] at ht₁
      exact ⟨_, ht₁, by
        intro ev hev
        rcases List.mem_cons.mp hev with h | h
        · subst h; rfl
        · exact hdel ev h, fun _ => ⟨_, rfl⟩⟩
    · rw [hf] at ht₁
      simp only
      by_cases hr : rerr.Retryable = true
      · rw [if_pos hr]
        obtain ⟨evs, hevs, hall, _⟩ := ih w₁ (some rerr.Err)
        refine ⟨Event.remoteDeleteByID n :: (t₁ ++ evs), ?_, ?_, fun _ => ⟨_, rfl⟩⟩
        · rw [hevs, ht₁]
          simp
        · intro ev hev
          rcases List.mem_cons.mp hev with h | h
          · subst h; rfl
          · rcases List.mem_append.mp h with h | h
            · exact hdel ev h
            · exact hall ev h
      · rw [if_neg hr]
        exact ⟨_, ht₁, by
          intro ev hev
          rcases List.mem_cons.mp hev with h | h
          · subst h; rfl
          · exact hdel ev h, fun _ => ⟨_, rfl⟩⟩

theorem hasError_diagFromErr (err : String) : HasError (diagFromErr err) = true := rfl

theorem hasError_diagErrorf (msg : String) : HasError (diagErrorf msg) = true := rfl

/-- The three ways `resourceDelete` ends. -/
theorem resourceDelete_cases {σ : Type} (assertMsg failMsg : String) (env : Env σ)
    (clientOfMeta : Option (Client σ)) (d : ResourceData) (w : World σ) :
    (HasError (resourceDelete assertMsg failMsg env clientOfMeta d w).2.2 = true ∧
      (resourceDelete assertMsg failMsg env clientOfMeta d w).1 = d ∧
      ∃ evs, (resourceDelete assertMsg failMsg env clientOfMeta d w).2.1.trace = w.trace ++ evs ∧
        ∀ ev ∈ evs, ev.isDelete = true) ∨
    ((resourceDelete assertMsg failMsg env clientOfMeta d w).2.2 = [] ∧
      (resourceDelete assertMsg failMsg env clientOfMeta d w).1 = d.SetId "" ∧
      ∃ evs, (resourceDelete assertMsg failMsg env clientOfMeta d w).2.1.trace
          = w.trace ++ evs ++ [Event.setId ""] ∧
        ∀ ev ∈ evs, ev.isDelete = true) := by
  unfold resourceDelete
  cases clientOfMeta with
  | none => exact Or.inl ⟨rfl, rfl, [], by simp, by simp⟩
  | some client =>
    simp only
    cases hid : Atoi d.id with
    | error err => exact Or.inl ⟨rfl, rfl, [], by simp, by simp⟩
    | ok n =>
      simp only
      obtain ⟨evs, hevs, hall, _⟩ := RetryContext_delete_trace client n d env.TimeoutDelete w none
      rcases hr : RetryContext (deleteAttempt client n d) env.TimeoutDelete w none with ⟨w₁, _ | err⟩
      · rw [hr] at hevs
        simp only at hevs
        exact Or.inr ⟨rfl, rfl, evs, by simp [World.log, hevs], hall⟩
      · rw [hr] at hevs
        exact Or.inl ⟨rfl, rfl, evs, hevs, hall⟩

theorem resourceDelete_success {σ : Type} (assertMsg failMsg : String) (env : Env σ)
    (client : Client σ) (d : ResourceData) (w w' : World σ) (n : Int)
    (hid : Atoi d.id = Except.ok n)
    (hr : RetryContext (deleteAttempt client n d) env.TimeoutDelete w none = (w', none)) :
    resourceDelete assertMsg failMsg env (some client) d w
      = (d.SetId "", w'.log (Event.setId ""), []) := by
  unfold resourceDelete
  simp only [hid, hr]

theorem resourceDelete_failure {σ : Type} (assertMsg failMsg : String) (env : Env σ)
    (client : Client σ) (d : ResourceData) (w w' : World σ) (n : Int) (err : String)
    (hid : Atoi d.id = Except.ok n)
    (hr : RetryContext (deleteAttempt client n d) env.TimeoutDelete w none = (w', some err)) :
    resourceDelete assertMsg failMsg env (some client) d w
      = (d, w', diagFromErr (failMsg ++ " \x27" ++ d.GetString "name" ++ "\x27 (ID: "
          ++ Itoa n ++ ") after retries: " ++ err)) := by
  unfold resourceDelete
  simp only [hid, hr]

/-- C5: in both Delete functions, for a state with an integer ID: when on some run
of the retried closure within the timeout (the runs before it having failed) the
delete by ID fails and the delete by the name of the state succeeds, Delete
returns no diagnostic at all, hence no error, and the resource ID is the empty
string afterwards. -/
theorem delete_falls_back_to_name {σ : Type} (env : Env σ) (client : Client σ)
    (d : ResourceData) (w wj : World σ) (n : Int) (j : Nat) (r₁ r₂ : σ) (e₁ : String)
    (hid : Atoi d.id = Except.ok n) (hj : j < env.TimeoutDelete)
    (hprev : attemptsFail (deleteAttempt client n d) j w = some wj)
    (h₁ : client.DeleteByID wj.remote n = (r₁, some e₁))
    (h₂ : client.DeleteByName r₁ (d.GetString "name") = (r₂, none)) :
    ((ResourceJamfProFileShareDistributionPointsDelete env (some client) d w).2.2 = [] ∧
      HasError (ResourceJamfProFileShareDistributionPointsDelete env (some client) d w).2.2 = false ∧
      (ResourceJamfProFileShareDistributionPointsDelete env (some client) d w).1.id = "") ∧
    ((ResourceJamfProPackagesDelete env (some client) d w).2.2 = [] ∧
      HasError (ResourceJamfProPackagesDelete env (some client) d w).2.2 = false ∧
      (ResourceJamfProPackagesDelete env (some client) d w).1.id = "") := by
  have hr := RetryContext_success_after (deleteAttempt client n d) j env.TimeoutDelete w wj _ none
    hj hprev (deleteAttempt_fallback client n d wj r₁ r₂ e₁ h₁ h₂)
  unfold ResourceJamfProFileShareDistributionPointsDelete ResourceJamfProPackagesDelete
  rw [resourceDelete_success _ _ env client d w _ n hid hr,
    resourceDelete_success _ _ env client d w _ n hid hr]
  exact ⟨⟨rfl, rfl, rfl⟩, ⟨rfl, rfl, rfl⟩⟩

/-- C5 at a concrete input: the stored resource `"12"` against a remote system
whose delete by ID fails and whose delete by name succeeds at once. -/
theorem delete_falls_back_to_name_witness :
    (Atoi sampleResourceData.id = Except.ok 12 ∧ 0 < (sampleEnv false).TimeoutDelete ∧
      attemptsFail (deleteAttempt (countingClient 0 0) 12 sampleResourceData) 0 sampleWorld
        = some sampleWorld ∧
      (countingClient 0 0).DeleteByID sampleWorld.remote 12 = (1, some "404 unknown id") ∧
      (countingClient 0 0).DeleteByName 1 (sampleResourceData.GetString "name") = (2, none)) ∧
    ((ResourceJamfProFileShareDistributionPointsDelete (sampleEnv false) (some (countingClient 0 0))
        sampleResourceData sampleWorld).2.2 = [] ∧
      HasError (ResourceJamfProFileShareDistributionPointsDelete (sampleEnv false)
        (some (countingClient 0 0)) sampleResourceData sampleWorld).2.2 = false ∧
      (ResourceJamfProFileShareDistributionPointsDelete (sampleEnv false) (some (countingClient 0 0))
        sampleResourceData sampleWorld).1.id = "") ∧
    ((ResourceJamfProPackagesDelete (sampleEnv false) (some (countingClient 0 0))
        sampleResourceData sampleWorld).2.2 = [] ∧
      HasError (ResourceJamfProPackagesDelete (sampleEnv false) (some (countingClient 0 0))
        sampleResourceData sampleWorld).2.2 = false ∧
      (ResourceJamfProPackagesDelete (sampleEnv false) (some (countingClient 0 0))
        sampleResourceData sampleWorld).1.id = "") :=
  ⟨⟨rfl, by decide, rfl, rfl, rfl⟩,
   delete_falls_back_to_name (sampleEnv false) (countingClient 0 0) sampleResourceData sampleWorld
    sampleWorld 12 0 1 2 "404 unknown id" rfl (by decide) rfl rfl rfl⟩

/-- C6, as stated, fails: against a remote system where both deletes fail on the
first run and the delete by name succeeds on the second, the closure reports a
retryable error for the first run, further delete calls are made, and Delete
returns no diagnostic. -/
theorem delete_both_fail_not_terminal :
    (countingClient 0 2).DeleteByID sampleWorld.remote 12 = (1, some "404 unknown id") ∧
    (countingClient 0 2).DeleteByName 1 (sampleResourceData.GetString "name") = (2, some "409 busy") ∧
    (deleteAttempt (countingClient 0 2) 12 sampleResourceData sampleWorld).2
      = some ⟨"409 busy", true⟩ ∧
    (ResourceJamfProFileShareDistributionPointsDelete (sampleEnv false) (some (countingClient 0 2))
        sampleResourceData sampleWorld).2.1.trace
      = [Event.remoteDeleteByID 12, Event.remoteDeleteByName "dp-1",
         Event.remoteDeleteByID 12, Event.remoteDeleteByName "dp-1", Event.setId ""] ∧
    (ResourceJamfProFileShareDistributionPointsDelete (sampleEnv false) (some (countingClient 0 2))
        sampleResourceData sampleWorld).2.2 = [] := by
  decide

theorem resourceDelete_retries {σ : Type} (assertMsg failMsg : String) (env : Env σ)
    (client : Client σ) (d : ResourceData) (w : World σ) (n : Int) (r₁ r₂ : σ) (e₁ e₂ : String)
    (hid : Atoi d.id = Except.ok n)
    (h₁ : client.DeleteByID w.remote n = (r₁, some e₁))
    (h₂ : client.DeleteByName r₁ (d.GetString "name") = (r₂, some e₂))
    (ht : 2 ≤ env.TimeoutDelete) :
    ∃ rest, (resourceDelete assertMsg failMsg env (some client) d w).2.1.trace
      = w.trace ++ [Event.remoteDeleteByID n, Event.remoteDeleteByName (d.GetString "name"),
          Event.remoteDeleteByID n] ++ rest := by
  obtain ⟨t, ht'⟩ : ∃ t, env.TimeoutDelete = t + 2 := ⟨env.TimeoutDelete - 2, by omega⟩
  have hstep : RetryContext (deleteAttempt client n d) env.TimeoutDelete w none
      = RetryContext (deleteAttempt client n d) (t + 1)
          { remote := r₂,
            trace := w.trace ++ [Event.remoteDeleteByID n,
              Event.remoteDeleteByName (d.GetString "name")] } (some e₂) := by
    rw [ht', RetryContext_succ, deleteAttempt_both_fail client n d w r₁ r₂ e₁ e₂ h₁ h₂]
    rfl
  obtain ⟨evs, hevs, _, hhead⟩ := RetryContext_delete_trace client n d (t + 1)
    { remote := r₂,
      trace := w.trace ++ [Event.remoteDeleteByID n,
        Event.remoteDeleteByName (d.GetString "name")] } (some e₂)
  obtain ⟨rest, hrest⟩ := hhead (Nat.succ_pos t)
  rw [← hstep, hrest] at hevs
  rcases hr : RetryContext (deleteAttempt client n d) env.TimeoutDelete w none with ⟨w', _ | err⟩
  · rw [resourceDelete_success _ _ env client d w w' n hid hr]
    rw [hr] at hevs
    simp only at hevs
    exact ⟨rest ++ [Event.setId ""], by simp [World.log, hevs]⟩
  · rw [resourceDelete_failure _ _ env client d w w' n err hid hr]
    rw [hr] at hevs
    simp only at hevs
    exact ⟨rest, by simp [hevs]⟩

/-- C6 (amended): in both Delete functions, when the delete by ID and the delete
by name both fail on a run of the closure, the closure reports the by-name error
as a retryable error; when the timeout allows a second run a further delete by
ID is made; and when every run the timeout allows fails in this way, Delete
returns an error diagnostic and leaves the state, the resource ID included, as
it was. -/
theorem delete_both_fail_is_retried {σ : Type} (env : Env σ) (client : Client σ)
    (d : ResourceData) (w : World σ) (n : Int) (r₁ r₂ : σ) (e₁ e₂ : String)
    (hid : Atoi d.id = Except.ok n)
    (h₁ : client.DeleteByID w.remote n = (r₁, some e₁))
    (h₂ : client.DeleteByName r₁ (d.GetString "name") = (r₂, some e₂)) :
    ((deleteAttempt client n d w).2 = some (RetryableError e₂) ∧
      (RetryableError e₂).Retryable = true) ∧
    (2 ≤ env.TimeoutDelete →
      (∃ rest, (ResourceJamfProFileShareDistributionPointsDelete env (some client) d w).2.1.trace
        = w.trace ++ [Event.remoteDeleteByID n, Event.remoteDeleteByName (d.GetString "name"),
            Event.remoteDeleteByID n] ++ rest) ∧
      (∃ rest, (ResourceJamfProPackagesDelete env (some client) d w).2.1.trace
        = w.trace ++ [Event.remoteDeleteByID n, Event.remoteDeleteByName (d.GetString "name"),
            Event.remoteDeleteByID n] ++ rest)) ∧
    (∀ w', attemptsFail (deleteAttempt client n d) env.TimeoutDelete w = some w' →
      (HasError (ResourceJamfProFileShareDistributionPointsDelete env (some client) d w).2.2 = true ∧
        (ResourceJamfProFileShareDistributionPointsDelete env (some client) d w).1 = d ∧
        (ResourceJamfProFileShareDistributionPointsDelete env (some client) d w).2.1 = w') ∧
      (HasError (ResourceJamfProPackagesDelete env (some client) d w).2.2 = true ∧
        (ResourceJamfProPackagesDelete env (some client) d w).1 = d ∧
        (ResourceJamfProPackagesDelete env (some client) d w).2.1 = w')) := by
  refine ⟨⟨?_, rfl⟩, ?_, ?_⟩
  · rw [deleteAttempt_both_fail client n d w r₁ r₂ e₁ e₂ h₁ h₂]
  · intro ht
    exact ⟨resourceDelete_retries _ _ env client d w n r₁ r₂ e₁ e₂ hid h₁ h₂ ht,
      resourceDelete_retries _ _ env client d w n r₁ r₂ e₁ e₂ hid h₁ h₂ ht⟩
  · intro w' hall
    obtain ⟨err, herr⟩ := RetryContext_all_fail (deleteAttempt client n d) env.TimeoutDelete w w'
      none hall
    unfold ResourceJamfProFileShareDistributionPointsDelete ResourceJamfProPackagesDelete
    rw [resourceDelete_failure _ _ env client d w w' n err hid herr,
      resourceDelete_failure _ _ env client d w w' n err hid herr]
    exact ⟨⟨rfl, rfl, rfl⟩, ⟨rfl, rfl, rfl⟩⟩

/-- C6 (amended) at a concrete input: the stored resource `"12"` against a remote
system where both deletes fail on every run the timeout allows. -/
theorem delete_both_fail_is_retried_witness :
    (Atoi sampleResourceData.id = Except.ok 12 ∧
      (countingClient 0 9).DeleteByID sampleWorld.remote 12 = (1, some "404 unknown id") ∧
      (countingClient 0 9).DeleteByName 1 (sampleResourceData.GetString "name")
        = (2, some "409 busy")) ∧
    (((deleteAttempt (countingClient 0 9) 12 sampleResourceData sampleWorld).2
        = some (RetryableError "409 busy") ∧
      (RetryableError "409 busy").Retryable = true) ∧
    (2 ≤ (sampleEnv false).TimeoutDelete →
      (∃ rest, (ResourceJamfProFileShareDistributionPointsDelete (sampleEnv false)
          (some (countingClient 0 9)) sampleResourceData sampleWorld).2.1.trace
        = sampleWorld.trace ++ [Event.remoteDeleteByID 12,
            Event.remoteDeleteByName (sampleResourceData.GetString "name"),
            Event.remoteDeleteByID 12] ++ rest) ∧
      (∃ rest, (ResourceJamfProPackagesDelete (sampleEnv false)
          (some (countingClient 0 9)) sampleResourceData sampleWorld).2.1.trace
        = sampleWorld.trace ++ [Event.remoteDeleteByID 12,
            Event.remoteDeleteByName (sampleResourceData.GetString "name"),
            Event.remoteDeleteByID 12] ++ rest)) ∧
    (∀ w', attemptsFail (deleteAttempt (countingClient 0 9) 12 sampleResourceData)
        (sampleEnv false).TimeoutDelete sampleWorld = some w' →
      (HasError (ResourceJamfProFileShareDistributionPointsDelete (sampleEnv false)
          (some (countingClient 0 9)) sampleResourceData sampleWorld).2.2 = true ∧
        (ResourceJamfProFileShareDistributionPointsDelete (sampleEnv false)
          (some (countingClient 0 9)) sampleResourceData sampleWorld).1 = sampleResourceData ∧
        (ResourceJamfProFileShareDistributionPointsDelete (sampleEnv false)
          (some (countingClient 0 9)) sampleResourceData sampleWorld).2.1 = w') ∧
      (HasError (ResourceJamfProPackagesDelete (sampleEnv false)
          (some (countingClient 0 9)) sampleResourceData sampleWorld).2.2 = true ∧
        (ResourceJamfProPackagesDelete (sampleEnv false)
          (some (countingClient 0 9)) sampleResourceData sampleWorld).1 = sampleResourceData ∧
        (ResourceJamfProPackagesDelete (sampleEnv false)
          (some (countingClient 0 9)) sampleResourceData sampleWorld).2.1 = w'))) :=
  ⟨⟨rfl, rfl, rfl⟩,
   delete_both_fail_is_retried (sampleEnv false) (countingClient 0 9) sampleResourceData
    sampleWorld 12 1 2 "404 unknown id" "409 busy" rfl rfl rfl⟩

/-! ### C7 -/

theorem Event.not_setId_of_isDelete {ev : Event} (h : ev.isDelete = true) (v : String) :
    ev ≠ Event.setId v := by
  intro he
  subst he
  cases h

/-- C7: every run of either Delete function ends in one of two ways.  Either it
returns an error diagnostic, and then the state, with the resource ID, is the
one before the call and `d.SetId` was not called; or it returns no diagnostic,
and then the resource ID was set to the empty string, as the last step. -/
theorem delete_identity_atomic {σ : Type} (env : Env σ) (clientOfMeta : Option (Client σ))
    (d : ResourceData) (w : World σ) :
    ((HasError (ResourceJamfProFileShareDistributionPointsDelete env clientOfMeta d w).2.2 = true ∧
        (ResourceJamfProFileShareDistributionPointsDelete env clientOfMeta d w).1 = d ∧
        (ResourceJamfProFileShareDistributionPointsDelete env clientOfMeta d w).1.id = d.id ∧
        ∃ evs, (ResourceJamfProFileShareDistributionPointsDelete env clientOfMeta d w).2.1.trace
            = w.trace ++ evs ∧ ∀ ev ∈ evs, ∀ v, ev ≠ Event.setId v) ∨
      ((ResourceJamfProFileShareDistributionPointsDelete env clientOfMeta d w).2.2 = [] ∧
        (ResourceJamfProFileShareDistributionPointsDelete env clientOfMeta d w).1 = d.SetId "" ∧
        ∃ evs, (ResourceJamfProFileShareDistributionPointsDelete env clientOfMeta d w).2.1.trace
            = w.trace ++ evs ++ [Event.setId ""] ∧ ∀ ev ∈ evs, ∀ v, ev ≠ Event.setId v)) ∧
    ((HasError (ResourceJamfProPackagesDelete env clientOfMeta d w).2.2 = true ∧
        (ResourceJamfProPackagesDelete env clientOfMeta d w).1 = d ∧
        (ResourceJamfProPackagesDelete env clientOfMeta d w).1.id = d.id ∧
        ∃ evs, (ResourceJamfProPackagesDelete env clientOfMeta d w).2.1.trace
            = w.trace ++ evs ∧ ∀ ev ∈ evs, ∀ v, ev ≠ Event.setId v) ∨
      ((ResourceJamfProPackagesDelete env clientOfMeta d w).2.2 = [] ∧
        (ResourceJamfProPackagesDelete env clientOfMeta d w).1 = d.SetId "" ∧
        ∃ evs, (ResourceJamfProPackagesDelete env clientOfMeta d w).2.1.trace
            = w.trace ++ evs ++ [Event.setId ""] ∧ ∀ ev ∈ evs, ∀ v, ev ≠ Event.setId v)) := by
  unfold ResourceJamfProFileShareDistributionPointsDelete ResourceJamfProPackagesDelete
  constructor
  · rcases resourceDelete_cases "error asserting meta as *client.client"
      "failed to delete Jamf Pro file share distribution point" env clientOfMeta d w with
      ⟨h1, h2, evs, h3, h4⟩ | ⟨h1, h2, evs, h3, h4⟩
    · exact Or.inl ⟨h1, h2, by rw [h2], evs, h3,
        fun ev hev v => Event.not_setId_of_isDelete (h4 ev hev) v⟩
    · exact Or.inr ⟨h1, h2, evs, h3, fun ev hev v => Event.not_setId_of_isDelete (h4 ev hev) v⟩
  · rcases resourceDelete_cases "error asserting meta as *client.APIClient"
      "failed to delete Jamf Pro Package" env clientOfMeta d w with
      ⟨h1, h2, evs, h3, h4⟩ | ⟨h1, h2, evs, h3, h4⟩
    · exact Or.inl ⟨h1, h2, by rw [h2], evs, h3,
        fun ev hev v => Event.not_setId_of_isDelete (h4 ev hev) v⟩
    · exact Or.inr ⟨h1, h2, evs, h3, fun ev hev v => Event.not_setId_of_isDelete (h4 ev hev) v⟩

/-! ## Create: C8, C9, C10 -/

theorem createAttempt_trace {σ : Type} (client : Client σ) (resource : RemoteResource)
    (s : World σ × Option Int) :
    (createAttempt client resource s).1.1.trace
      = s.1.trace ++ [Event.remoteCreate resource.Name] := by
  unfold createAttempt
  simp only [World.log_remote]
  rcases h : client.Create s.1.remote resource with ⟨r, e | id⟩ <;> simp [World.log]

theorem createAttempt_error {σ : Type} (client : Client σ) (resource : RemoteResource)
    (s : World σ × Option Int) (r : σ) (e : String)
    (h : client.Create s.1.remote resource = (r, Except.error e)) :
    createAttempt client resource s =
      (({ remote := r, trace := s.1.trace ++ [Event.remoteCreate resource.Name] }, none),
        some (RetryableError e)) := by
  unfold createAttempt
  simp [World.log, h]

theorem createAttempt_ok {σ : Type} (client : Client σ) (resource : RemoteResource)
    (s : World σ × Option Int) (r : σ) (id : Int)
    (h : client.Create s.1.remote resource = (r, Except.ok id)) :
    createAttempt client resource s =
      (({ remote := r, trace := s.1.trace ++ [Event.remoteCreate resource.Name] }, some id),
        none) := by
  unfold createAttempt
  simp [World.log, h]

/-- The retried create logs create calls only, at most as many as the timeout
allows, and when it ends in success the response is stored. -/
theorem RetryContext_create_trace {σ : Type} (client : Client σ) (resource : RemoteResource) :
    ∀ (t : Nat) (s : World σ × Option Int) (e : Option String),
      ∃ k, k ≤ t ∧
        (RetryContext (createAttempt client resource) t s e).1.1.trace
          = s.1.trace ++ List.replicate k (Event.remoteCreate resource.Name) ∧
        ((RetryContext (createAttempt client resource) t s e).2 = none →
          ∃ id, (RetryContext (createAttempt client resource) t s e).1.2 = some id) := by
  intro t
  induction t with
  | zero =>
    intro s e
    exact ⟨0, Nat.le_refl 0, by simp [RetryContext], by simp [RetryContext]⟩
  | succ t ih =>
    intro s e
    rw [RetryContext_succ]
    rcases hc : client.Create s.1.remote resource with ⟨r, err | id⟩
    · rw [createAttempt_error client resource s r err hc]
      simp only [RetryableError, if_true]
      obtain ⟨k, hk, htr, hok⟩ := ih
        ({ remote := r, trace := s.1.trace ++ [Event.remoteCreate resource.Name] }, none) (some err)
      refine ⟨k + 1, Nat.succ_le_succ hk, ?_, hok⟩
      rw [htr]
      simp [List.replicate_succ]
    · rw [createAttempt_ok client resource s r id hc]
      exact ⟨1, Nat.succ_le_succ (Nat.zero_le t), by simp, fun _ => ⟨id, rfl⟩⟩

theorem attemptsFail_create_trace {σ : Type} (client : Client σ) (resource : RemoteResource) :
    ∀ (j : Nat) (s sj : World σ × Option Int),
      attemptsFail (createAttempt client resource) j s = some sj →
      sj.1.trace = s.1.trace ++ List.replicate j (Event.remoteCreate resource.Name) := by
  intro j
  induction j with
  | zero =>
    intro s sj h
    simp only [attemptsFail, Option.some.injEq] at h
    subst h
    simp
  | succ j ih =>
    intro s sj h
    unfold attemptsFail at h
    have htr := createAttempt_trace client resource s
    rcases hf : createAttempt client resource s with ⟨s₁, _ | rerr⟩
    · rw [hf] at h
      cases h
    · rw [hf] at h htr
      simp only at h htr
      by_cases hr : rerr.Retryable = true
      · rw [if_pos hr] at h
        rw [ih s₁ sj h, htr]
        simp [List.replicate_succ]
      · rw [if_neg hr] at h
        cases h

theorem resourceRead_trace {σ : Type} (assertMsg : String) (env : Env σ)
    (clientOfMeta : Option (Client σ)) (d : ResourceData) (w : World σ) :
    ∃ t, (resourceRead assertMsg env clientOfMeta d w).2.1.trace = w.trace ++ Event.read :: t := by
  unfold resourceRead
  cases clientOfMeta with
  | none => exact ⟨[], by simp [World.log]⟩
  | some client =>
    simp only
    cases hid : Atoi d.id with
    | error err => exact ⟨[], by simp [World.log]⟩
    | ok n =>
      simp only [World.log_remote]
      rcases hg : client.GetByID w.remote n with ⟨r, err | resource⟩
      · exact ⟨[Event.remoteGetByID n, Event.handleNotFound], by simp [World.log]⟩
      · simp only
        split <;> exact ⟨[Event.remoteGetByID n, Event.updateState], by simp [World.log]⟩

/-- When the poller reports an error, the tail of Create returns the diagnostics
of the poller, leaves the state alone and does not run Read. -/
theorem waitAndRead_error {σ : Type} (env : Env σ) (client : Client σ)
    (read : ResourceData → World σ → ResourceData × World σ × Diagnostics)
    (merge : Diagnostics → Diagnostics → Diagnostics)
    (id : Int) (diags : Diagnostics) (d : ResourceData) (w : World σ)
    (r : σ) (waitDiags : Diagnostics)
    (hp : env.ResourceIsAvailable d (Itoa id) (checkResourceExists client) w.remote = (r, waitDiags))
    (he : HasError waitDiags = true) :
    waitAndRead env client read merge id diags d w
      = (d, { remote := r, trace := w.trace ++ [Event.waitForResource (Itoa id)] }, waitDiags) := by
  unfold waitAndRead
  simp [World.log, hp, he]

/-- The tail of Create logs the poller and then either nothing more or a run of
Read. -/
theorem waitAndRead_trace {σ : Type} (env : Env σ) (client : Client σ)
    (read : ResourceData → World σ → ResourceData × World σ × Diagnostics)
    (merge : Diagnostics → Diagnostics → Diagnostics)
    (id : Int) (diags : Diagnostics) (d : ResourceData) (w : World σ)
    (hread : ∀ d w, ∃ t, (read d w).2.1.trace = w.trace ++ Event.read :: t) :
    ∃ rest, (waitAndRead env client read merge id diags d w).2.1.trace
        = w.trace ++ Event.waitForResource (Itoa id) :: rest ∧
      (rest = [] ∨ ∃ rest', rest = Event.read :: rest') := by
  obtain ⟨r, wd, hp⟩ : ∃ r wd,
      env.ResourceIsAvailable d (Itoa id) (checkResourceExists client) w.remote = (r, wd) :=
    ⟨_, _, rfl⟩
  by_cases he : HasError wd = true
  · rw [waitAndRead_error env client read merge id diags d w r wd hp he]
    exact ⟨[], by simp, Or.inl rfl⟩
  · obtain ⟨t, ht⟩ := hread d
      { remote := r, trace := w.trace ++ [Event.waitForResource (Itoa id)] }
    refine ⟨Event.read :: t, ?_, Or.inr ⟨t, rfl⟩⟩
    unfold waitAndRead
    simp only [World.log, hp, he]
    simpa using ht

theorem fileShareCreate_construct_error {σ : Type} (env : Env σ) (client : Client σ)
    (d : ResourceData) (w : World σ) (e : String) (hc : env.construct d = Except.error e) :
    ResourceJamfProFileShareDistributionPointsCreate env (some client) d w
      = (d, w.log Event.construct,
          diagFromErr ("failed to construct Jamf Pro Fileshare Distribution Point: " ++ e)) := by
  unfold ResourceJamfProFileShareDistributionPointsCreate
  simp only [hc]

theorem fileShareCreate_create_error {σ : Type} (env : Env σ) (client : Client σ)
    (d : ResourceData) (w w₁ : World σ) (resource : RemoteResource) (x : Option Int) (err : String)
    (hc : env.construct d = Except.ok resource)
    (hr : RetryContext (createAttempt client resource) env.TimeoutCreate
      (w.log Event.construct, none) none = ((w₁, x), some err)) :
    ResourceJamfProFileShareDistributionPointsCreate env (some client) d w
      = (d, w₁, diagFromErr ("failed to create Jamf Pro Fileshare Distribution Point \x27"
          ++ resource.Name ++ "\x27 after retries: " ++ err)) := by
  unfold ResourceJamfProFileShareDistributionPointsCreate
  simp only [hc, hr]

theorem fileShareCreate_create_ok {σ : Type} (env : Env σ) (client : Client σ)
    (d : ResourceData) (w w₁ : World σ) (resource : RemoteResource) (n : Int)
    (hc : env.construct d = Except.ok resource)
    (hr : RetryContext (createAttempt client resource) env.TimeoutCreate
      (w.log Event.construct, none) none = ((w₁, some n), none)) :
    ResourceJamfProFileShareDistributionPointsCreate env (some client) d w
      = waitAndRead env client (ResourceJamfProFileShareDistributionPointsRead env (some client))
          (fun diags readDiags => if readDiags.length > 0 then readDiags else diags) n []
          (d.SetId (Itoa n)) (w₁.log (Event.setId (Itoa n))) := by
  unfold ResourceJamfProFileShareDistributionPointsCreate
  simp only [hc, hr]

theorem packagesCreate_construct_error {σ : Type} (env : Env σ) (conn : Client σ)
    (d : ResourceData) (w : World σ) (r₁ : σ) (uri hash e : String)
    (hu : conn.CreateJCDS2PackageV2 w.remote (d.GetString "package_file_path")
      = (r₁, Except.ok uri))
    (hh : env.generateMD5FileHash (d.GetString "package_file_path") = Except.ok hash)
    (hc : env.construct d = Except.error e) :
    ResourceJamfProPackagesCreate env (some conn) d w
      = (d, { remote := r₁,
              trace := w.trace ++ [Event.remoteUpload (d.GetString "package_file_path"),
                Event.generateHash (d.GetString "package_file_path"), Event.construct] },
          diagFromErr ("failed to construct Jamf Pro Package: " ++ e)) := by
  unfold ResourceJamfProPackagesCreate
  simp [World.log, hu, hh, hc]

theorem packagesCreate_create_error {σ : Type} (env : Env σ) (conn : Client σ)
    (d : ResourceData) (w : World σ) (r₁ r₂ : σ) (uri hash e : String) (resource : RemoteResource)
    (hu : conn.CreateJCDS2PackageV2 w.remote (d.GetString "package_file_path")
      = (r₁, Except.ok uri))
    (hh : env.generateMD5FileHash (d.GetString "package_file_path") = Except.ok hash)
    (hc : env.construct d = Except.ok resource)
    (hcr : conn.Create r₁ resource = (r₂, Except.error e)) :
    ResourceJamfProPackagesCreate env (some conn) d w
      = (d, { remote := r₂,
              trace := w.trace ++ [Event.remoteUpload (d.GetString "package_file_path"),
                Event.generateHash (d.GetString "package_file_path"), Event.construct,
                Event.remoteCreate resource.Name] },
          diagFromErr ("failed to create Jamf Pro Package \x27" ++ resource.Name ++ "\x27: " ++ e)) := by
  unfold ResourceJamfProPackagesCreate
  simp [World.log, hu, hh, hc, hcr]

theorem packagesCreate_create_ok {σ : Type} (env : Env σ) (conn : Client σ)
    (d : ResourceData) (w : World σ) (r₁ r₂ : σ) (uri hash : String) (resource : RemoteResource)
    (n : Int)
    (hu : conn.CreateJCDS2PackageV2 w.remote (d.GetString "package_file_path")
      = (r₁, Except.ok uri))
    (hh : env.generateMD5FileHash (d.GetString "package_file_path") = Except.ok hash)
    (hc : env.construct d = Except.ok resource)
    (hcr : conn.Create r₁ resource = (r₂, Except.ok n)) :
    ResourceJamfProPackagesCreate env (some conn) d w
      = waitAndRead env conn (ResourceJamfProPackagesRead env (some conn))
          (fun diags readDiags => if readDiags.length > 0 then diags ++ readDiags else diags) n
          (setAndCollect (setAndCollect (d.SetId (Itoa n), []) "package_uri"
            (Value.leaf (Leaf.str uri))) "md5_file_hash" (Value.leaf (Leaf.str hash))).2
          (setAndCollect (setAndCollect (d.SetId (Itoa n), []) "package_uri"
            (Value.leaf (Leaf.str uri))) "md5_file_hash" (Value.leaf (Leaf.str hash))).1
          { remote := r₂,
            trace := w.trace ++ [Event.remoteUpload (d.GetString "package_file_path"),
              Event.generateHash (d.GetString "package_file_path"), Event.construct,
              Event.remoteCreate resource.Name, Event.setId (Itoa n)] } := by
  unfold ResourceJamfProPackagesCreate
  simp [World.log, hu, hh, hc, hcr]

/-- C8: in both Create functions, when construct fails or the remote create
ultimately fails, Create returns an error diagnostic, the state is the one
before the call (the resource ID is not assigned), and the run contains no call
of `d.SetId`, of the poller or of Read. -/
theorem create_failure_assigns_no_identity {σ : Type}
    (envF : Env σ) (clientF : Client σ) (dF : ResourceData) (wF : World σ)
    (envP : Env σ) (connP : Client σ) (dP : ResourceData) (wP : World σ)
    (hF : FileShareCreateFails envF clientF dF wF) (hP : PackagesCreateFails envP connP dP wP) :
    (HasError (ResourceJamfProFileShareDistributionPointsCreate envF (some clientF) dF wF).2.2 = true ∧
      (ResourceJamfProFileShareDistributionPointsCreate envF (some clientF) dF wF).1 = dF ∧
      ∃ evs, (ResourceJamfProFileShareDistributionPointsCreate envF (some clientF) dF wF).2.1.trace
          = wF.trace ++ evs ∧ ∀ ev ∈ evs, ev.isAfterCreate = false) ∧
    (HasError (ResourceJamfProPackagesCreate envP (some connP) dP wP).2.2 = true ∧
      (ResourceJamfProPackagesCreate envP (some connP) dP wP).1 = dP ∧
      ∃ evs, (ResourceJamfProPackagesCreate envP (some connP) dP wP).2.1.trace
          = wP.trace ++ evs ∧ ∀ ev ∈ evs, ev.isAfterCreate = false) := by
  constructor
  · rcases hF with ⟨e, hc⟩ | ⟨resource, e, hc, hr⟩
    · rw [fileShareCreate_construct_error envF clientF dF wF e hc]
      exact ⟨rfl, rfl, [Event.construct], rfl, by simp [Event.isAfterCreate]⟩
    · obtain ⟨k, _, htr, _⟩ := RetryContext_create_trace clientF resource envF.TimeoutCreate
        (wF.log Event.construct, none) none
      rcases hres : RetryContext (createAttempt clientF resource) envF.TimeoutCreate
        (wF.log Event.construct, none) none with ⟨⟨w₁, x⟩, err⟩
      rw [hres] at hr htr
      simp only at hr htr
      subst hr
      rw [fileShareCreate_create_error envF clientF dF wF w₁ resource x e hc hres]
      refine ⟨rfl, rfl, Event.construct :: List.replicate k (Event.remoteCreate resource.Name),
        by simp [htr, World.log], ?_⟩
      intro ev hev
      rcases List.mem_cons.mp hev with h | h
      · subst h; rfl
      · rw [List.eq_of_mem_replicate h]; rfl
  · obtain ⟨r₁, uri, hash, hu, hh, hrest⟩ := hP
    rcases hrest with ⟨e, hc⟩ | ⟨resource, r₂, e, hc, hcr⟩
    · rw [packagesCreate_construct_error envP connP dP wP r₁ uri hash e hu hh hc]
      exact ⟨rfl, rfl, _, rfl, by simp [Event.isAfterCreate]⟩
    · rw [packagesCreate_create_error envP connP dP wP r₁ r₂ uri hash e resource hu hh hc hcr]
      exact ⟨rfl, rfl, _, rfl, by simp [Event.isAfterCreate]⟩

/-- C8 at a concrete input: for the fileshare Create a remote system whose create
fails on every run the timeout allows, for the package Create helpers whose
construct rejects the configuration. -/
theorem create_failure_assigns_no_identity_witness :
    (FileShareCreateFails (sampleEnv false) (countingClient 9 0) sampleResourceData sampleWorld ∧
      PackagesCreateFails sampleEnvBadConstruct (countingClient 0 0) sampleResourceData sampleWorld) ∧
    ((HasError (ResourceJamfProFileShareDistributionPointsCreate (sampleEnv false)
        (some (countingClient 9 0)) sampleResourceData sampleWorld).2.2 = true ∧
      (ResourceJamfProFileShareDistributionPointsCreate (sampleEnv false)
        (some (countingClient 9 0)) sampleResourceData sampleWorld).1 = sampleResourceData ∧
      ∃ evs, (ResourceJamfProFileShareDistributionPointsCreate (sampleEnv false)
          (some (countingClient 9 0)) sampleResourceData sampleWorld).2.1.trace
          = sampleWorld.trace ++ evs ∧ ∀ ev ∈ evs, ev.isAfterCreate = false) ∧
    (HasError (ResourceJamfProPackagesCreate sampleEnvBadConstruct
        (some (countingClient 0 0)) sampleResourceData sampleWorld).2.2 = true ∧
      (ResourceJamfProPackagesCreate sampleEnvBadConstruct
        (some (countingClient 0 0)) sampleResourceData sampleWorld).1 = sampleResourceData ∧
      ∃ evs, (ResourceJamfProPackagesCreate sampleEnvBadConstruct
          (some (countingClient 0 0)) sampleResourceData sampleWorld).2.1.trace
          = sampleWorld.trace ++ evs ∧ ∀ ev ∈ evs, ev.isAfterCreate = false)) :=
  ⟨⟨Or.inr ⟨⟨"dp-1", "payload"⟩, "503 unavailable", rfl, rfl⟩,
    ⟨1, _, _, rfl, rfl, Or.inl ⟨_, rfl⟩⟩⟩,
   create_failure_assigns_no_identity (sampleEnv false) (countingClient 9 0)
    sampleResourceData sampleWorld sampleEnvBadConstruct (countingClient 0 0)
    sampleResourceData sampleWorld
    (Or.inr ⟨⟨"dp-1", "payload"⟩, "503 unavailable", rfl, rfl⟩)
    ⟨1, _, _, rfl, rfl, Or.inl ⟨_, rfl⟩⟩⟩

/-! ### C9 -/

/-- C9, as stated, fails for the package Create.  With a construct that rejects
the configuration the upload has already been sent to the remote system, and the
remote create is called once, outside the retry policy: against a remote system
whose create fails twice and then succeeds, the package Create gives up after
one call, while the fileshare Create, under the same timeout, calls three times
and goes on. -/
theorem packagesCreate_uploads_first_and_does_not_retry :
    sampleEnvBadConstruct.construct sampleResourceData = Except.error "name is required" ∧
    ((ResourceJamfProPackagesCreate sampleEnvBadConstruct (some (countingClient 0 0))
        sampleResourceData sampleWorld).2.1.trace
      = [Event.remoteUpload "/tmp/a.pkg", Event.generateHash "/tmp/a.pkg", Event.construct] ∧
    sampleWorld.remote = 0 ∧
    (ResourceJamfProPackagesCreate sampleEnvBadConstruct (some (countingClient 0 0))
        sampleResourceData sampleWorld).2.1.remote = 1 ∧
    (sampleEnv false).TimeoutCreate = 3 ∧
    (ResourceJamfProPackagesCreate (sampleEnv false) (some (countingClient 2 0))
        sampleResourceData sampleWorld).2.1.trace
      = [Event.remoteUpload "/tmp/a.pkg", Event.generateHash "/tmp/a.pkg", Event.construct,
         Event.remoteCreate "dp-1"] ∧
    HasError (ResourceJamfProPackagesCreate (sampleEnv false) (some (countingClient 2 0))
        sampleResourceData sampleWorld).2.2 = true ∧
    (ResourceJamfProFileShareDistributionPointsCreate (sampleEnv false) (some (countingClient 2 0))
        sampleResourceData sampleWorld).2.1.trace
      = [Event.construct, Event.remoteCreate "dp-1", Event.remoteCreate "dp-1",
         Event.remoteCreate "dp-1", Event.setId "42", Event.waitForResource "42", Event.read,
         Event.remoteGetByID 42, Event.updateState]) := by
  refine ⟨rfl, ?_⟩
  decide

/-- C9 (amended).  Fileshare Create: construct is the first step and a construct
failure leaves the remote system untouched; the remote create runs under the
retry policy, so after `j` failed calls within the timeout and a successful one
the run is construct, `j + 1` create calls, `d.SetId`, the poller and then Read
(unless the poller reported an error).  Package Create: the upload and the hash
come before construct, so a construct failure leaves the remote system in the
state after the upload; the remote create is called only after construct has
succeeded and exactly once, a failure being returned without another call; after
a successful create follow `d.SetId`, the poller and then Read (unless the poller
reported an error). -/
theorem create_order {σ : Type} (env : Env σ) (client : Client σ) (d : ResourceData)
    (w : World σ) :
    (∀ e, env.construct d = Except.error e →
      (ResourceJamfProFileShareDistributionPointsCreate env (some client) d w).2.1.trace
          = w.trace ++ [Event.construct] ∧
      (ResourceJamfProFileShareDistributionPointsCreate env (some client) d w).2.1.remote
          = w.remote) ∧
    (∀ resource j sj r n, env.construct d = Except.ok resource → j < env.TimeoutCreate →
      attemptsFail (createAttempt client resource) j (w.log Event.construct, none) = some sj →
      client.Create sj.1.remote resource = (r, Except.ok n) →
      ∃ rest, (ResourceJamfProFileShareDistributionPointsCreate env (some client) d w).2.1.trace
          = w.trace ++ Event.construct :: List.replicate (j + 1) (Event.remoteCreate resource.Name)
              ++ [Event.setId (Itoa n), Event.waitForResource (Itoa n)] ++ rest ∧
        (rest = [] ∨ ∃ rest', rest = Event.read :: rest')) ∧
    (∀ r₁ uri hash e,
      client.CreateJCDS2PackageV2 w.remote (d.GetString "package_file_path")
        = (r₁, Except.ok uri) →
      env.generateMD5FileHash (d.GetString "package_file_path") = Except.ok hash →
      env.construct d = Except.error e →
      (ResourceJamfProPackagesCreate env (some client) d w).2.1.trace
          = w.trace ++ [Event.remoteUpload (d.GetString "package_file_path"),
              Event.generateHash (d.GetString "package_file_path"), Event.construct] ∧
      (ResourceJamfProPackagesCreate env (some client) d w).2.1.remote = r₁) ∧
    (∀ r₁ r₂ uri hash resource e,
      client.CreateJCDS2PackageV2 w.remote (d.GetString "package_file_path")
        = (r₁, Except.ok uri) →
      env.generateMD5FileHash (d.GetString "package_file_path") = Except.ok hash →
      env.construct d = Except.ok resource →
      client.Create r₁ resource = (r₂, Except.error e) →
      (ResourceJamfProPackagesCreate env (some client) d w).2.1.trace
          = w.trace ++ [Event.remoteUpload (d.GetString "package_file_path"),
              Event.generateHash (d.GetString "package_file_path"), Event.construct,
              Event.remoteCreate resource.Name] ∧
      HasError (ResourceJamfProPackagesCreate env (some client) d w).2.2 = true) ∧
    (∀ r₁ r₂ uri hash resource n,
      client.CreateJCDS2PackageV2 w.remote (d.GetString "package_file_path")
        = (r₁, Except.ok uri) →
      env.generateMD5FileHash (d.GetString "package_file_path") = Except.ok hash →
      env.construct d = Except.ok resource →
      client.Create r₁ resource = (r₂, Except.ok n) →
      ∃ rest, (ResourceJamfProPackagesCreate env (some client) d w).2.1.trace
          = w.trace ++ [Event.remoteUpload (d.GetString "package_file_path"),
              Event.generateHash (d.GetString "package_file_path"), Event.construct,
              Event.remoteCreate resource.Name, Event.setId (Itoa n),
              Event.waitForResource (Itoa n)] ++ rest ∧
        (rest = [] ∨ ∃ rest', rest = Event.read :: rest')) := by
  refine ⟨?_, ?_, ?_, ?_, ?_⟩
  · intro e hc
    rw [fileShareCreate_construct_error env client d w e hc]
    exact ⟨rfl, rfl⟩
  · intro resource j sj r n hc hj hprev hok
    have htr := attemptsFail_create_trace client resource j _ sj hprev
    have hr := RetryContext_success_after (createAttempt client resource) j env.TimeoutCreate
      (w.log Event.construct, none) sj _ none hj hprev (createAttempt_ok client resource sj r n hok)
    rw [fileShareCreate_create_ok env client d w _ resource n hc hr]
    obtain ⟨rest, hrest, hshape⟩ := waitAndRead_trace env client
      (ResourceJamfProFileShareDistributionPointsRead env (some client))
      (fun diags readDiags => if readDiags.length > 0 then readDiags else diags) n []
      (d.SetId (Itoa n))
      (World.log { remote := r, trace := sj.1.trace ++ [Event.remoteCreate resource.Name] }
        (Event.setId (Itoa n)))
      (fun d w => resourceRead_trace _ env (some client) d w)
    refine ⟨rest, ?_, hshape⟩
    rw [hrest, World.log_trace, htr, World.log_trace]
    simp [List.replicate_succ']
  · intro r₁ uri hash e hu hh hc
    rw [packagesCreate_construct_error env client d w r₁ uri hash e hu hh hc]
    exact ⟨rfl, rfl⟩
  · intro r₁ r₂ uri hash resource e hu hh hc hcr
    rw [packagesCreate_create_error env client d w r₁ r₂ uri hash e resource hu hh hc hcr]
    exact ⟨rfl, rfl⟩
  · intro r₁ r₂ uri hash resource n hu hh hc hcr
    rw [packagesCreate_create_ok env client d w r₁ r₂ uri hash resource n hu hh hc hcr]
    obtain ⟨rest, hrest, hshape⟩ := waitAndRead_trace env client
      (ResourceJamfProPackagesRead env (some client))
      (fun diags readDiags => if readDiags.length > 0 then diags ++ readDiags else diags) n
      (setAndCollect (setAndCollect (d.SetId (Itoa n), []) "package_uri"
        (Value.leaf (Leaf.str uri))) "md5_file_hash" (Value.leaf (Leaf.str hash))).2
      (setAndCollect (setAndCollect (d.SetId (Itoa n), []) "package_uri"
        (Value.leaf (Leaf.str uri))) "md5_file_hash" (Value.leaf (Leaf.str hash))).1
      { remote := r₂,
        trace := w.trace ++ [Event.remoteUpload (d.GetString "package_file_path"),
          Event.generateHash (d.GetString "package_file_path"), Event.construct,
          Event.remoteCreate resource.Name, Event.setId (Itoa n)] }
      (fun d w => resourceRead_trace _ env (some client) d w)
    refine ⟨rest, ?_, hshape⟩
    rw [hrest]
    simp

/-- C9 (amended) at a concrete input: a remote system whose create fails twice and
then answers ID 42.  The fileshare Create calls it three times and goes on; the
package Create calls it once and returns the error. -/
theorem create_order_witness :
    (∃ rest, (ResourceJamfProFileShareDistributionPointsCreate (sampleEnv false)
          (some (countingClient 2 0)) sampleResourceData sampleWorld).2.1.trace
        = sampleWorld.trace ++ Event.construct :: List.replicate (2 + 1) (Event.remoteCreate "dp-1")
            ++ [Event.setId (Itoa 42), Event.waitForResource (Itoa 42)] ++ rest ∧
      (rest = [] ∨ ∃ rest', rest = Event.read :: rest')) ∧
    ((ResourceJamfProPackagesCreate (sampleEnv false) (some (countingClient 2 0))
          sampleResourceData sampleWorld).2.1.trace
        = sampleWorld.trace ++ [Event.remoteUpload (sampleResourceData.GetString "package_file_path"),
            Event.generateHash (sampleResourceData.GetString "package_file_path"), Event.construct,
            Event.remoteCreate "dp-1"] ∧
      HasError (ResourceJamfProPackagesCreate (sampleEnv false) (some (countingClient 2 0))
          sampleResourceData sampleWorld).2.2 = true) :=
  ⟨(create_order (sampleEnv false) (countingClient 2 0) sampleResourceData sampleWorld).2.1
      ⟨"dp-1", "payload"⟩ 2
      ({ remote := 2,
         trace := [Event.construct, Event.remoteCreate "dp-1", Event.remoteCreate "dp-1"] }, none)
      3 42 rfl (by decide) rfl rfl,
   (create_order (sampleEnv false) (countingClient 2 0) sampleResourceData sampleWorld).2.2.2.1
      1 2 "jcds:///tmp/a.pkg" "9e107d9d372bb6826bd81d3542a419d6" ⟨"dp-1", "payload"⟩
      "503 unavailable" rfl rfl rfl rfl⟩

/-! ### C10 -/

/-- C10: in both Create functions, when the remote create has succeeded with ID
`n` and the diagnostics of the poller contain an error, Create returns exactly
the diagnostics of the poller, the resource ID is `strconv.Itoa(n)`, and the run
ends with the poller: Read is not called. -/
theorem create_poller_error {σ : Type}
    (envF : Env σ) (clientF : Client σ) (dF : ResourceData) (wF w₁ : World σ)
    (resF : RemoteResource) (n : Int) (r₂ : σ) (waitF : Diagnostics)
    (envP : Env σ) (connP : Client σ) (dP : ResourceData) (wP : World σ)
    (p₁ p₂ p₃ : σ) (uri hash : String) (resP : RemoteResource) (m : Int) (waitP : Diagnostics)
    (hcF : envF.construct dF = Except.ok resF)
    (hrF : RetryContext (createAttempt clientF resF) envF.TimeoutCreate
      (wF.log Event.construct, none) none = ((w₁, some n), none))
    (hpF : envF.ResourceIsAvailable (dF.SetId (Itoa n)) (Itoa n) (checkResourceExists clientF)
      w₁.remote = (r₂, waitF))
    (heF : HasError waitF = true)
    (huP : connP.CreateJCDS2PackageV2 wP.remote (dP.GetString "package_file_path")
      = (p₁, Except.ok uri))
    (hhP : envP.generateMD5FileHash (dP.GetString "package_file_path") = Except.ok hash)
    (hcP : envP.construct dP = Except.ok resP)
    (hcrP : connP.Create p₁ resP = (p₂, Except.ok m))
    (hpP : envP.ResourceIsAvailable
      (setAndCollect (setAndCollect (dP.SetId (Itoa m), []) "package_uri"
        (Value.leaf (Leaf.str uri))) "md5_file_hash" (Value.leaf (Leaf.str hash))).1
      (Itoa m) (checkResourceExists connP) p₂ = (p₃, waitP))
    (heP : HasError waitP = true) :
    ((ResourceJamfProFileShareDistributionPointsCreate envF (some clientF) dF wF).2.2 = waitF ∧
      (ResourceJamfProFileShareDistributionPointsCreate envF (some clientF) dF wF).1.id = Itoa n ∧
      ∃ k, (ResourceJamfProFileShareDistributionPointsCreate envF (some clientF) dF wF).2.1.trace
          = wF.trace ++ (Event.construct :: List.replicate k (Event.remoteCreate resF.Name)
              ++ [Event.setId (Itoa n), Event.waitForResource (Itoa n)]) ∧
        Event.read ∉ (Event.construct :: List.replicate k (Event.remoteCreate resF.Name)
              ++ [Event.setId (Itoa n), Event.waitForResource (Itoa n)])) ∧
    ((ResourceJamfProPackagesCreate envP (some connP) dP wP).2.2 = waitP ∧
      (ResourceJamfProPackagesCreate envP (some connP) dP wP).1.id = Itoa m ∧
      (ResourceJamfProPackagesCreate envP (some connP) dP wP).2.1.trace
          = wP.trace ++ [Event.remoteUpload (dP.GetString "package_file_path"),
              Event.generateHash (dP.GetString "package_file_path"), Event.construct,
              Event.remoteCreate resP.Name, Event.setId (Itoa m),
              Event.waitForResource (Itoa m)] ∧
      Event.read ∉ [Event.remoteUpload (dP.GetString "package_file_path"),
              Event.generateHash (dP.GetString "package_file_path"), Event.construct,
              Event.remoteCreate resP.Name, Event.setId (Itoa m),
              Event.waitForResource (Itoa m)]) := by
  constructor
  · obtain ⟨k, _, htr, _⟩ := RetryContext_create_trace clientF resF envF.TimeoutCreate
      (wF.log Event.construct, none) none
    rw [hrF] at htr
    simp only [World.log_trace] at htr
    rw [fileShareCreate_create_ok envF clientF dF wF w₁ resF n hcF hrF,
      waitAndRead_error envF clientF _ _ n [] (dF.SetId (Itoa n)) (w₁.log (Event.setId (Itoa n)))
        r₂ waitF hpF heF]
    refine ⟨rfl, rfl, k, by simp [World.log, htr], ?_⟩
    intro hmem
    rcases List.mem_cons.mp hmem with h | h
    · cases h
    · rcases List.mem_append.mp h with h | h
      · cases List.eq_of_mem_replicate h
      · simp at h
  · rw [packagesCreate_create_ok envP connP dP wP p₁ p₂ uri hash resP m huP hhP hcP hcrP,
      waitAndRead_error envP connP _ _ m _ _ _ p₃ waitP hpP heP]
    refine ⟨rfl, ?_, by simp, by simp⟩
    rw [(setAndCollect_fst_id _ _ _).1, (setAndCollect_fst_id _ _ _).1]
    rfl

/-- C10 at a concrete input: the create answers ID 42 and the poller reports an
error. -/
theorem create_poller_error_witness :
    HasError [(⟨Severity.Error, "resource 42 did not become available"⟩ : Diagnostic)] = true ∧
    ((ResourceJamfProFileShareDistributionPointsCreate (sampleEnv true) (some (countingClient 0 0))
        sampleResourceData sampleWorld).2.2
        = [⟨Severity.Error, "resource 42 did not become available"⟩] ∧
      (ResourceJamfProFileShareDistributionPointsCreate (sampleEnv true) (some (countingClient 0 0))
        sampleResourceData sampleWorld).1.id = Itoa 42 ∧
      ∃ k, (ResourceJamfProFileShareDistributionPointsCreate (sampleEnv true)
          (some (countingClient 0 0)) sampleResourceData sampleWorld).2.1.trace
          = sampleWorld.trace ++ (Event.construct :: List.replicate k (Event.remoteCreate "dp-1")
              ++ [Event.setId (Itoa 42), Event.waitForResource (Itoa 42)]) ∧
        Event.read ∉ (Event.construct :: List.replicate k (Event.remoteCreate "dp-1")
              ++ [Event.setId (Itoa 42), Event.waitForResource (Itoa 42)])) ∧
    ((ResourceJamfProPackagesCreate (sampleEnv true) (some (countingClient 0 0))
        sampleResourceData sampleWorld).2.2
        = [⟨Severity.Error, "resource 42 did not become available"⟩] ∧
      (ResourceJamfProPackagesCreate (sampleEnv true) (some (countingClient 0 0))
        sampleResourceData sampleWorld).1.id = Itoa 42 ∧
      (ResourceJamfProPackagesCreate (sampleEnv true) (some (countingClient 0 0))
        sampleResourceData sampleWorld).2.1.trace
          = sampleWorld.trace ++ [Event.remoteUpload (sampleResourceData.GetString "package_file_path"),
              Event.generateHash (sampleResourceData.GetString "package_file_path"),
              Event.construct, Event.remoteCreate "dp-1", Event.setId (Itoa 42),
              Event.waitForResource (Itoa 42)] ∧
      Event.read ∉ [Event.remoteUpload (sampleResourceData.GetString "package_file_path"),
              Event.generateHash (sampleResourceData.GetString "package_file_path"),
              Event.construct, Event.remoteCreate "dp-1", Event.setId (Itoa 42),
              Event.waitForResource (Itoa 42)]) :=
  ⟨rfl,
   create_poller_error (sampleEnv true) (countingClient 0 0) sampleResourceData sampleWorld
    { remote := 1, trace := [Event.construct, Event.remoteCreate "dp-1"] }
    ⟨"dp-1", "payload"⟩ 42 2 [⟨Severity.Error, "resource 42 did not become available"⟩]
    (sampleEnv true) (countingClient 0 0) sampleResourceData sampleWorld
    1 2 3 "jcds:///tmp/a.pkg" "9e107d9d372bb6826bd81d3542a419d6" ⟨"dp-1", "payload"⟩ 42
    [⟨Severity.Error, "resource 42 did not become available"⟩]
    rfl rfl rfl rfl rfl rfl rfl rfl rfl rfl⟩

/-! ## C11: poller diagnostics without an error -/

/-- When the poller reports no error, the tail of Create runs Read on the state it
was given and merges the diagnostics of Read; the diagnostics of the poller are
not used. -/
theorem waitAndRead_ok {σ : Type} (env : Env σ) (client : Client σ)
    (read : ResourceData → World σ → ResourceData × World σ × Diagnostics)
    (merge : Diagnostics → Diagnostics → Diagnostics)
    (id : Int) (diags : Diagnostics) (d : ResourceData) (w : World σ)
    (r : σ) (waitDiags : Diagnostics)
    (hp : env.ResourceIsAvailable d (Itoa id) (checkResourceExists client) w.remote = (r, waitDiags))
    (he : HasError waitDiags = false) :
    waitAndRead env client read merge id diags d w
      = ((read d { remote := r, trace := w.trace ++ [Event.waitForResource (Itoa id)] }).1,
         (read d { remote := r, trace := w.trace ++ [Event.waitForResource (Itoa id)] }).2.1,
         merge diags
          (read d { remote := r, trace := w.trace ++ [Event.waitForResource (Itoa id)] }).2.2) := by
  unfold waitAndRead
  simp [World.log, hp, he]

/-- C11, as stated, fails: with a poller that reports a timeout warning and no
error, both Create functions go on to Read and return no diagnostic at all; the
warning of the poller is not among the diagnostics they return. -/
theorem create_drops_poller_warning :
    sampleEnvPollWarns.ResourceIsAvailable (sampleResourceData.SetId "42") "42"
        (checkResourceExists (countingClient 0 0)) 1
      = (2, [⟨Severity.Warning, "timeout while waiting for resource 42"⟩]) ∧
    (HasError [(⟨Severity.Warning, "timeout while waiting for resource 42"⟩ : Diagnostic)] = false ∧
    (ResourceJamfProFileShareDistributionPointsCreate sampleEnvPollWarns (some (countingClient 0 0))
        sampleResourceData sampleWorld).2.1.trace
      = [Event.construct, Event.remoteCreate "dp-1", Event.setId "42", Event.waitForResource "42",
         Event.read, Event.remoteGetByID 42, Event.updateState] ∧
    (ResourceJamfProFileShareDistributionPointsCreate sampleEnvPollWarns (some (countingClient 0 0))
        sampleResourceData sampleWorld).2.2 = [] ∧
    (ResourceJamfProPackagesCreate sampleEnvPollWarns (some (countingClient 0 0))
        sampleResourceData sampleWorld).2.2 = []) := by
  refine ⟨rfl, ?_⟩
  decide

/-- C11 (amended): in both Create functions, when the remote create has succeeded
with ID `n` and the diagnostics of the poller contain no error (they may be empty
or hold warnings), Create continues to Read on the state with ID
`strconv.Itoa(n)`, and the diagnostics of the poller are dropped: the fileshare
Create returns exactly the diagnostics of Read, the package Create the
diagnostics of its two attribute writes followed by those of Read. -/
theorem create_poller_without_error {σ : Type}
    (envF : Env σ) (clientF : Client σ) (dF : ResourceData) (wF w₁ : World σ)
    (resF : RemoteResource) (n : Int) (r₂ : σ) (waitF : Diagnostics)
    (envP : Env σ) (connP : Client σ) (dP : ResourceData) (wP : World σ)
    (p₁ p₂ p₃ : σ) (uri hash : String) (resP : RemoteResource) (m : Int) (waitP : Diagnostics)
    (hcF : envF.construct dF = Except.ok resF)
    (hrF : RetryContext (createAttempt clientF resF) envF.TimeoutCreate
      (wF.log Event.construct, none) none = ((w₁, some n), none))
    (hpF : envF.ResourceIsAvailable (dF.SetId (Itoa n)) (Itoa n) (checkResourceExists clientF)
      w₁.remote = (r₂, waitF))
    (heF : HasError waitF = false)
    (huP : connP.CreateJCDS2PackageV2 wP.remote (dP.GetString "package_file_path")
      = (p₁, Except.ok uri))
    (hhP : envP.generateMD5FileHash (dP.GetString "package_file_path") = Except.ok hash)
    (hcP : envP.construct dP = Except.ok resP)
    (hcrP : connP.Create p₁ resP = (p₂, Except.ok m))
    (hpP : envP.ResourceIsAvailable
      (setAndCollect (setAndCollect (dP.SetId (Itoa m), []) "package_uri"
        (Value.leaf (Leaf.str uri))) "md5_file_hash" (Value.leaf (Leaf.str hash))).1
      (Itoa m) (checkResourceExists connP) p₂ = (p₃, waitP))
    (heP : HasError waitP = false) :
    (ResourceJamfProFileShareDistributionPointsCreate envF (some clientF) dF wF
      = ResourceJamfProFileShareDistributionPointsRead envF (some clientF) (dF.SetId (Itoa n))
          { remote := r₂,
            trace := w₁.trace ++ [Event.setId (Itoa n), Event.waitForResource (Itoa n)] }) ∧
    ((ResourceJamfProPackagesCreate envP (some connP) dP wP).2.2
      = (setAndCollect (setAndCollect (dP.SetId (Itoa m), []) "package_uri"
          (Value.leaf (Leaf.str uri))) "md5_file_hash" (Value.leaf (Leaf.str hash))).2
        ++ (ResourceJamfProPackagesRead envP (some connP)
            (setAndCollect (setAndCollect (dP.SetId (Itoa m), []) "package_uri"
              (Value.leaf (Leaf.str uri))) "md5_file_hash" (Value.leaf (Leaf.str hash))).1
            { remote := p₃,
              trace := wP.trace ++ [Event.remoteUpload (dP.GetString "package_file_path"),
                Event.generateHash (dP.GetString "package_file_path"), Event.construct,
                Event.remoteCreate resP.Name, Event.setId (Itoa m),
                Event.waitForResource (Itoa m)] }).2.2 ∧
      (ResourceJamfProPackagesCreate envP (some connP) dP wP).1
      = (ResourceJamfProPackagesRead envP (some connP)
            (setAndCollect (setAndCollect (dP.SetId (Itoa m), []) "package_uri"
              (Value.leaf (Leaf.str uri))) "md5_file_hash" (Value.leaf (Leaf.str hash))).1
            { remote := p₃,
              trace := wP.trace ++ [Event.remoteUpload (dP.GetString "package_file_path"),
                Event.generateHash (dP.GetString "package_file_path"), Event.construct,
                Event.remoteCreate resP.Name, Event.setId (Itoa m),
                Event.waitForResource (Itoa m)] }).1 ∧
      (ResourceJamfProPackagesCreate envP (some connP) dP wP).2.1
      = (ResourceJamfProPackagesRead envP (some connP)
            (setAndCollect (setAndCollect (dP.SetId (Itoa m), []) "package_uri"
              (Value.leaf (Leaf.str uri))) "md5_file_hash" (Value.leaf (Leaf.str hash))).1
            { remote := p₃,
              trace := wP.trace ++ [Event.remoteUpload (dP.GetString "package_file_path"),
                Event.generateHash (dP.GetString "package_file_path"), Event.construct,
                Event.remoteCreate resP.Name, Event.setId (Itoa m),
                Event.waitForResource (Itoa m)] }).2.1) := by
  constructor
  · rw [fileShareCreate_create_ok envF clientF dF wF w₁ resF n hcF hrF,
      waitAndRead_ok envF clientF _ _ n [] (dF.SetId (Itoa n)) (w₁.log (Event.setId (Itoa n)))
        r₂ waitF hpF heF]
    simp only [World.log, List.append_assoc, List.singleton_append]
    generalize ResourceJamfProFileShareDistributionPointsRead envF (some clientF)
      (dF.SetId (Itoa n)) _ = res
    obtain ⟨d', w', diags'⟩ := res
    cases diags' <;> simp
  · rw [packagesCreate_create_ok envP connP dP wP p₁ p₂ uri hash resP m huP hhP hcP hcrP,
      waitAndRead_ok envP connP _ _ m _ _ _ p₃ waitP hpP heP]
    refine ⟨?_, by simp, by simp⟩
    simp only [List.append_assoc, List.cons_append, List.nil_append]
    generalize ResourceJamfProPackagesRead envP (some connP) _ _ = res
    obtain ⟨d', w', diags'⟩ := res
    cases diags' <;> simp

/-- C11 (amended) at a concrete input: the create answers ID 42 and the poller
reports a timeout warning. -/
theorem create_poller_without_error_witness :
    HasError [(⟨Severity.Warning, "timeout while waiting for resource 42"⟩ : Diagnostic)] = false ∧
    (ResourceJamfProFileShareDistributionPointsCreate sampleEnvPollWarns (some (countingClient 0 0))
        sampleResourceData sampleWorld
      = ResourceJamfProFileShareDistributionPointsRead sampleEnvPollWarns (some (countingClient 0 0))
          (sampleResourceData.SetId (Itoa 42))
          { remote := 2,
            trace := [Event.construct, Event.remoteCreate "dp-1"]
              ++ [Event.setId (Itoa 42), Event.waitForResource (Itoa 42)] }) ∧
    (ResourceJamfProPackagesCreate sampleEnvPollWarns (some (countingClient 0 0))
        sampleResourceData sampleWorld).2.2
      = (setAndCollect (setAndCollect (sampleResourceData.SetId (Itoa 42), []) "package_uri"
          (Value.leaf (Leaf.str "jcds:///tmp/a.pkg"))) "md5_file_hash"
          (Value.leaf (Leaf.str "9e107d9d372bb6826bd81d3542a419d6"))).2
        ++ (ResourceJamfProPackagesRead sampleEnvPollWarns (some (countingClient 0 0))
            (setAndCollect (setAndCollect (sampleResourceData.SetId (Itoa 42), []) "package_uri"
              (Value.leaf (Leaf.str "jcds:///tmp/a.pkg"))) "md5_file_hash"
              (Value.leaf (Leaf.str "9e107d9d372bb6826bd81d3542a419d6"))).1
            { remote := 3,
              trace := sampleWorld.trace
                ++ [Event.remoteUpload (sampleResourceData.GetString "package_file_path"),
                  Event.generateHash (sampleResourceData.GetString "package_file_path"),
                  Event.construct, Event.remoteCreate "dp-1", Event.setId (Itoa 42),
                  Event.waitForResource (Itoa 42)] }).2.2 :=
  ⟨rfl,
   (create_poller_without_error sampleEnvPollWarns (countingClient 0 0) sampleResourceData
      sampleWorld { remote := 1, trace := [Event.construct, Event.remoteCreate "dp-1"] }
      ⟨"dp-1", "payload"⟩ 42 2 [⟨Severity.Warning, "timeout while waiting for resource 42"⟩]
      sampleEnvPollWarns (countingClient 0 0) sampleResourceData sampleWorld
      1 2 3 "jcds:///tmp/a.pkg" "9e107d9d372bb6826bd81d3542a419d6" ⟨"dp-1", "payload"⟩ 42
      [⟨Severity.Warning, "timeout while waiting for resource 42"⟩]
      rfl rfl rfl rfl rfl rfl rfl rfl rfl rfl).1,
   (create_poller_without_error sampleEnvPollWarns (countingClient 0 0) sampleResourceData
      sampleWorld { remote := 1, trace := [Event.construct, Event.remoteCreate "dp-1"] }
      ⟨"dp-1", "payload"⟩ 42 2 [⟨Severity.Warning, "timeout while waiting for resource 42"⟩]
      sampleEnvPollWarns (countingClient 0 0) sampleResourceData sampleWorld
      1 2 3 "jcds:///tmp/a.pkg" "9e107d9d372bb6826bd81d3542a419d6" ⟨"dp-1", "payload"⟩ 42
      [⟨Severity.Warning, "timeout while waiting for resource 42"⟩]
      rfl rfl rfl rfl rfl rfl rfl rfl rfl rfl).2.1⟩

/-! ## C12, C13: what the retry policy repeats -/

theorem RetryContext_retryable {S : Type} (f : S → S × Option RetryError) (t : Nat) (s s₁ : S)
    (e : Option String) (err : String) (hf : f s = (s₁, some (RetryableError err))) :
    RetryContext f (t + 1) s e = RetryContext f t s₁ (some err) := by
  rw [RetryContext_succ, hf]
  simp [RetryableError]

theorem attemptsFail_retryable {S : Type} (f : S → S × Option RetryError) (j : Nat) (s s₁ : S)
    (err : String) (hf : f s = (s₁, some (RetryableError err))) :
    attemptsFail f (j + 1) s = attemptsFail f j s₁ := by
  simp [attemptsFail, hf, RetryableError]

/-- A retried create that is allowed at least one run starts with a create call. -/
theorem RetryContext_create_trace_pos {σ : Type} (client : Client σ) (resource : RemoteResource)
    (t : Nat) (s : World σ × Option Int) (e : Option String) :
    ∃ k, (RetryContext (createAttempt client resource) (t + 1) s e).1.1.trace
      = s.1.trace ++ Event.remoteCreate resource.Name
          :: List.replicate k (Event.remoteCreate resource.Name) := by
  rcases hc : client.Create s.1.remote resource with ⟨r, err | id⟩
  · rw [RetryContext_retryable _ t s _ e err (createAttempt_error client resource s r err hc)]
    obtain ⟨k, _, htr, _⟩ := RetryContext_create_trace client resource t
      ({ remote := r, trace := s.1.trace ++ [Event.remoteCreate resource.Name] }, none) (some err)
    exact ⟨k, by rw [htr]; simp⟩
  · rw [RetryContext_succ, createAttempt_ok client resource s r id hc]
    exact ⟨0, by simp⟩

theorem fileShareCreate_trace_extends {σ : Type} (env : Env σ) (client : Client σ)
    (d : ResourceData) (w : World σ) (resource : RemoteResource)
    (hc : env.construct d = Except.ok resource) :
    ∃ rest, (ResourceJamfProFileShareDistributionPointsCreate env (some client) d w).2.1.trace
      = (RetryContext (createAttempt client resource) env.TimeoutCreate
          (w.log Event.construct, none) none).1.1.trace ++ rest := by
  obtain ⟨_, _, _, hsome⟩ := RetryContext_create_trace client resource env.TimeoutCreate
    (w.log Event.construct, none) none
  rcases hr : RetryContext (createAttempt client resource) env.TimeoutCreate
    (w.log Event.construct, none) none with ⟨⟨w₁, x⟩, _ | err⟩
  · rw [hr] at hsome
    obtain ⟨id, hid⟩ := hsome rfl
    simp only at hid
    subst hid
    rw [fileShareCreate_create_ok env client d w w₁ resource id hc hr]
    obtain ⟨rest, hrest, _⟩ := waitAndRead_trace env client
      (ResourceJamfProFileShareDistributionPointsRead env (some client))
      (fun diags readDiags => if readDiags.length > 0 then readDiags else diags) id []
      (d.SetId (Itoa id)) (w₁.log (Event.setId (Itoa id)))
      (fun d w => resourceRead_trace _ env (some client) d w)
    exact ⟨Event.setId (Itoa id) :: Event.waitForResource (Itoa id) :: rest, by
      rw [hrest]; simp [World.log]⟩
  · rw [fileShareCreate_create_error env client d w w₁ resource x err hc hr]
    exact ⟨[], by simp⟩

theorem updateAttempt_error {σ : Type} (client : Client σ) (n : Int) (resource : RemoteResource)
    (w : World σ) (r : σ) (e : String)
    (h : client.UpdateByID w.remote n resource = (r, some e)) :
    updateAttempt client n resource w =
      ({ remote := r, trace := w.trace ++ [Event.remoteUpdateByID n] },
        some (RetryableError e)) := by
  unfold updateAttempt
  simp [World.log, h]

theorem updateAttempt_ok {σ : Type} (client : Client σ) (n : Int) (resource : RemoteResource)
    (w : World σ) (r : σ)
    (h : client.UpdateByID w.remote n resource = (r, none)) :
    updateAttempt client n resource w =
      ({ remote := r, trace := w.trace ++ [Event.remoteUpdateByID n] }, none) := by
  unfold updateAttempt
  simp [World.log, h]

/-- The retried update logs update calls only, at most as many as the timeout
allows. -/
theorem RetryContext_update_trace {σ : Type} (client : Client σ) (n : Int)
    (resource : RemoteResource) :
    ∀ (t : Nat) (w : World σ) (e : Option String),
      ∃ k, k ≤ t ∧
        (RetryContext (updateAttempt client n resource) t w e).1.trace
          = w.trace ++ List.replicate k (Event.remoteUpdateByID n) := by
  intro t
  induction t with
  | zero =>
    intro w e
    exact ⟨0, Nat.le_refl 0, by simp [RetryContext]⟩
  | succ t ih =>
    intro w e
    rcases hu : client.UpdateByID w.remote n resource with ⟨r, _ | err⟩
    · rw [RetryContext_succ, updateAttempt_ok client n resource w r hu]
      exact ⟨1, Nat.succ_le_succ (Nat.zero_le t), by simp⟩
    · rw [RetryContext_retryable _ t w _ e err (updateAttempt_error client n resource w r err hu)]
      obtain ⟨k, hk, htr⟩ := ih
        { remote := r, trace := w.trace ++ [Event.remoteUpdateByID n] } (some err)
      exact ⟨k + 1, Nat.succ_le_succ hk, by rw [htr]; simp [List.replicate_succ]⟩

theorem RetryContext_update_trace_pos {σ : Type} (client : Client σ) (n : Int)
    (resource : RemoteResource) (t : Nat) (w : World σ) (e : Option String) :
    ∃ k, (RetryContext (updateAttempt client n resource) (t + 1) w e).1.trace
      = w.trace ++ Event.remoteUpdateByID n :: List.replicate k (Event.remoteUpdateByID n) := by
  rcases hu : client.UpdateByID w.remote n resource with ⟨r, _ | err⟩
  · rw [RetryContext_succ, updateAttempt_ok client n resource w r hu]
    exact ⟨0, by simp⟩
  · rw [RetryContext_retryable _ t w _ e err (updateAttempt_error client n resource w r err hu)]
    obtain ⟨k, _, htr⟩ := RetryContext_update_trace client n resource t
      { remote := r, trace := w.trace ++ [Event.remoteUpdateByID n] } (some err)
    exact ⟨k, by rw [htr]; simp⟩

theorem fileShareUpdate_retry_error {σ : Type} (env : Env σ) (client : Client σ)
    (d : ResourceData) (w w₁ : World σ) (n : Int) (resource : RemoteResource) (err : String)
    (hid : Atoi d.id = Except.ok n) (hc : env.construct d = Except.ok resource)
    (hr : RetryContext (updateAttempt client n resource) env.TimeoutUpdate
      (w.log Event.construct) none = (w₁, some err)) :
    ResourceJamfProFileShareDistributionPointsUpdate env (some client) d w
      = (d, w₁, diagFromErr ("failed to update Jamf Pro file share distribution point \x27"
          ++ resource.Name ++ "\x27 (ID: " ++ Itoa n ++ ") after retries: " ++ err)) := by
  unfold ResourceJamfProFileShareDistributionPointsUpdate
  simp only [hid, hc, hr]

theorem fileShareUpdate_retry_ok {σ : Type} (env : Env σ) (client : Client σ)
    (d : ResourceData) (w w₁ : World σ) (n : Int) (resource : RemoteResource)
    (hid : Atoi d.id = Except.ok n) (hc : env.construct d = Except.ok resource)
    (hr : RetryContext (updateAttempt client n resource) env.TimeoutUpdate
      (w.log Event.construct) none = (w₁, none)) :
    ResourceJamfProFileShareDistributionPointsUpdate env (some client) d w
      = ResourceJamfProFileShareDistributionPointsRead env (some client) d w₁ := by
  unfold ResourceJamfProFileShareDistributionPointsUpdate
  simp only [hid, hc, hr]
  generalize ResourceJamfProFileShareDistributionPointsRead env (some client) d w₁ = res
  obtain ⟨d', w', diags'⟩ := res
  cases diags' <;> simp

theorem fileShareUpdate_trace_extends {σ : Type} (env : Env σ) (client : Client σ)
    (d : ResourceData) (w : World σ) (n : Int) (resource : RemoteResource)
    (hid : Atoi d.id = Except.ok n) (hc : env.construct d = Except.ok resource) :
    ∃ rest, (ResourceJamfProFileShareDistributionPointsUpdate env (some client) d w).2.1.trace
      = (RetryContext (updateAttempt client n resource) env.TimeoutUpdate
          (w.log Event.construct) none).1.trace ++ rest := by
  rcases hr : RetryContext (updateAttempt client n resource) env.TimeoutUpdate
    (w.log Event.construct) none with ⟨w₁, _ | err⟩
  · rw [fileShareUpdate_retry_ok env client d w w₁ n resource hid hc hr]
    obtain ⟨t, ht⟩ := resourceRead_trace "error asserting meta as *client.client" env
      (some client) d w₁
    exact ⟨Event.read :: t, ht⟩
  · rw [fileShareUpdate_retry_error env client d w w₁ n resource err hid hc hr]
    exact ⟨[], by simp⟩

theorem attemptsFail_update_trace {σ : Type} (client : Client σ) (n : Int)
    (resource : RemoteResource) :
    ∀ (j : Nat) (w wj : World σ),
      attemptsFail (updateAttempt client n resource) j w = some wj →
      wj.trace = w.trace ++ List.replicate j (Event.remoteUpdateByID n) := by
  intro j
  induction j with
  | zero =>
    intro w wj h
    simp only [attemptsFail, Option.some.injEq] at h
    subst h
    simp
  | succ j ih =>
    intro w wj h
    rcases hu : client.UpdateByID w.remote n resource with ⟨r, _ | err⟩
    · simp [attemptsFail, updateAttempt_ok client n resource w r hu] at h
    · rw [attemptsFail_retryable _ j w _ err (updateAttempt_error client n resource w r err hu)] at h
      rw [ih _ wj h]
      simp [List.replicate_succ]

/-- Runs of the delete closure that all report a retryable error log one delete by
ID and one delete by name each. -/
theorem attemptsFail_delete_trace {σ : Type} (client : Client σ) (n : Int) (d : ResourceData) :
    ∀ (j : Nat) (w wj : World σ),
      attemptsFail (deleteAttempt client n d) j w = some wj →
      wj.trace = w.trace ++ (List.replicate j
        [Event.remoteDeleteByID n, Event.remoteDeleteByName (d.GetString "name")]).flatten := by
  intro j
  induction j with
  | zero =>
    intro w wj h
    simp only [attemptsFail, Option.some.injEq] at h
    subst h
    simp
  | succ j ih =>
    intro w wj h
    rcases h₁ : client.DeleteByID w.remote n with ⟨r₁, _ | e₁⟩
    · have hf : deleteAttempt client n d w
          = (World.mk r₁ (w.trace ++ [Event.remoteDeleteByID n]), none) := by
        unfold deleteAttempt
        simp [World.log, h₁]
      simp [attemptsFail, hf] at h
    · rcases h₂ : client.DeleteByName r₁ (d.GetString "name") with ⟨r₂, _ | e₂⟩
      · simp [attemptsFail, deleteAttempt_fallback client n d w r₁ r₂ e₁ h₁ h₂] at h
      · rw [attemptsFail_retryable _ j w _ e₂
          (deleteAttempt_both_fail client n d w r₁ r₂ e₁ e₂ h₁ h₂)] at h
        rw [ih _ wj h]
        simp [List.replicate_succ]

/-- C12, as stated, fails: against a remote system that rejects every call with
`400 bad request`, under a timeout of three runs, the fileshare Create, the
fileshare Update and both Delete functions invoke the remote operation three
times, not once. -/
theorem terminal_error_is_retried :
    rejectingClient.Create sampleWorld.remote ⟨"dp-1", "payload"⟩
      = (1, Except.error "400 bad request") ∧
    ((sampleEnv false).TimeoutCreate = 3 ∧
    (ResourceJamfProFileShareDistributionPointsCreate (sampleEnv false) (some rejectingClient)
        sampleResourceData sampleWorld).2.1.trace
      = [Event.construct, Event.remoteCreate "dp-1", Event.remoteCreate "dp-1",
         Event.remoteCreate "dp-1"] ∧
    (ResourceJamfProFileShareDistributionPointsUpdate (sampleEnv false) (some rejectingClient)
        sampleResourceData sampleWorld).2.1.trace
      = [Event.construct, Event.remoteUpdateByID 12, Event.remoteUpdateByID 12,
         Event.remoteUpdateByID 12] ∧
    (ResourceJamfProFileShareDistributionPointsDelete (sampleEnv false) (some rejectingClient)
        sampleResourceData sampleWorld).2.1.trace
      = [Event.remoteDeleteByID 12, Event.remoteDeleteByName "dp-1",
         Event.remoteDeleteByID 12, Event.remoteDeleteByName "dp-1",
         Event.remoteDeleteByID 12, Event.remoteDeleteByName "dp-1"] ∧
    (ResourceJamfProPackagesDelete (sampleEnv false) (some rejectingClient)
        sampleResourceData sampleWorld).2.1.trace
      = [Event.remoteDeleteByID 12, Event.remoteDeleteByName "dp-1",
         Event.remoteDeleteByID 12, Event.remoteDeleteByName "dp-1",
         Event.remoteDeleteByID 12, Event.remoteDeleteByName "dp-1"]) := by
  refine ⟨rfl, ?_⟩
  decide

/-- C12 (amended): the retry-wrapped remote calls of the fileshare Create, Update
and Delete and of the package Delete make no distinction between kinds of
error.  Whatever error the remote operation returns on its first attempt, the
closure reports it as retryable; when the timeout allows a second run the
operation is invoked a second time; and when every run the timeout allows has
failed, the operation has been invoked once per run (for Delete: one delete by
ID and one delete by name per run) and an error diagnostic is returned, in
Create, in Update and in both Delete functions, which then leave the state as it
was. -/
theorem retried_calls_repeat_on_every_error {σ : Type} (env : Env σ) (client : Client σ)
    (d : ResourceData) (w : World σ) (n : Int) (resource : RemoteResource)
    (rc ru r₁ r₂ : σ) (ec eu e₁ e₂ : String)
    (hid : Atoi d.id = Except.ok n) (hc : env.construct d = Except.ok resource)
    (hcreate : client.Create w.remote resource = (rc, Except.error ec))
    (hupdate : client.UpdateByID w.remote n resource = (ru, some eu))
    (hdel₁ : client.DeleteByID w.remote n = (r₁, some e₁))
    (hdel₂ : client.DeleteByName r₁ (d.GetString "name") = (r₂, some e₂)) :
    ((createAttempt client resource (w.log Event.construct, none)).2 = some (RetryableError ec) ∧
      (updateAttempt client n resource (w.log Event.construct)).2 = some (RetryableError eu) ∧
      (deleteAttempt client n d w).2 = some (RetryableError e₂) ∧
      ∀ e, (RetryableError e).Retryable = true) ∧
    (2 ≤ env.TimeoutCreate →
      ∃ rest, (ResourceJamfProFileShareDistributionPointsCreate env (some client) d w).2.1.trace
        = w.trace ++ [Event.construct, Event.remoteCreate resource.Name,
            Event.remoteCreate resource.Name] ++ rest) ∧
    (2 ≤ env.TimeoutUpdate →
      ∃ rest, (ResourceJamfProFileShareDistributionPointsUpdate env (some client) d w).2.1.trace
        = w.trace ++ [Event.construct, Event.remoteUpdateByID n, Event.remoteUpdateByID n]
            ++ rest) ∧
    (2 ≤ env.TimeoutDelete →
      (∃ rest, (ResourceJamfProFileShareDistributionPointsDelete env (some client) d w).2.1.trace
        = w.trace ++ [Event.remoteDeleteByID n, Event.remoteDeleteByName (d.GetString "name"),
            Event.remoteDeleteByID n] ++ rest) ∧
      (∃ rest, (ResourceJamfProPackagesDelete env (some client) d w).2.1.trace
        = w.trace ++ [Event.remoteDeleteByID n, Event.remoteDeleteByName (d.GetString "name"),
            Event.remoteDeleteByID n] ++ rest)) ∧
    (∀ s', attemptsFail (createAttempt client resource) env.TimeoutCreate
        (w.log Event.construct, none) = some s' →
      HasError (ResourceJamfProFileShareDistributionPointsCreate env (some client) d w).2.2 = true ∧
      (ResourceJamfProFileShareDistributionPointsCreate env (some client) d w).2.1.trace
        = w.trace ++ Event.construct
            :: List.replicate env.TimeoutCreate (Event.remoteCreate resource.Name)) ∧
    (∀ w', attemptsFail (updateAttempt client n resource) env.TimeoutUpdate
        (w.log Event.construct) = some w' →
      HasError (ResourceJamfProFileShareDistributionPointsUpdate env (some client) d w).2.2 = true ∧
      (ResourceJamfProFileShareDistributionPointsUpdate env (some client) d w).2.1.trace
        = w.trace ++ Event.construct
            :: List.replicate env.TimeoutUpdate (Event.remoteUpdateByID n)) ∧
    (∀ w', attemptsFail (deleteAttempt client n d) env.TimeoutDelete w = some w' →
      (HasError (ResourceJamfProFileShareDistributionPointsDelete env (some client) d w).2.2
          = true ∧
        (ResourceJamfProFileShareDistributionPointsDelete env (some client) d w).1 = d ∧
        (ResourceJamfProFileShareDistributionPointsDelete env (some client) d w).2.1.trace
          = w.trace ++ (List.replicate env.TimeoutDelete
              [Event.remoteDeleteByID n,
                Event.remoteDeleteByName (d.GetString "name")]).flatten) ∧
      (HasError (ResourceJamfProPackagesDelete env (some client) d w).2.2 = true ∧
        (ResourceJamfProPackagesDelete env (some client) d w).1 = d ∧
        (ResourceJamfProPackagesDelete env (some client) d w).2.1.trace
          = w.trace ++ (List.replicate env.TimeoutDelete
              [Event.remoteDeleteByID n,
                Event.remoteDeleteByName (d.GetString "name")]).flatten)) := by
  have hca := createAttempt_error client resource (w.log Event.construct, none) rc ec hcreate
  have hua := updateAttempt_error client n resource (w.log Event.construct) ru eu hupdate
  refine ⟨⟨by rw [hca], by rw [hua],
    by rw [deleteAttempt_both_fail client n d w r₁ r₂ e₁ e₂ hdel₁ hdel₂], fun _ => rfl⟩,
    ?_, ?_, ?_, ?_, ?_, ?_⟩
  · intro ht
    obtain ⟨t, ht'⟩ : ∃ t, env.TimeoutCreate = t + 2 := ⟨env.TimeoutCreate - 2, by omega⟩
    obtain ⟨rest, hrest⟩ := fileShareCreate_trace_extends env client d w resource hc
    rw [ht', RetryContext_retryable _ (t + 1) _ _ none ec hca] at hrest
    obtain ⟨k, hk⟩ := RetryContext_create_trace_pos client resource t
      ({ remote := rc,
         trace := (w.log Event.construct, (none : Option Int)).1.trace
          ++ [Event.remoteCreate resource.Name] }, none) (some ec)
    rw [hk] at hrest
    exact ⟨List.replicate k (Event.remoteCreate resource.Name) ++ rest, by
      rw [hrest]; simp [World.log]⟩
  · intro ht
    obtain ⟨t, ht'⟩ : ∃ t, env.TimeoutUpdate = t + 2 := ⟨env.TimeoutUpdate - 2, by omega⟩
    obtain ⟨rest, hrest⟩ := fileShareUpdate_trace_extends env client d w n resource hid hc
    rw [ht', RetryContext_retryable _ (t + 1) _ _ none eu hua] at hrest
    obtain ⟨k, hk⟩ := RetryContext_update_trace_pos client n resource t
      { remote := ru, trace := (w.log Event.construct).trace ++ [Event.remoteUpdateByID n] }
      (some eu)
    rw [hk] at hrest
    exact ⟨List.replicate k (Event.remoteUpdateByID n) ++ rest, by
      rw [hrest]; simp [World.log]⟩
  · intro ht
    exact ⟨resourceDelete_retries _ _ env client d w n r₁ r₂ e₁ e₂ hid hdel₁ hdel₂ ht,
      resourceDelete_retries _ _ env client d w n r₁ r₂ e₁ e₂ hid hdel₁ hdel₂ ht⟩
  · intro s' hall
    obtain ⟨err, herr⟩ := RetryContext_all_fail (createAttempt client resource) env.TimeoutCreate
      (w.log Event.construct, none) s' none hall
    have htr := attemptsFail_create_trace client resource env.TimeoutCreate _ s' hall
    obtain ⟨w₁, x⟩ := s'
    rw [fileShareCreate_create_error env client d w w₁ resource x err hc herr]
    exact ⟨rfl, by simpa [World.log] using htr⟩
  · intro w' hall
    obtain ⟨err, herr⟩ := RetryContext_all_fail (updateAttempt client n resource)
      env.TimeoutUpdate (w.log Event.construct) w' none hall
    have htr := attemptsFail_update_trace client n resource env.TimeoutUpdate _ w' hall
    rw [fileShareUpdate_retry_error env client d w w' n resource err hid hc herr]
    exact ⟨rfl, by simpa [World.log] using htr⟩
  · intro w' hall
    obtain ⟨err, herr⟩ := RetryContext_all_fail (deleteAttempt client n d)
      env.TimeoutDelete w w' none hall
    have htr := attemptsFail_delete_trace client n d env.TimeoutDelete w w' hall
    unfold ResourceJamfProFileShareDistributionPointsDelete ResourceJamfProPackagesDelete
    rw [resourceDelete_failure _ _ env client d w w' n err hid herr,
      resourceDelete_failure _ _ env client d w w' n err hid herr]
    exact ⟨⟨rfl, rfl, htr⟩, ⟨rfl, rfl, htr⟩⟩

/-- C12 (amended) at a concrete input: the stored resource `"12"` against the remote
system that rejects every call, under a timeout of three runs. -/
theorem retried_calls_repeat_on_every_error_witness :
    (Atoi sampleResourceData.id = Except.ok 12 ∧
      rejectingClient.Create sampleWorld.remote ⟨"dp-1", "payload"⟩
        = (1, Except.error "400 bad request") ∧
      rejectingClient.UpdateByID sampleWorld.remote 12 ⟨"dp-1", "payload"⟩
        = (1, some "400 bad request")) ∧
    (∃ rest, (ResourceJamfProFileShareDistributionPointsCreate (sampleEnv false)
          (some rejectingClient) sampleResourceData sampleWorld).2.1.trace
        = sampleWorld.trace ++ [Event.construct, Event.remoteCreate "dp-1",
            Event.remoteCreate "dp-1"] ++ rest) ∧
    (HasError (ResourceJamfProFileShareDistributionPointsUpdate (sampleEnv false)
          (some rejectingClient) sampleResourceData sampleWorld).2.2 = true ∧
      (ResourceJamfProFileShareDistributionPointsUpdate (sampleEnv false)
          (some rejectingClient) sampleResourceData sampleWorld).2.1.trace
        = sampleWorld.trace ++ Event.construct
            :: List.replicate (sampleEnv false).TimeoutUpdate (Event.remoteUpdateByID 12)) ∧
    (HasError (ResourceJamfProPackagesDelete (sampleEnv false)
          (some rejectingClient) sampleResourceData sampleWorld).2.2 = true ∧
      (ResourceJamfProPackagesDelete (sampleEnv false)
          (some rejectingClient) sampleResourceData sampleWorld).1 = sampleResourceData ∧
      (ResourceJamfProPackagesDelete (sampleEnv false)
          (some rejectingClient) sampleResourceData sampleWorld).2.1.trace
        = sampleWorld.trace ++ (List.replicate (sampleEnv false).TimeoutDelete
            [Event.remoteDeleteByID 12,
              Event.remoteDeleteByName (sampleResourceData.GetString "name")]).flatten) :=
  ⟨⟨rfl, rfl, rfl⟩,
   (retried_calls_repeat_on_every_error (sampleEnv false) rejectingClient sampleResourceData
      sampleWorld 12 ⟨"dp-1", "payload"⟩ 1 1 1 2 "400 bad request" "400 bad request"
      "400 bad request" "400 bad request" rfl rfl rfl rfl rfl rfl).2.1 (by decide),
   (retried_calls_repeat_on_every_error (sampleEnv false) rejectingClient sampleResourceData
      sampleWorld 12 ⟨"dp-1", "payload"⟩ 1 1 1 2 "400 bad request" "400 bad request"
      "400 bad request" "400 bad request" rfl rfl rfl rfl rfl rfl).2.2.2.2.2.1
      { remote := 3,
        trace := [Event.construct, Event.remoteUpdateByID 12, Event.remoteUpdateByID 12,
          Event.remoteUpdateByID 12] } rfl,
   ((retried_calls_repeat_on_every_error (sampleEnv false) rejectingClient sampleResourceData
      sampleWorld 12 ⟨"dp-1", "payload"⟩ 1 1 1 2 "400 bad request" "400 bad request"
      "400 bad request" "400 bad request" rfl rfl rfl rfl rfl rfl).2.2.2.2.2.2
      { remote := 6,
        trace := [Event.remoteDeleteByID 12, Event.remoteDeleteByName "dp-1",
          Event.remoteDeleteByID 12, Event.remoteDeleteByName "dp-1",
          Event.remoteDeleteByID 12, Event.remoteDeleteByName "dp-1"] } rfl).2⟩

theorem resourceRead_trace_steps {σ : Type} (assertMsg : String) (env : Env σ)
    (clientOfMeta : Option (Client σ)) (d : ResourceData) (w : World σ) :
    ∃ t, (resourceRead assertMsg env clientOfMeta d w).2.1.trace = w.trace ++ t ∧
      ∀ ev ∈ t, ev.isReadStep = true := by
  unfold resourceRead
  cases clientOfMeta with
  | none => exact ⟨[Event.read], by simp [World.log], by simp [Event.isReadStep]⟩
  | some client =>
    simp only
    cases hid : Atoi d.id with
    | error err => exact ⟨[Event.read], by simp [World.log], by simp [Event.isReadStep]⟩
    | ok n =>
      simp only [World.log_remote]
      rcases hg : client.GetByID w.remote n with ⟨r, err | resource⟩
      · exact ⟨[Event.read, Event.remoteGetByID n, Event.handleNotFound], by simp [World.log],
          by simp [Event.isReadStep]⟩
      · simp only
        split <;> exact ⟨[Event.read, Event.remoteGetByID n, Event.updateState],
          by simp [World.log], by simp [Event.isReadStep]⟩

theorem waitAndRead_trace_steps {σ : Type} (env : Env σ) (client : Client σ)
    (read : ResourceData → World σ → ResourceData × World σ × Diagnostics)
    (merge : Diagnostics → Diagnostics → Diagnostics)
    (id : Int) (diags : Diagnostics) (d : ResourceData) (w : World σ)
    (hread : ∀ d w, ∃ t, (read d w).2.1.trace = w.trace ++ t ∧ ∀ ev ∈ t, ev.isReadStep = true) :
    ∃ rest, (waitAndRead env client read merge id diags d w).2.1.trace
        = w.trace ++ Event.waitForResource (Itoa id) :: rest ∧
      ∀ ev ∈ rest, ev.isReadStep = true := by
  obtain ⟨r, wd, hp⟩ : ∃ r wd,
      env.ResourceIsAvailable d (Itoa id) (checkResourceExists client) w.remote = (r, wd) :=
    ⟨_, _, rfl⟩
  cases he : HasError wd with
  | true =>
    rw [waitAndRead_error env client read merge id diags d w r wd hp he]
    exact ⟨[], by simp, by simp⟩
  | false =>
    rw [waitAndRead_ok env client read merge id diags d w r wd hp he]
    obtain ⟨t, ht, hsteps⟩ := hread d
      { remote := r, trace := w.trace ++ [Event.waitForResource (Itoa id)] }
    exact ⟨t, by simpa using ht, hsteps⟩

/-- C13: in the fileshare Create, with the retry policy running the closure again
while it reports a retryable error and the timeout allows: when
`CreateDistributionPoint` fails twice and then succeeds with response ID `n`,
and the timeout allows three runs, the retry ends without an error after
exactly three create calls, `d.SetId` is called with `strconv.Itoa(n)`, the
poller and Read work on the state with that ID, and what follows are steps of
Read only: no further create call and no further `d.SetId`. -/
theorem create_succeeds_on_third_call {σ : Type} (env : Env σ) (client : Client σ)
    (d : ResourceData) (w : World σ) (resource : RemoteResource) (r₁ r₂ r₃ : σ)
    (e₁ e₂ : String) (n : Int)
    (hc : env.construct d = Except.ok resource)
    (h₁ : client.Create w.remote resource = (r₁, Except.error e₁))
    (h₂ : client.Create r₁ resource = (r₂, Except.error e₂))
    (h₃ : client.Create r₂ resource = (r₃, Except.ok n))
    (ht : 3 ≤ env.TimeoutCreate) :
    RetryContext (createAttempt client resource) env.TimeoutCreate
        (w.log Event.construct, none) none
      = (({ remote := r₃,
            trace := w.trace ++ [Event.construct, Event.remoteCreate resource.Name,
              Event.remoteCreate resource.Name, Event.remoteCreate resource.Name] }, some n),
          none) ∧
    ResourceJamfProFileShareDistributionPointsCreate env (some client) d w
      = waitAndRead env client (ResourceJamfProFileShareDistributionPointsRead env (some client))
          (fun diags readDiags => if readDiags.length > 0 then readDiags else diags) n []
          (d.SetId (Itoa n))
          { remote := r₃,
            trace := w.trace ++ [Event.construct, Event.remoteCreate resource.Name,
              Event.remoteCreate resource.Name, Event.remoteCreate resource.Name,
              Event.setId (Itoa n)] } ∧
    (d.SetId (Itoa n)).id = Itoa n ∧
    ∃ rest, (ResourceJamfProFileShareDistributionPointsCreate env (some client) d w).2.1.trace
        = w.trace ++ [Event.construct, Event.remoteCreate resource.Name,
            Event.remoteCreate resource.Name, Event.remoteCreate resource.Name,
            Event.setId (Itoa n), Event.waitForResource (Itoa n)] ++ rest ∧
      (∀ ev ∈ rest, ev.isReadStep = true) ∧
      List.countP Event.isCreate
        ([Event.construct, Event.remoteCreate resource.Name,
            Event.remoteCreate resource.Name, Event.remoteCreate resource.Name,
            Event.setId (Itoa n), Event.waitForResource (Itoa n)] ++ rest) = 3 := by
  obtain ⟨t, ht'⟩ : ∃ t, env.TimeoutCreate = t + 3 := ⟨env.TimeoutCreate - 3, by omega⟩
  have hr : RetryContext (createAttempt client resource) env.TimeoutCreate
        (w.log Event.construct, none) none
      = (({ remote := r₃,
            trace := w.trace ++ [Event.construct, Event.remoteCreate resource.Name,
              Event.remoteCreate resource.Name, Event.remoteCreate resource.Name] }, some n),
          none) := by
    rw [ht', RetryContext_retryable _ (t + 2) _ _ none e₁
        (createAttempt_error client resource (w.log Event.construct, none) r₁ e₁ h₁),
      RetryContext_retryable _ (t + 1) _ _ _ e₂ (createAttempt_error client resource _ r₂ e₂ h₂),
      RetryContext_succ, createAttempt_ok client resource _ r₃ n h₃]
    simp [World.log]
  have hcreate := fileShareCreate_create_ok env client d w _ resource n hc hr
  have hcreate' : ResourceJamfProFileShareDistributionPointsCreate env (some client) d w
      = waitAndRead env client (ResourceJamfProFileShareDistributionPointsRead env (some client))
          (fun diags readDiags => if readDiags.length > 0 then readDiags else diags) n []
          (d.SetId (Itoa n))
          { remote := r₃,
            trace := w.trace ++ [Event.construct, Event.remoteCreate resource.Name,
              Event.remoteCreate resource.Name, Event.remoteCreate resource.Name,
              Event.setId (Itoa n)] } := by
    rw [hcreate]
    simp [World.log]
  refine ⟨hr, hcreate', rfl, ?_⟩
  obtain ⟨rest, hrest, hsteps⟩ := waitAndRead_trace_steps env client
    (ResourceJamfProFileShareDistributionPointsRead env (some client))
    (fun diags readDiags => if readDiags.length > 0 then readDiags else diags) n []
    (d.SetId (Itoa n))
    { remote := r₃,
      trace := w.trace ++ [Event.construct, Event.remoteCreate resource.Name,
        Event.remoteCreate resource.Name, Event.remoteCreate resource.Name,
        Event.setId (Itoa n)] }
    (fun d w => resourceRead_trace_steps _ env (some client) d w)
  refine ⟨rest, by rw [hcreate', hrest]; simp, hsteps, ?_⟩
  have hzero : List.countP Event.isCreate rest = 0 := by
    rw [List.countP_eq_zero]
    intro ev hev
    have := hsteps ev hev
    cases ev <;> simp_all [Event.isReadStep, Event.isCreate]
  rw [List.countP_append, hzero]
  simp [List.countP_cons, Event.isCreate]

/-- C13 at a concrete input: a remote system whose create fails twice and then
answers ID 42, under a timeout of three runs. -/
theorem create_succeeds_on_third_call_witness :
    3 ≤ (sampleEnv false).TimeoutCreate ∧
    ∃ rest, (ResourceJamfProFileShareDistributionPointsCreate (sampleEnv false)
          (some (countingClient 2 0)) sampleResourceData sampleWorld).2.1.trace
        = sampleWorld.trace ++ [Event.construct, Event.remoteCreate "dp-1",
            Event.remoteCreate "dp-1", Event.remoteCreate "dp-1",
            Event.setId (Itoa 42), Event.waitForResource (Itoa 42)] ++ rest ∧
      (∀ ev ∈ rest, ev.isReadStep = true) ∧
      List.countP Event.isCreate
        ([Event.construct, Event.remoteCreate "dp-1",
            Event.remoteCreate "dp-1", Event.remoteCreate "dp-1",
            Event.setId (Itoa 42), Event.waitForResource (Itoa 42)] ++ rest) = 3 :=
  ⟨by decide,
   (create_succeeds_on_third_call (sampleEnv false) (countingClient 2 0) sampleResourceData
      sampleWorld ⟨"dp-1", "payload"⟩ 1 2 3 "503 unavailable" "503 unavailable" 42
      rfl rfl rfl rfl (by decide)).2.2.2⟩

/-! ## C14: the availability poller -/

theorem waitUntilAvailable_succ {σ : Type} (isNotFound : String → Bool)
    (checkFn : String → σ → σ × Except String RemoteResource) (pollInterval deadline : Nat)
    (identity : String) (fuel elapsed : Nat) (s : σ) :
    waitUntilAvailable isNotFound checkFn pollInterval deadline identity (fuel + 1) elapsed s =
      if deadline ≤ elapsed then
        some (s, none, [⟨Severity.Warning, "timeout while waiting for resource " ++ identity⟩])
      else
        match checkFn identity s with
        | (s', Except.ok entity) => some (s', some entity, [])
        | (s', Except.error err) =>
          if isNotFound err then
            waitUntilAvailable isNotFound checkFn pollInterval deadline identity fuel
              (elapsed + pollInterval) s'
          else some (s', none, diagFromErr err) := rfl

/-- While the polls report "not found" and the deadline has not elapsed, the
poller keeps polling. -/
theorem waitUntilAvailable_skip {σ : Type} (isNotFound : String → Bool)
    (checkFn : String → σ → σ × Except String RemoteResource) (pollInterval deadline : Nat)
    (identity : String) :
    ∀ (n fuel elapsed : Nat) (s sn : σ),
      checksNotFound isNotFound checkFn identity n s = some sn →
      elapsed + n * pollInterval ≤ deadline → (n = 0 ∨ elapsed + (n - 1) * pollInterval < deadline) →
      waitUntilAvailable isNotFound checkFn pollInterval deadline identity (fuel + n) elapsed s
        = waitUntilAvailable isNotFound checkFn pollInterval deadline identity fuel
            (elapsed + n * pollInterval) sn := by
  intro n
  induction n with
  | zero =>
    intro fuel elapsed s sn h _ _
    simp only [checksNotFound, Option.some.injEq] at h
    subst h
    simp
  | succ n ih =>
    intro fuel elapsed s sn h hle hlt
    have hlt' : elapsed + n * pollInterval < deadline := by
      rcases hlt with h0 | h1
      · omega
      · simpa using h1
    have hel : ¬ deadline ≤ elapsed := by
      have : elapsed ≤ elapsed + n * pollInterval := Nat.le_add_right _ _
      omega
    rw [← Nat.add_assoc, waitUntilAvailable_succ, if_neg hel]
    unfold checksNotFound at h
    rcases hc : checkFn identity s with ⟨s₁, err | entity⟩
    · rw [hc] at h
      simp only at h ⊢
      by_cases hnf : isNotFound err = true
      · rw [if_pos hnf] at h ⊢
        have hle' : elapsed + pollInterval + n * pollInterval ≤ deadline := by
          have : (n + 1) * pollInterval = n * pollInterval + pollInterval := Nat.succ_mul _ _
          omega
        have hlt'' : n = 0 ∨ elapsed + pollInterval + (n - 1) * pollInterval < deadline := by
          rcases Nat.eq_zero_or_pos n with h0 | hpos
          · exact Or.inl h0
          · right
            obtain ⟨m, rfl⟩ : ∃ m, n = m + 1 := ⟨n - 1, by omega⟩
            have : (m + 1) * pollInterval = m * pollInterval + pollInterval := Nat.succ_mul _ _
            simp only [Nat.add_sub_cancel]
            omega
        rw [ih fuel (elapsed + pollInterval) s₁ sn h hle' hlt'']
        have : elapsed + pollInterval + n * pollInterval = elapsed + (n + 1) * pollInterval := by
          have : (n + 1) * pollInterval = n * pollInterval + pollInterval := Nat.succ_mul _ _
          omega
        rw [this]
      · rw [if_neg hnf] at h
        cases h
    · rw [hc] at h
      cases h

/-- When the polls report "not found" until the deadline has elapsed, the poller
ends with the timeout warning. -/
theorem waitUntilAvailable_timeout {σ : Type} (isNotFound : String → Bool)
    (checkFn : String → σ → σ × Except String RemoteResource) (pollInterval deadline : Nat)
    (identity : String) :
    ∀ (n fuel elapsed : Nat) (s sn : σ),
      checksNotFound isNotFound checkFn identity n s = some sn →
      deadline ≤ elapsed + n * pollInterval →
      ∃ sk, waitUntilAvailable isNotFound checkFn pollInterval deadline identity (fuel + n + 1)
          elapsed s
        = some (sk, none,
            [⟨Severity.Warning, "timeout while waiting for resource " ++ identity⟩]) := by
  intro n
  induction n with
  | zero =>
    intro fuel elapsed s sn _ hd
    exact ⟨s, by rw [waitUntilAvailable_succ, if_pos (by simpa using hd)]⟩
  | succ n ih =>
    intro fuel elapsed s sn h hd
    rw [waitUntilAvailable_succ]
    by_cases hel : deadline ≤ elapsed
    · exact ⟨s, by rw [if_pos hel]⟩
    · rw [if_neg hel]
      unfold checksNotFound at h
      rcases hc : checkFn identity s with ⟨s₁, err | entity⟩
      · rw [hc] at h
        simp only at h ⊢
        by_cases hnf : isNotFound err = true
        · rw [if_pos hnf] at h ⊢
          have hd' : deadline ≤ elapsed + pollInterval + n * pollInterval := by
            have : (n + 1) * pollInterval = n * pollInterval + pollInterval := Nat.succ_mul _ _
            omega
          have hfuel : fuel + (n + 1) = fuel + n + 1 := rfl
          rw [hfuel]
          exact ih fuel (elapsed + pollInterval) s₁ sn h hd'
        · rw [if_neg hnf] at h
          cases h
      · rw [hc] at h
        cases h

/-- A malformed ID makes `checkResourceExists` fail without a fetch: the remote
system is left as it was. -/
theorem checkResourceExists_malformed {σ : Type} (client : Client σ) (id err : String) (s : σ)
    (h : Atoi id = Except.error err) :
    checkResourceExists client id s
      = (s, Except.error ("error converting ID \x27" ++ id ++ "\x27 to integer: " ++ err)) := by
  unfold checkResourceExists
  rw [h]

/-- C14: the availability poller (modelled from the specification) run on the
check function of Create, with enough fuel for `n + 1` rounds.  When the check
reports "not found" for the first `n` polls and then succeeds, the poller returns
the entity provided `n` times the poll interval is below the deadline; when the
check reports "not found" for `n` polls and `n` times the poll interval is not
below the deadline, it returns the timeout diagnostic; a check that fails with
another error after `n` polls ends the polling at that poll with an error
diagnostic; and a malformed ID makes the check fail without a fetch, which ends
the polling at the first poll when the classification rule does not count that
error as "not found". -/
theorem poller_after_create {σ : Type} (isNotFound : String → Bool) (client : Client σ)
    (pollInterval deadline : Nat) (identity : String) (s : σ) (fuel n : Nat)
    (hfuel : n < fuel) :
    (∀ sn s' entity,
      checksNotFound isNotFound (checkResourceExists client) identity n s = some sn →
      checkResourceExists client identity sn = (s', Except.ok entity) →
      n * pollInterval < deadline →
      waitUntilAvailable isNotFound (checkResourceExists client) pollInterval deadline identity
        fuel 0 s = some (s', some entity, [])) ∧
    (∀ sn,
      checksNotFound isNotFound (checkResourceExists client) identity n s = some sn →
      deadline ≤ n * pollInterval →
      ∃ sk, waitUntilAvailable isNotFound (checkResourceExists client) pollInterval deadline
          identity fuel 0 s
        = some (sk, none,
            [⟨Severity.Warning, "timeout while waiting for resource " ++ identity⟩])) ∧
    (∀ sn s' err,
      checksNotFound isNotFound (checkResourceExists client) identity n s = some sn →
      checkResourceExists client identity sn = (s', Except.error err) →
      isNotFound err = false → n * pollInterval < deadline →
      waitUntilAvailable isNotFound (checkResourceExists client) pollInterval deadline identity
        fuel 0 s = some (s', none, diagFromErr err)) ∧
    (∀ err, Atoi identity = Except.error err →
      isNotFound ("error converting ID \x27" ++ identity ++ "\x27 to integer: " ++ err) = false →
      0 < deadline →
      checkResourceExists client identity s
        = (s, Except.error ("error converting ID \x27" ++ identity ++ "\x27 to integer: " ++ err)) ∧
      waitUntilAvailable isNotFound (checkResourceExists client) pollInterval deadline identity
        fuel 0 s
        = some (s, none,
            diagFromErr ("error converting ID \x27" ++ identity ++ "\x27 to integer: " ++ err))) := by
  obtain ⟨f, rfl⟩ : ∃ f, fuel = f + n + 1 := ⟨fuel - n - 1, by omega⟩
  have hskip : ∀ sn, checksNotFound isNotFound (checkResourceExists client) identity n s = some sn →
      n * pollInterval < deadline →
      waitUntilAvailable isNotFound (checkResourceExists client) pollInterval deadline identity
        (f + n + 1) 0 s
      = waitUntilAvailable isNotFound (checkResourceExists client) pollInterval deadline identity
        (f + 1) (n * pollInterval) sn := by
    intro sn hsn hlt
    have hfuel' : f + n + 1 = (f + 1) + n := by omega
    rw [hfuel', waitUntilAvailable_skip isNotFound _ pollInterval deadline identity n (f + 1) 0 s sn
      hsn (by omega) (by
        rcases Nat.eq_zero_or_pos n with h0 | hpos
        · exact Or.inl h0
        · right
          have : (n - 1) * pollInterval ≤ n * pollInterval :=
            Nat.mul_le_mul_right _ (Nat.sub_le n 1)
          omega)]
    simp
  refine ⟨?_, ?_, ?_, ?_⟩
  · intro sn s' entity hsn hok hlt
    rw [hskip sn hsn hlt, waitUntilAvailable_succ, if_neg (by omega), hok]
  · intro sn hsn hd
    exact waitUntilAvailable_timeout isNotFound _ pollInterval deadline identity n f 0 s sn hsn
      (by omega)
  · intro sn s' err hsn herr hnf hlt
    rw [hskip sn hsn hlt, waitUntilAvailable_succ, if_neg (by omega), herr]
    simp [hnf]
  · intro err hatoi hnf hd
    have hcheck := checkResourceExists_malformed client identity err s hatoi
    refine ⟨hcheck, ?_⟩
    have hfuel' : f + n + 1 = (f + n) + 1 := rfl
    rw [hfuel', waitUntilAvailable_succ, if_neg (by omega), hcheck]
    simp [hnf]

/-- C14 at a concrete input: a fetch that answers `404 not found` three times and
then the entity, polled every 5 time units; under a deadline of 20 the entity is
returned, under a deadline of 10 the timeout diagnostic. -/
theorem poller_after_create_witness :
    (3 < 4 ∧ checksNotFound sampleIsNotFound (checkResourceExists (laggingClient 3)) "42" 3 0
        = some 3) ∧
    waitUntilAvailable sampleIsNotFound (checkResourceExists (laggingClient 3)) 5 20 "42" 4 0 0
      = some (4, some ⟨"dp-1", "payload"⟩, []) ∧
    ∃ sk, waitUntilAvailable sampleIsNotFound (checkResourceExists (laggingClient 3)) 5 10 "42"
        4 0 0
      = some (sk, none, [⟨Severity.Warning, "timeout while waiting for resource " ++ "42"⟩]) :=
  ⟨⟨by decide, rfl⟩,
   (poller_after_create sampleIsNotFound (laggingClient 3) 5 20 "42" 0 4 3 (by decide)).1
      3 4 ⟨"dp-1", "payload"⟩ rfl rfl (by decide),
   (poller_after_create sampleIsNotFound (laggingClient 3) 5 10 "42" 0 4 3 (by decide)).2.1
      3 rfl (by decide)⟩

/-! ## C15: the outcomes of Read -/

theorem resourceRead_fetch_error {σ : Type} (assertMsg : String) (env : Env σ)
    (client : Client σ) (d : ResourceData) (w : World σ) (n : Int) (r : σ) (err : String)
    (hid : Atoi d.id = Except.ok n) (hg : client.GetByID w.remote n = (r, Except.error err)) :
    resourceRead assertMsg env (some client) d w
      = ((env.HandleResourceNotFoundError err d).1,
         { remote := r,
           trace := w.trace ++ [Event.read, Event.remoteGetByID n, Event.handleNotFound] },
         (env.HandleResourceNotFoundError err d).2) := by
  unfold resourceRead
  simp [World.log, hid, hg]

theorem resourceRead_fetch_ok {σ : Type} (assertMsg : String) (env : Env σ)
    (client : Client σ) (d : ResourceData) (w : World σ) (n : Int) (r : σ)
    (resource : RemoteResource)
    (hid : Atoi d.id = Except.ok n) (hg : client.GetByID w.remote n = (r, Except.ok resource)) :
    resourceRead assertMsg env (some client) d w
      = ((env.updateTerraformState d resource).1,
         { remote := r,
           trace := w.trace ++ [Event.read, Event.remoteGetByID n, Event.updateState] },
         (env.updateTerraformState d resource).2) := by
  rcases hu : env.updateTerraformState d resource with ⟨d', diags'⟩
  unfold resourceRead
  cases diags' <;> simp [World.log, hid, hg, hu]

theorem resourceRead_outcome {σ : Type} (assertMsg : String) (env : Env σ)
    (isNotFound : String → Bool) (client : Client σ) (d : ResourceData) (w : World σ) (n : Int)
    (r : σ) (res : Except String RemoteResource)
    (hH : env.HandleResourceNotFoundError = HandleResourceNotFoundError isNotFound)
    (hid : Atoi d.id = Except.ok n) (hg : client.GetByID w.remote n = (r, res)) :
    ReadOutcome env isNotFound d w n res (resourceRead assertMsg env (some client) d w) := by
  cases res with
  | error err =>
    rw [resourceRead_fetch_error assertMsg env client d w n r err hid hg, hH]
    unfold ReadOutcome HandleResourceNotFoundError
    refine ⟨?_, ?_, rfl, by simp⟩
    · intro hnf
      simp [hnf, HasError]
    · intro hnf
      simp [hnf, hasError_diagFromErr]
  | ok resource =>
    rw [resourceRead_fetch_ok assertMsg env client d w n r resource hid hg]
    exact ⟨rfl, rfl, rfl⟩

/-- C15: in both Read functions, for a state with an integer ID `n` and with the
not-found handling modelled from the specification: when the fetch by ID reports
"not found", Read clears the resource ID (the signal to drop the local state) and
returns no error diagnostic; when it reports another error, Read returns an
error diagnostic and leaves the state as it was; in both cases
`updateTerraformState` is not called; and when the fetch succeeds, Read returns
the state and exactly the diagnostics of `updateTerraformState`. -/
theorem read_outcomes {σ : Type} (env : Env σ) (isNotFound : String → Bool) (client : Client σ)
    (d : ResourceData) (w : World σ) (n : Int) (r : σ) (res : Except String RemoteResource)
    (hH : env.HandleResourceNotFoundError = HandleResourceNotFoundError isNotFound)
    (hid : Atoi d.id = Except.ok n) (hg : client.GetByID w.remote n = (r, res)) :
    ReadOutcome env isNotFound d w n res
      (ResourceJamfProFileShareDistributionPointsRead env (some client) d w) ∧
    ReadOutcome env isNotFound d w n res (ResourceJamfProPackagesRead env (some client) d w) :=
  ⟨resourceRead_outcome _ env isNotFound client d w n r res hH hid hg,
   resourceRead_outcome _ env isNotFound client d w n r res hH hid hg⟩

/-- C15 at a concrete input: the stored resource `"12"` against the remote system
that answers every fetch with `404 not found`. -/
theorem read_outcomes_witness :
    (sampleEnvSpec.HandleResourceNotFoundError = HandleResourceNotFoundError sampleIsNotFound ∧
      Atoi sampleResourceData.id = Except.ok 12 ∧
      goneClient.GetByID sampleWorld.remote 12 = (1, Except.error "404 not found")) ∧
    ReadOutcome sampleEnvSpec sampleIsNotFound sampleResourceData sampleWorld 12
      (Except.error "404 not found")
      (ResourceJamfProFileShareDistributionPointsRead sampleEnvSpec (some goneClient)
        sampleResourceData sampleWorld) ∧
    ReadOutcome sampleEnvSpec sampleIsNotFound sampleResourceData sampleWorld 12
      (Except.error "404 not found")
      (ResourceJamfProPackagesRead sampleEnvSpec (some goneClient)
        sampleResourceData sampleWorld) :=
  ⟨⟨rfl, rfl, rfl⟩,
   read_outcomes sampleEnvSpec sampleIsNotFound goneClient sampleResourceData sampleWorld 12 1
    (Except.error "404 not found") rfl rfl rfl⟩

/-! ## C16: Update and the resource ID -/

theorem ResourceData.Set_id (d : ResourceData) (k : String) (v : Value) :
    (d.Set k v).1.id = d.id := by
  unfold ResourceData.Set
  cases d.setErr k v <;> rfl

/-- With the not-found handling modelled from the specification and a state
update that keeps the ID, a Read either keeps the ID or ends in the not-found
handler with the ID cleared. -/
theorem resourceRead_id {σ : Type} (assertMsg : String) (env : Env σ)
    (isNotFound : String → Bool) (clientOfMeta : Option (Client σ)) (d : ResourceData)
    (w : World σ)
    (hH : env.HandleResourceNotFoundError = HandleResourceNotFoundError isNotFound)
    (hU : ∀ d r, (env.updateTerraformState d r).1.id = d.id) :
    (resourceRead assertMsg env clientOfMeta d w).1.id = d.id ∨
    ((resourceRead assertMsg env clientOfMeta d w).1.id = "" ∧
      ∃ n, (resourceRead assertMsg env clientOfMeta d w).2.1.trace
        = w.trace ++ [Event.read, Event.remoteGetByID n, Event.handleNotFound]) := by
  cases clientOfMeta with
  | none => exact Or.inl (by simp [resourceRead])
  | some client =>
    cases hid : Atoi d.id with
    | error err => exact Or.inl (by simp [resourceRead, hid])
    | ok n =>
      rcases hg : client.GetByID w.remote n with ⟨r, err | resource⟩
      · rw [resourceRead_fetch_error assertMsg env client d w n r err hid hg, hH]
        unfold HandleResourceNotFoundError
        by_cases hnf : isNotFound err = true
        · exact Or.inr ⟨by simp [hnf, ResourceData.SetId], n, rfl⟩
        · exact Or.inl (by simp [hnf])
      · rw [resourceRead_fetch_ok assertMsg env client d w n r resource hid hg]
        exact Or.inl (hU d resource)

theorem packagesUploadIfChanged_id {σ : Type} (env : Env σ) (conn : Client σ)
    (state : String → Option Value) (d : ResourceData) (w : World σ) :
    (packagesUploadIfChanged env conn state d w).1.id = d.id := by
  unfold packagesUploadIfChanged
  split
  · simp only
    split
    · rfl
    · split
      · split
        · rfl
        · simp only [ResourceData.Set_id]
      · rfl
  · rfl

/-- C16, as stated, fails on the read-back: against a remote system that accepts
the update but answers the fetch by ID with `404 not found`, the Read that
follows the update clears the resource ID, so the ID after the call is `""` and
not the ID `"12"` before it. -/
theorem update_read_back_clears_identity :
    sampleResourceData.id = "12" ∧
    ((ResourceJamfProFileShareDistributionPointsUpdate sampleEnvSpec (some goneClient)
        sampleResourceData sampleWorld).1.id = "" ∧
    (ResourceJamfProFileShareDistributionPointsUpdate sampleEnvSpec (some goneClient)
        sampleResourceData sampleWorld).2.1.trace
      = [Event.construct, Event.remoteUpdateByID 12, Event.read, Event.remoteGetByID 12,
         Event.handleNotFound] ∧
    (ResourceJamfProPackagesUpdate sampleEnvSpec (some goneClient) sampleResourceData.attrs
        sampleResourceData sampleWorld).1.id = "" ∧
    (ResourceJamfProPackagesUpdate sampleEnvSpec (some goneClient) sampleResourceData.attrs
        sampleResourceData sampleWorld).2.1.trace
      = [Event.construct, Event.remoteUpdateByID 12, Event.read, Event.remoteGetByID 12,
         Event.handleNotFound]) := by
  refine ⟨rfl, ?_⟩
  decide

theorem fileShareUpdate_id {σ : Type} (env : Env σ) (isNotFound : String → Bool)
    (clientOfMeta : Option (Client σ)) (d : ResourceData) (w : World σ)
    (hH : env.HandleResourceNotFoundError = HandleResourceNotFoundError isNotFound)
    (hU : ∀ d r, (env.updateTerraformState d r).1.id = d.id) :
    (ResourceJamfProFileShareDistributionPointsUpdate env clientOfMeta d w).1.id = d.id ∨
    ((ResourceJamfProFileShareDistributionPointsUpdate env clientOfMeta d w).1.id = "" ∧
      ∃ pre n, (ResourceJamfProFileShareDistributionPointsUpdate env clientOfMeta d w).2.1.trace
        = pre ++ [Event.read, Event.remoteGetByID n, Event.handleNotFound]) := by
  cases clientOfMeta with
  | none => exact Or.inl (by simp [ResourceJamfProFileShareDistributionPointsUpdate])
  | some client =>
    cases hid : Atoi d.id with
    | error err => exact Or.inl (by simp [ResourceJamfProFileShareDistributionPointsUpdate, hid])
    | ok n =>
      cases hc : env.construct d with
      | error err =>
        exact Or.inl (by simp [ResourceJamfProFileShareDistributionPointsUpdate, hid, hc])
      | ok resource =>
        rcases hr : RetryContext (updateAttempt client n resource) env.TimeoutUpdate
          (w.log Event.construct) none with ⟨w₁, _ | err⟩
        · rw [fileShareUpdate_retry_ok env client d w w₁ n resource hid hc hr]
          rcases resourceRead_id "error asserting meta as *client.client" env isNotFound
            (some client) d w₁ hH hU with h | ⟨h, m, hm⟩
          · exact Or.inl h
          · exact Or.inr ⟨h, w₁.trace, m, hm⟩
        · rw [fileShareUpdate_retry_error env client d w w₁ n resource err hid hc hr]
          exact Or.inl rfl

theorem packagesUpdate_id {σ : Type} (env : Env σ) (isNotFound : String → Bool)
    (clientOfMeta : Option (Client σ)) (state : String → Option Value) (d : ResourceData)
    (w : World σ)
    (hH : env.HandleResourceNotFoundError = HandleResourceNotFoundError isNotFound)
    (hU : ∀ d r, (env.updateTerraformState d r).1.id = d.id) :
    (ResourceJamfProPackagesUpdate env clientOfMeta state d w).1.id = d.id ∨
    ((ResourceJamfProPackagesUpdate env clientOfMeta state d w).1.id = "" ∧
      ∃ pre n, (ResourceJamfProPackagesUpdate env clientOfMeta state d w).2.1.trace
        = pre ++ [Event.read, Event.remoteGetByID n, Event.handleNotFound]) := by
  cases clientOfMeta with
  | none => exact Or.inl (by simp [ResourceJamfProPackagesUpdate])
  | some conn =>
    cases hid : Atoi d.id with
    | error err => exact Or.inl (by simp [ResourceJamfProPackagesUpdate, hid])
    | ok n =>
      have hup := packagesUploadIfChanged_id env conn state d w
      rcases hp : packagesUploadIfChanged env conn state d w with ⟨d₁, w₁, _ | errDiags⟩
      · rw [hp] at hup
        simp only at hup
        cases hc : env.construct d₁ with
        | error err =>
          exact Or.inl (by simp [ResourceJamfProPackagesUpdate, hid, hp, hc, hup])
        | ok resource =>
          rcases hu : conn.UpdateByID w₁.remote n resource with ⟨r, _ | err⟩
          · have hres : ResourceJamfProPackagesUpdate env (some conn) state d w
                = ((ResourceJamfProPackagesRead env (some conn) d₁
                      { remote := r,
                        trace := w₁.trace ++ [Event.construct, Event.remoteUpdateByID n] }).1,
                   (ResourceJamfProPackagesRead env (some conn) d₁
                      { remote := r,
                        trace := w₁.trace ++ [Event.construct, Event.remoteUpdateByID n] }).2.1,
                   if HasError (ResourceJamfProPackagesRead env (some conn) d₁
                      { remote := r,
                        trace := w₁.trace ++ [Event.construct, Event.remoteUpdateByID n] }).2.2
                   then (ResourceJamfProPackagesRead env (some conn) d₁
                      { remote := r,
                        trace := w₁.trace ++ [Event.construct, Event.remoteUpdateByID n] }).2.2
                   else []) := by
              unfold ResourceJamfProPackagesUpdate
              simp only [hid, hp, hc, World.log, hu, List.append_assoc, List.singleton_append,
                List.nil_append]
              split <;> rfl
            rw [hres]
            rcases resourceRead_id "error asserting meta as *client.APIClient" env isNotFound
              (some conn) d₁ (World.mk r (w₁.trace ++ [Event.construct, Event.remoteUpdateByID n]))
              hH hU with h | ⟨h, m, hm⟩
            · exact Or.inl (h.trans hup)
            · exact Or.inr ⟨h, _, m, hm⟩
          · exact Or.inl (by simp [ResourceJamfProPackagesUpdate, hid, hp, hc, hu, World.log, hup])
      · rw [hp] at hup
        simp only at hup
        exact Or.inl (by simp [ResourceJamfProPackagesUpdate, hid, hp, hup])

/-- C16 (amended): with the not-found handling modelled from the specification
and a state update that does not touch the ID, every run of either Update
function leaves the resource ID as it was before the call, except on one path:
when the fetch by ID of the read-back reports "not found", Read clears the ID
and the run ends in the not-found handler. -/
theorem update_keeps_identity_unless_gone {σ : Type} (env : Env σ) (isNotFound : String → Bool)
    (clientOfMeta : Option (Client σ)) (state : String → Option Value) (d : ResourceData)
    (w : World σ)
    (hH : env.HandleResourceNotFoundError = HandleResourceNotFoundError isNotFound)
    (hU : ∀ d r, (env.updateTerraformState d r).1.id = d.id) :
    ((ResourceJamfProFileShareDistributionPointsUpdate env clientOfMeta d w).1.id = d.id ∨
      ((ResourceJamfProFileShareDistributionPointsUpdate env clientOfMeta d w).1.id = "" ∧
        ∃ pre n, (ResourceJamfProFileShareDistributionPointsUpdate env clientOfMeta d w).2.1.trace
          = pre ++ [Event.read, Event.remoteGetByID n, Event.handleNotFound])) ∧
    ((ResourceJamfProPackagesUpdate env clientOfMeta state d w).1.id = d.id ∨
      ((ResourceJamfProPackagesUpdate env clientOfMeta state d w).1.id = "" ∧
        ∃ pre n, (ResourceJamfProPackagesUpdate env clientOfMeta state d w).2.1.trace
          = pre ++ [Event.read, Event.remoteGetByID n, Event.handleNotFound])) :=
  ⟨fileShareUpdate_id env isNotFound clientOfMeta d w hH hU,
   packagesUpdate_id env isNotFound clientOfMeta state d w hH hU⟩

/-- C16 (amended) at a concrete input: the stored resource `"12"` updated against
the counting remote system, which knows the resource. -/
theorem update_keeps_identity_unless_gone_witness :
    (sampleEnvSpec.HandleResourceNotFoundError = HandleResourceNotFoundError sampleIsNotFound ∧
      ∀ d r, (sampleEnvSpec.updateTerraformState d r).1.id = d.id) ∧
    ((ResourceJamfProFileShareDistributionPointsUpdate sampleEnvSpec (some (countingClient 0 0))
          sampleResourceData sampleWorld).1.id = sampleResourceData.id ∨
      ((ResourceJamfProFileShareDistributionPointsUpdate sampleEnvSpec (some (countingClient 0 0))
          sampleResourceData sampleWorld).1.id = "" ∧
        ∃ pre n, (ResourceJamfProFileShareDistributionPointsUpdate sampleEnvSpec
            (some (countingClient 0 0)) sampleResourceData sampleWorld).2.1.trace
          = pre ++ [Event.read, Event.remoteGetByID n, Event.handleNotFound])) ∧
    ((ResourceJamfProPackagesUpdate sampleEnvSpec (some (countingClient 0 0))
          sampleResourceData.attrs sampleResourceData sampleWorld).1.id = sampleResourceData.id ∨
      ((ResourceJamfProPackagesUpdate sampleEnvSpec (some (countingClient 0 0))
          sampleResourceData.attrs sampleResourceData sampleWorld).1.id = "" ∧
        ∃ pre n, (ResourceJamfProPackagesUpdate sampleEnvSpec (some (countingClient 0 0))
            sampleResourceData.attrs sampleResourceData sampleWorld).2.1.trace
          = pre ++ [Event.read, Event.remoteGetByID n, Event.handleNotFound])) :=
  ⟨⟨rfl, fun _ _ => rfl⟩,
   update_keeps_identity_unless_gone sampleEnvSpec sampleIsNotFound (some (countingClient 0 0))
    sampleResourceData.attrs sampleResourceData sampleWorld rfl (fun _ _ => rfl)⟩

/-! ## C17: the ID written by Create is read back unchanged -/

theorem digitChar_toNat (k : Nat) (h : k < 10) : (Nat.digitChar k).toNat = 48 + k := by
  interval_cases k <;> rfl

theorem parseDigits_digit (k : Nat) (h : k < 10) (ds : List Char) (acc : Nat) :
    parseDigits (Nat.digitChar k :: ds) acc = parseDigits ds (acc * 10 + k) := by
  have hk := digitChar_toNat k h
  simp only [parseDigits, hk]
  rw [if_pos ⟨by omega, by omega⟩]
  simp

/-- Parsing the digits written by `Nat.toDigitsCore` continues from the number
written. -/
theorem parseDigits_toDigitsCore :
    ∀ (fuel n : Nat) (ds : List Char), n < fuel →
      parseDigits (Nat.toDigitsCore 10 fuel n ds) 0 = parseDigits ds n := by
  intro fuel
  induction fuel with
  | zero => intro n ds h; omega
  | succ fuel ih =>
    intro n ds h
    simp only [Nat.toDigitsCore]
    split
    · rename_i hz
      rw [parseDigits_digit _ (Nat.mod_lt _ (by decide))]
      have : n % 10 = n := Nat.mod_eq_of_lt (by omega)
      simp [this]
    · rename_i hz
      rw [ih (n / 10) _ (by omega), parseDigits_digit _ (Nat.mod_lt _ (by decide))]
      have : n / 10 * 10 + n % 10 = n := by
        have := Nat.div_add_mod n 10
        omega
      rw [this]

/-- The digits written by `Nat.toDigitsCore` start with a decimal digit. -/
theorem toDigitsCore_head :
    ∀ (fuel n : Nat) (ds : List Char),
      ∃ c rest, Nat.toDigitsCore 10 (fuel + 1) n ds = c :: rest ∧ 48 ≤ c.toNat ∧ c.toNat ≤ 57 := by
  intro fuel
  induction fuel with
  | zero =>
    intro n ds
    have hk := digitChar_toNat (n % 10) (Nat.mod_lt _ (by decide))
    refine ⟨Nat.digitChar (n % 10), ds, ?_, by omega, by
      have := Nat.mod_lt n (show 0 < 10 by decide)
      omega⟩
    simp only [Nat.toDigitsCore]
    split <;> rfl
  | succ fuel ih =>
    intro n ds
    have hk := digitChar_toNat (n % 10) (Nat.mod_lt _ (by decide))
    simp only [Nat.toDigitsCore]
    split
    · exact ⟨Nat.digitChar (n % 10), ds, rfl, by omega, by
        have := Nat.mod_lt n (show 0 < 10 by decide)
        omega⟩
    · exact ih (n / 10) _

theorem Atoi_of_digits (s : String) (c : Char) (rest : List Char) (m : Nat)
    (hs : s.toList = c :: rest) (hlo : 48 ≤ c.toNat) (hp : parseDigits (c :: rest) 0 = some m)
    (hm : m < 2 ^ 63) : Atoi s = Except.ok (m : Int) := by
  have h1 : c ≠ '-' := by
    intro h
    subst h
    revert hlo
    decide
  have h2 : c ≠ '+' := by
    intro h
    subst h
    revert hlo
    decide
  have hm' := hm
  norm_num at hm'
  unfold Atoi
  simp only [hs]
  simp [h1, h2, hp, hm']

theorem Atoi_of_minus_digits (s : String) (c : Char) (rest : List Char) (m : Nat)
    (hs : s.toList = '-' :: c :: rest) (hp : parseDigits (c :: rest) 0 = some m)
    (hm : m ≤ 2 ^ 63) : Atoi s = Except.ok (-(m : Int)) := by
  have hm' := hm
  norm_num at hm'
  unfold Atoi
  simp only [hs]
  simp [hp, hm']

/-- Go `strconv.Atoi(strconv.Itoa(n)) == n` for every `n` in the range of `int`. -/
theorem Atoi_Itoa (n : Int) (hlo : -(2 : Int) ^ 63 ≤ n) (hhi : n < 2 ^ 63) :
    Atoi (Itoa n) = Except.ok n := by
  cases n with
  | ofNat m =>
    obtain ⟨c, rest, hcr, hc1, _⟩ := toDigitsCore_head m m []
    have hp := parseDigits_toDigitsCore (m + 1) m [] (Nat.lt_succ_self m)
    rw [hcr] at hp
    have hm : m < 2 ^ 63 := by
      have : (m : Int) < 2 ^ 63 := hhi
      exact_mod_cast this
    exact Atoi_of_digits (Itoa (Int.ofNat m)) c rest m hcr hc1 (by simpa [parseDigits] using hp) hm
  | negSucc m =>
    obtain ⟨c, rest, hcr, _, _⟩ := toDigitsCore_head (m + 1) (m + 1) []
    have hp := parseDigits_toDigitsCore (m + 1 + 1) (m + 1) [] (Nat.lt_succ_self _)
    rw [hcr] at hp
    have hm : m + 1 ≤ 2 ^ 63 := by
      have h : -(2 : Int) ^ 63 ≤ Int.negSucc m := hlo
      rw [Int.negSucc_eq] at h
      have h' : ((m + 1 : Nat) : Int) ≤ 2 ^ 63 := by
        push_cast
        omega
      exact_mod_cast h'
    have hs : (Itoa (Int.negSucc m)).toList = '-' :: c :: rest := by
      have happ : ("-" ++ Nat.repr (m + 1)).toList = '-' :: (Nat.repr (m + 1)).toList := by
        simp [String.toList, String.data_append]
      show ("-" ++ Nat.repr (m + 1)).toList = _
      rw [happ]
      show '-' :: Nat.toDigitsCore 10 (m + 1 + 1) (m + 1) [] = _
      rw [hcr]
    have := Atoi_of_minus_digits (Itoa (Int.negSucc m)) c rest (m + 1) hs
      (by simpa [parseDigits] using hp) hm
    rw [this, Int.negSucc_eq]
    simp

theorem resourceRead_trace_head {σ : Type} (assertMsg : String) (env : Env σ)
    (client : Client σ) (d : ResourceData) (w : World σ) (n : Int)
    (hid : Atoi d.id = Except.ok n) :
    ∃ rest, (resourceRead assertMsg env (some client) d w).2.1.trace
      = w.trace ++ [Event.read, Event.remoteGetByID n] ++ rest := by
  rcases hg : client.GetByID w.remote n with ⟨r, err | resource⟩
  · rw [resourceRead_fetch_error assertMsg env client d w n r err hid hg]
    exact ⟨[Event.handleNotFound], by simp⟩
  · rw [resourceRead_fetch_ok assertMsg env client d w n r resource hid hg]
    exact ⟨[Event.updateState], by simp⟩

theorem resourceDelete_trace_head {σ : Type} (assertMsg failMsg : String) (env : Env σ)
    (client : Client σ) (d : ResourceData) (w : World σ) (n : Int)
    (hid : Atoi d.id = Except.ok n) (ht : 0 < env.TimeoutDelete) :
    ∃ rest, (resourceDelete assertMsg failMsg env (some client) d w).2.1.trace
      = w.trace ++ Event.remoteDeleteByID n :: rest := by
  obtain ⟨evs, hevs, _, hhead⟩ := RetryContext_delete_trace client n d env.TimeoutDelete w none
  obtain ⟨rest, hrest⟩ := hhead ht
  rcases hr : RetryContext (deleteAttempt client n d) env.TimeoutDelete w none with ⟨w', _ | err⟩
  · rw [resourceDelete_success _ _ env client d w w' n hid hr]
    rw [hr] at hevs
    simp only at hevs
    exact ⟨rest ++ [Event.setId ""], by simp [World.log, hevs, hrest]⟩
  · rw [resourceDelete_failure _ _ env client d w w' n err hid hr]
    rw [hr] at hevs
    simp only at hevs
    exact ⟨rest, by simp [hevs, hrest]⟩

theorem packagesUpdate_trace_head {σ : Type} (env : Env σ) (conn : Client σ)
    (state : String → Option Value) (d d₁ : ResourceData) (w w₁ : World σ) (n : Int)
    (resource : RemoteResource)
    (hid : Atoi d.id = Except.ok n)
    (hp : packagesUploadIfChanged env conn state d w = (d₁, w₁, none))
    (hc : env.construct d₁ = Except.ok resource) :
    ∃ rest, (ResourceJamfProPackagesUpdate env (some conn) state d w).2.1.trace
      = w₁.trace ++ [Event.construct, Event.remoteUpdateByID n] ++ rest := by
  rcases hu : conn.UpdateByID w₁.remote n resource with ⟨r, _ | err⟩
  · obtain ⟨t, ht⟩ := resourceRead_trace "error asserting meta as *client.APIClient" env
      (some conn) d₁ (World.mk r (w₁.trace ++ [Event.construct, Event.remoteUpdateByID n]))
    refine ⟨Event.read :: t, ?_⟩
    unfold ResourceJamfProPackagesUpdate
    simp only [hid, hp, hc, World.log, hu, List.append_assoc, List.singleton_append,
      List.nil_append]
    split <;> simpa [ResourceJamfProPackagesRead] using ht
  · exact ⟨[], by simp [ResourceJamfProPackagesUpdate, hid, hp, hc, hu, World.log]⟩

/-- C17: for every `n` in the range of `int`, the ID string `strconv.Itoa(n)` that
Create stores is parsed back by `strconv.Atoi` to exactly `n`: the check function
of the poller fetches `n`, and on a state that holds this ID every Read fetches
`n`, every Delete (when the timeout allows a run) deletes `n`, and every Update
that reaches its remote call updates `n`. -/
theorem identity_round_trip {σ : Type} (env : Env σ) (client : Client σ)
    (state : String → Option Value) (d : ResourceData) (w : World σ) (n : Int)
    (hlo : -(2 : Int) ^ 63 ≤ n) (hhi : n < 2 ^ 63) (hd : d.id = Itoa n) :
    Atoi (Itoa n) = Except.ok n ∧
    (∀ s, checkResourceExists client (Itoa n) s = client.GetByID s n) ∧
    ((∃ rest, (ResourceJamfProFileShareDistributionPointsRead env (some client) d w).2.1.trace
        = w.trace ++ [Event.read, Event.remoteGetByID n] ++ rest) ∧
      (∃ rest, (ResourceJamfProPackagesRead env (some client) d w).2.1.trace
        = w.trace ++ [Event.read, Event.remoteGetByID n] ++ rest)) ∧
    (0 < env.TimeoutDelete →
      (∃ rest, (ResourceJamfProFileShareDistributionPointsDelete env (some client) d w).2.1.trace
        = w.trace ++ Event.remoteDeleteByID n :: rest) ∧
      (∃ rest, (ResourceJamfProPackagesDelete env (some client) d w).2.1.trace
        = w.trace ++ Event.remoteDeleteByID n :: rest)) ∧
    (∀ resource, env.construct d = Except.ok resource → 0 < env.TimeoutUpdate →
      ∃ rest, (ResourceJamfProFileShareDistributionPointsUpdate env (some client) d w).2.1.trace
        = w.trace ++ [Event.construct, Event.remoteUpdateByID n] ++ rest) ∧
    (∀ d₁ w₁ resource, packagesUploadIfChanged env client state d w = (d₁, w₁, none) →
      env.construct d₁ = Except.ok resource →
      ∃ rest, (ResourceJamfProPackagesUpdate env (some client) state d w).2.1.trace
        = w₁.trace ++ [Event.construct, Event.remoteUpdateByID n] ++ rest) := by
  have hround := Atoi_Itoa n hlo hhi
  have hid : Atoi d.id = Except.ok n := by rw [hd]; exact hround
  refine ⟨hround, ?_, ⟨?_, ?_⟩, ?_, ?_, ?_⟩
  · intro s
    unfold checkResourceExists
    rw [hround]
  · exact resourceRead_trace_head _ env client d w n hid
  · exact resourceRead_trace_head _ env client d w n hid
  · intro ht
    exact ⟨resourceDelete_trace_head _ _ env client d w n hid ht,
      resourceDelete_trace_head _ _ env client d w n hid ht⟩
  · intro resource hc ht
    obtain ⟨t, ht'⟩ : ∃ t, env.TimeoutUpdate = t + 1 := ⟨env.TimeoutUpdate - 1, by omega⟩
    obtain ⟨rest, hrest⟩ := fileShareUpdate_trace_extends env client d w n resource hid hc
    obtain ⟨k, hk⟩ := RetryContext_update_trace_pos client n resource t (w.log Event.construct)
      none
    rw [ht', hk] at hrest
    exact ⟨List.replicate k (Event.remoteUpdateByID n) ++ rest, by
      rw [hrest]; simp [World.log]⟩
  · intro d₁ w₁ resource hp hc
    exact packagesUpdate_trace_head env client state d d₁ w w₁ n resource hid hp hc

/-- C17 at a concrete input: the ID 42 answered by the create, stored as `"42"`. -/
theorem identity_round_trip_witness :
    (-(2 : Int) ^ 63 ≤ 42 ∧ (42 : Int) < 2 ^ 63 ∧ (sampleResourceData.SetId "42").id = Itoa 42) ∧
    Atoi (Itoa 42) = Except.ok 42 ∧
    (∀ s, checkResourceExists (countingClient 0 0) (Itoa 42) s
      = (countingClient 0 0).GetByID s 42) ∧
    ((∃ rest, (ResourceJamfProFileShareDistributionPointsRead (sampleEnv false)
          (some (countingClient 0 0)) (sampleResourceData.SetId "42") sampleWorld).2.1.trace
        = sampleWorld.trace ++ [Event.read, Event.remoteGetByID 42] ++ rest) ∧
      (∃ rest, (ResourceJamfProPackagesRead (sampleEnv false)
          (some (countingClient 0 0)) (sampleResourceData.SetId "42") sampleWorld).2.1.trace
        = sampleWorld.trace ++ [Event.read, Event.remoteGetByID 42] ++ rest)) :=
  ⟨⟨by decide, by decide, rfl⟩,
   (identity_round_trip (sampleEnv false) (countingClient 0 0) sampleResourceData.attrs
      (sampleResourceData.SetId "42") sampleWorld 42 (by decide) (by decide) rfl).1,
   (identity_round_trip (sampleEnv false) (countingClient 0 0) sampleResourceData.attrs
      (sampleResourceData.SetId "42") sampleWorld 42 (by decide) (by decide) rfl).2.1,
   (identity_round_trip (sampleEnv false) (countingClient 0 0) sampleResourceData.attrs
      (sampleResourceData.SetId "42") sampleWorld 42 (by decide) (by decide) rfl).2.2.1⟩

/-! ## C18: reconciliation errors are aggregated -/

theorem length_filterMap_eq_length_filter {α β : Type} (f : α → Option β) (l : List α) :
    (l.filterMap f).length = (l.filter (fun a => (f a).isSome)).length := by
  induction l with
  | nil => rfl
  | cons a l ih =>
    cases h : f a <;> simp [List.filterMap_cons, List.filter_cons, h, ih]

theorem attemptedWrites_keys (N : String → String) {o : List String}
    (h : o.Perm resourceDataKeys) (r : ResourceMobileDeviceConfigurationProfile) :
    ((attemptedWrites N o r).map Prod.fst).Perm
      ((if r.General.Site.ID ≠ -1 then ["site"] else []) ++ ["payloads"] ++
        (if r.General.Category.ID ≠ -1 then ["category"] else []) ++ ["scope"] ++
        resourceDataKeys) := by
  refine ((attemptedWrites_perm N h r).map Prod.fst).trans ?_
  obtain ⟨m, hm⟩ := setScope_ok r
  unfold attemptedWrites
  rw [hm]
  by_cases hs : r.General.Site.ID = -1 <;> by_cases hc : r.General.Category.ID = -1 <;>
    simp [hs, hc, resourceDataKeys, resourceData, mapSet, mapGet]

/-- C18: for every entity, every state and every way in which its schema accepts or
rejects the individual writes, `updateTerraformState` is the sequence of all its
writes applied one after the other: `site` when present, `payloads`, `category`
when present, `scope` and the seven scalar fields with `level`.  A rejected
write does not stop the later ones: every accepted write is stored, and the
diagnostics returned hold exactly one entry for each rejected write. -/
theorem reconciliation_errors_aggregated (N : String → String) (o : List String)
    (d : ResourceData) (r : ResourceMobileDeviceConfigurationProfile)
    (ho : o.Perm resourceDataKeys) :
    updateTerraformState N o d r = applyWrites (attemptedWrites N o r) (d, []) ∧
    ((attemptedWrites N o r).map Prod.fst).Perm
      ((if r.General.Site.ID ≠ -1 then ["site"] else []) ++ ["payloads"] ++
        (if r.General.Category.ID ≠ -1 then ["category"] else []) ++ ["scope"] ++
        resourceDataKeys) ∧
    (updateTerraformState N o d r).2
      = (attemptedWrites N o r).filterMap (fun p =>
          (d.setErr p.1 p.2).map (fun e => (⟨Severity.Error, e⟩ : Diagnostic))) ∧
    (updateTerraformState N o d r).2.length
      = ((attemptedWrites N o r).filter (fun p => (d.setErr p.1 p.2).isSome)).length ∧
    (∀ k v, (k, v) ∈ attemptedWrites N o r → d.setErr k v = none →
      (updateTerraformState N o d r).1.attrs k = some v) := by
  have heq := updateTerraformState_eq_applyWrites N o d r
  have hdiags : (updateTerraformState N o d r).2
      = (attemptedWrites N o r).filterMap (fun p =>
          (d.setErr p.1 p.2).map (fun e => (⟨Severity.Error, e⟩ : Diagnostic))) := by
    rw [heq, applyWrites_snd]
    simp
  refine ⟨heq, attemptedWrites_keys N ho r, hdiags, ?_, ?_⟩
  · rw [hdiags, length_filterMap_eq_length_filter]
    congr 1
    apply List.filter_congr
    intro p _
    cases d.setErr p.1 p.2 <;> rfl
  · intro k v hmem hacc
    rw [heq]
    exact applyWrites_attrs_written _ _ (attemptedWrites_keys_nodup N ho r) k v hmem hacc

/-- C18 at a concrete input: the sample state rejects `name` and `uuid`; both
diagnostics are returned and the other writes are stored. -/
theorem reconciliation_errors_aggregated_witness :
    resourceDataKeys.Perm resourceDataKeys ∧
    (updateTerraformState id resourceDataKeys sampleState sampleProfile).2
      = (attemptedWrites id resourceDataKeys sampleProfile).filterMap (fun p =>
          (sampleState.setErr p.1 p.2).map (fun e => (⟨Severity.Error, e⟩ : Diagnostic))) ∧
    (updateTerraformState id resourceDataKeys sampleState sampleProfile).2.length
      = ((attemptedWrites id resourceDataKeys sampleProfile).filter
          (fun p => (sampleState.setErr p.1 p.2).isSome)).length :=
  ⟨List.Perm.refl _,
   (reconciliation_errors_aggregated id resourceDataKeys sampleState sampleProfile
      (List.Perm.refl _)).2.2.1,
   (reconciliation_errors_aggregated id resourceDataKeys sampleState sampleProfile
      (List.Perm.refl _)).2.2.2.1⟩

/-! ## C19: the `connection_type` validator -/

/-- C19: for every string `v` (which `util.GetString` returns as it is), the
validator of `connection_type` returns no error exactly when `v` is `"SMB"` or
`"AFP"`, returns exactly one error for every other string, and never returns a
warning. -/
theorem connectionType_accepts_SMB_and_AFP (GetString : Leaf → String) (key v : String)
    (hG : GetString (Leaf.str v) = v) :
    ((connectionTypeValidateFunc GetString (Leaf.str v) key).2 = [] ↔ (v = "SMB" ∨ v = "AFP")) ∧
    (¬ (v = "SMB" ∨ v = "AFP") →
      (connectionTypeValidateFunc GetString (Leaf.str v) key).2
        = ["\"" ++ key ++ "\" must be one of \x27SMB\x27, or \x27AFP\x27, got: " ++ v] ∧
      (connectionTypeValidateFunc GetString (Leaf.str v) key).2.length = 1) ∧
    (connectionTypeValidateFunc GetString (Leaf.str v) key).1 = [] := by
  unfold connectionTypeValidateFunc
  rw [hG]
  by_cases h1 : v = "SMB"
  · subst h1
    simp [mapGet]
  · by_cases h2 : v = "AFP"
    · subst h2
      simp [mapGet]
    · have h1' : ¬ "SMB" = v := fun h => h1 h.symm
      have h2' : ¬ "AFP" = v := fun h => h2 h.symm
      simp [mapGet, h1, h2, h1', h2']

/-- C19 at concrete inputs: `"SMB"` is accepted, the lower-case `"smb"` is not. -/
theorem connectionType_accepts_SMB_and_AFP_witness :
    (sampleGetString (Leaf.str "SMB") = "SMB" ∧ sampleGetString (Leaf.str "smb") = "smb") ∧
    ((connectionTypeValidateFunc sampleGetString (Leaf.str "SMB") "connection_type").2 = [] ↔
      ("SMB" = "SMB" ∨ "SMB" = "AFP")) ∧
    (connectionTypeValidateFunc sampleGetString (Leaf.str "smb") "connection_type").2.length = 1 :=
  ⟨⟨rfl, rfl⟩,
   (connectionType_accepts_SMB_and_AFP sampleGetString "connection_type" "SMB" rfl).1,
   ((connectionType_accepts_SMB_and_AFP sampleGetString "connection_type" "smb" rfl).2.1
      (by decide)).2⟩

/-! ## C20: `site` and `category` -/

/-- The writes to a key outside `resourceData` are among the four writes that
precede the final loop. -/
theorem attemptedWrites_mem_blocks (N : String → String) (o : List String)
    (r : ResourceMobileDeviceConfigurationProfile) (k : String) (bs : List Block) :
    (k, Value.blocks bs) ∈ attemptedWrites N o r ↔
      (r.General.Site.ID ≠ -1 ∧ k = "site" ∧ bs = [[("id", Leaf.int r.General.Site.ID)]]) ∨
      (r.General.Category.ID ≠ -1 ∧ k = "category" ∧
        bs = [[("id", Leaf.int r.General.Category.ID)]]) := by
  obtain ⟨m, hm⟩ := setScope_ok r
  unfold attemptedWrites
  rw [hm]
  by_cases hs : r.General.Site.ID = -1 <;> by_cases hc : r.General.Category.ID = -1 <;>
    simp [hs, hc]

theorem attemptedWrites_mem_key (N : String → String) (o : List String)
    (r : ResourceMobileDeviceConfigurationProfile) (k : String) (v : Value)
    (h : (k, v) ∈ attemptedWrites N o r) (hk : k = "site" ∨ k = "category") :
    ∃ bs, v = Value.blocks bs := by
  obtain ⟨m, hm⟩ := setScope_ok r
  unfold attemptedWrites at h
  rw [hm] at h
  simp only [List.mem_append, List.mem_filterMap, Option.map_eq_some'] at h
  rcases h with (((h | h) | h) | h) | h
  · split at h
    · simp only [List.mem_singleton, Prod.mk.injEq] at h
      exact ⟨_, h.2⟩
    · cases h
  · simp only [List.mem_singleton, Prod.mk.injEq] at h
    rcases hk with hk | hk <;> rw [hk] at h <;> exact absurd h.1 (by decide)
  · split at h
    · simp only [List.mem_singleton, Prod.mk.injEq] at h
      exact ⟨_, h.2⟩
    · cases h
  · simp only [List.mem_singleton, Prod.mk.injEq] at h
    rcases hk with hk | hk <;> rw [hk] at h <;> exact absurd h.1 (by decide)
  · obtain ⟨k', _, l, hl, heq⟩ := h
    simp only [Prod.mk.injEq] at heq
    obtain ⟨hk', _⟩ := heq
    subst hk'
    rcases hk with hk | hk <;> subst hk <;>
      simp [resourceData, mapSet, mapGet] at hl

/-- C20: `updateTerraformState` writes the attribute `site` exactly when the remote
`Site.ID` is not -1, and what it writes is the one-element list holding the map
with the single key `id` and that ID: when the schema accepts the write this
list is the `site` of the state afterwards, and when `Site.ID` is -1 the `site`
of the state is the one before the call.  The same holds for `category` with
`Category.ID`. -/
theorem site_and_category_written_when_set (N : String → String) (o : List String)
    (d : ResourceData) (r : ResourceMobileDeviceConfigurationProfile)
    (ho : o.Perm resourceDataKeys) :
    ((∀ v, ("site", v) ∈ attemptedWrites N o r ↔
        (r.General.Site.ID ≠ -1 ∧ v = Value.blocks [[("id", Leaf.int r.General.Site.ID)]])) ∧
      (r.General.Site.ID = -1 →
        (updateTerraformState N o d r).1.attrs "site" = d.attrs "site") ∧
      (r.General.Site.ID ≠ -1 →
        d.setErr "site" (Value.blocks [[("id", Leaf.int r.General.Site.ID)]]) = none →
        (updateTerraformState N o d r).1.attrs "site"
          = some (Value.blocks [[("id", Leaf.int r.General.Site.ID)]]))) ∧
    ((∀ v, ("category", v) ∈ attemptedWrites N o r ↔
        (r.General.Category.ID ≠ -1 ∧
          v = Value.blocks [[("id", Leaf.int r.General.Category.ID)]])) ∧
      (r.General.Category.ID = -1 →
        (updateTerraformState N o d r).1.attrs "category" = d.attrs "category") ∧
      (r.General.Category.ID ≠ -1 →
        d.setErr "category" (Value.blocks [[("id", Leaf.int r.General.Category.ID)]]) = none →
        (updateTerraformState N o d r).1.attrs "category"
          = some (Value.blocks [[("id", Leaf.int r.General.Category.ID)]]))) := by
  have heq := updateTerraformState_eq_applyWrites N o d r
  have hnd := attemptedWrites_keys_nodup N ho r
  have hsite : ∀ v, ("site", v) ∈ attemptedWrites N o r ↔
      (r.General.Site.ID ≠ -1 ∧ v = Value.blocks [[("id", Leaf.int r.General.Site.ID)]]) := by
    intro v
    constructor
    · intro h
      obtain ⟨bs, rfl⟩ := attemptedWrites_mem_key N o r "site" v h (Or.inl rfl)
      rcases (attemptedWrites_mem_blocks N o r "site" bs).mp h with ⟨h1, _, h3⟩ | ⟨_, h2, _⟩
      · exact ⟨h1, by rw [h3]⟩
      · exact absurd h2 (by decide)
    · rintro ⟨h1, rfl⟩
      exact (attemptedWrites_mem_blocks N o r "site" _).mpr (Or.inl ⟨h1, rfl, rfl⟩)
  have hcat : ∀ v, ("category", v) ∈ attemptedWrites N o r ↔
      (r.General.Category.ID ≠ -1 ∧
        v = Value.blocks [[("id", Leaf.int r.General.Category.ID)]]) := by
    intro v
    constructor
    · intro h
      obtain ⟨bs, rfl⟩ := attemptedWrites_mem_key N o r "category" v h (Or.inr rfl)
      rcases (attemptedWrites_mem_blocks N o r "category" bs).mp h with ⟨_, h2, _⟩ | ⟨h1, _, h3⟩
      · exact absurd h2 (by decide)
      · exact ⟨h1, by rw [h3]⟩
    · rintro ⟨h1, rfl⟩
      exact (attemptedWrites_mem_blocks N o r "category" _).mpr (Or.inr ⟨h1, rfl, rfl⟩)
  refine ⟨⟨hsite, ?_, ?_⟩, ⟨hcat, ?_, ?_⟩⟩
  · intro hs
    rw [heq, applyWrites_attrs_untouched]
    intro v hv
    exact absurd hs ((hsite v).mp hv).1
  · intro hs hacc
    rw [heq]
    exact applyWrites_attrs_written _ _ hnd "site" _ ((hsite _).mpr ⟨hs, rfl⟩) hacc
  · intro hc
    rw [heq, applyWrites_attrs_untouched]
    intro v hv
    exact absurd hc ((hcat v).mp hv).1
  · intro hc hacc
    rw [heq]
    exact applyWrites_attrs_written _ _ hnd "category" _ ((hcat _).mpr ⟨hc, rfl⟩) hacc

/-- C20 at a concrete input: the sample profile has `Site.ID = -1` and
`Category.ID = 4`; `site` is left unset and `category` becomes the list with the
map of ID 4. -/
theorem site_and_category_written_when_set_witness :
    (resourceDataKeys.Perm resourceDataKeys ∧ sampleProfile.General.Site.ID = -1 ∧
      sampleProfile.General.Category.ID ≠ -1) ∧
    (updateTerraformState id resourceDataKeys sampleState sampleProfile).1.attrs "site"
      = sampleState.attrs "site" ∧
    (updateTerraformState id resourceDataKeys sampleState sampleProfile).1.attrs "category"
      = some (Value.blocks [[("id", Leaf.int sampleProfile.General.Category.ID)]]) :=
  ⟨⟨List.Perm.refl _, rfl, by decide⟩,
   (site_and_category_written_when_set id resourceDataKeys sampleState sampleProfile
      (List.Perm.refl _)).1.2.1 rfl,
   (site_and_category_written_when_set id resourceDataKeys sampleState sampleProfile
      (List.Perm.refl _)).2.2.2 (by decide) rfl⟩

/-! ## C21: the `level` attribute -/

/-- The writes attempted by `updateTerraformState`, one by one. -/
theorem attemptedWrites_mem (N : String → String) (o : List String)
    (r : ResourceMobileDeviceConfigurationProfile) (k : String) (v : Value) :
    (k, v) ∈ attemptedWrites N o r ↔
      (r.General.Site.ID ≠ -1 ∧ k = "site" ∧
        v = Value.blocks [[("id", Leaf.int r.General.Site.ID)]]) ∨
      (k = "payloads" ∧ v = Value.leaf (Leaf.str (N r.General.Payloads))) ∨
      (r.General.Category.ID ≠ -1 ∧ k = "category" ∧
        v = Value.blocks [[("id", Leaf.int r.General.Category.ID)]]) ∨
      (∃ m, setScope r = Except.ok m ∧ k = "scope" ∧ v = Value.scope [m]) ∨
      (k ∈ o ∧ ∃ l, mapGet (resourceData r) k = some l ∧ v = Value.leaf l) := by
  obtain ⟨m, hm⟩ := setScope_ok r
  unfold attemptedWrites
  rw [hm]
  simp only [List.mem_append, List.mem_filterMap, Option.map_eq_some', List.mem_singleton,
    Prod.mk.injEq, Except.ok.injEq]
  constructor
  · rintro ((((h | h) | h) | h) | h)
    · split at h
      · simp only [List.mem_singleton, Prod.mk.injEq] at h
        rename_i hs
        exact Or.inl ⟨hs, h.1, h.2⟩
      · cases h
    · exact Or.inr (Or.inl h)
    · split at h
      · simp only [List.mem_singleton, Prod.mk.injEq] at h
        rename_i hc
        exact Or.inr (Or.inr (Or.inl ⟨hc, h.1, h.2⟩))
      · cases h
    · exact Or.inr (Or.inr (Or.inr (Or.inl ⟨m, rfl, h.1, h.2⟩)))
    · obtain ⟨k', hk', l, hl, h1, h2⟩ := h
      subst h1
      exact Or.inr (Or.inr (Or.inr (Or.inr ⟨hk', l, hl, h2.symm⟩)))
  · rintro (⟨hs, h1, h2⟩ | h | ⟨hc, h1, h2⟩ | ⟨m', hm', h1, h2⟩ | ⟨hk, l, hl, h2⟩)
    · exact Or.inl (Or.inl (Or.inl (Or.inl (by rw [if_pos hs]; simp [h1, h2]))))
    · exact Or.inl (Or.inl (Or.inl (Or.inr h)))
    · exact Or.inl (Or.inl (Or.inr (by rw [if_pos hc]; simp [h1, h2])))
    · subst hm'
      exact Or.inl (Or.inr ⟨h1, h2⟩)
    · exact Or.inr ⟨k, hk, l, hl, rfl, h2.symm⟩

theorem resourceData_level (r : ResourceMobileDeviceConfigurationProfile) :
    mapGet (resourceData r) "level"
      = some (Leaf.str (if r.General.Level = "System" then "Device Level" else r.General.Level)) := by
  simp [resourceData, mapSet, mapGet]

/-- C21: `updateTerraformState` makes exactly one write to the attribute `level`,
and the value written is `"Device Level"` when the remote `General.Level` is
exactly `"System"` and the remote value itself for every other string; when the
schema accepts the write it is the `level` of the state afterwards. -/
theorem level_written (N : String → String) (o : List String) (d : ResourceData)
    (r : ResourceMobileDeviceConfigurationProfile) (ho : o.Perm resourceDataKeys) :
    (∀ v, ("level", v) ∈ attemptedWrites N o r ↔
      v = Value.leaf (Leaf.str
        (if r.General.Level = "System" then "Device Level" else r.General.Level))) ∧
    (r.General.Level = "System" →
      ("level", Value.leaf (Leaf.str "Device Level")) ∈ attemptedWrites N o r ∧
      (d.setErr "level" (Value.leaf (Leaf.str "Device Level")) = none →
        (updateTerraformState N o d r).1.attrs "level"
          = some (Value.leaf (Leaf.str "Device Level")))) ∧
    (r.General.Level ≠ "System" →
      ("level", Value.leaf (Leaf.str r.General.Level)) ∈ attemptedWrites N o r ∧
      (d.setErr "level" (Value.leaf (Leaf.str r.General.Level)) = none →
        (updateTerraformState N o d r).1.attrs "level"
          = some (Value.leaf (Leaf.str r.General.Level)))) := by
  have heq := updateTerraformState_eq_applyWrites N o d r
  have hnd := attemptedWrites_keys_nodup N ho r
  have hmemo : "level" ∈ o := ho.mem_iff.mpr (by simp [resourceDataKeys])
  have hlevel : ∀ v, ("level", v) ∈ attemptedWrites N o r ↔
      v = Value.leaf (Leaf.str
        (if r.General.Level = "System" then "Device Level" else r.General.Level)) := by
    intro v
    rw [attemptedWrites_mem]
    constructor
    · rintro (⟨_, h, _⟩ | ⟨h, _⟩ | ⟨_, h, _⟩ | ⟨_, _, h, _⟩ | ⟨_, l, hl, hv⟩)
      · exact absurd h (by decide)
      · exact absurd h (by decide)
      · exact absurd h (by decide)
      · exact absurd h (by decide)
      · rw [resourceData_level] at hl
        cases hl
        exact hv
    · intro hv
      exact Or.inr (Or.inr (Or.inr (Or.inr ⟨hmemo, _, resourceData_level r, hv⟩)))
  refine ⟨hlevel, ?_, ?_⟩
  · intro hsys
    have hmem : ("level", Value.leaf (Leaf.str "Device Level")) ∈ attemptedWrites N o r :=
      (hlevel _).mpr (by rw [if_pos hsys])
    exact ⟨hmem, fun hacc => by
      rw [heq]
      exact applyWrites_attrs_written _ _ hnd "level" _ hmem hacc⟩
  · intro hsys
    have hmem : ("level", Value.leaf (Leaf.str r.General.Level)) ∈ attemptedWrites N o r :=
      (hlevel _).mpr (by rw [if_neg hsys])
    exact ⟨hmem, fun hacc => by
      rw [heq]
      exact applyWrites_attrs_written _ _ hnd "level" _ hmem hacc⟩

/-- C21 at a concrete input: the sample profile has the remote level `System`; the
state afterwards holds `Device Level`. -/
theorem level_written_witness :
    (resourceDataKeys.Perm resourceDataKeys ∧ sampleProfile.General.Level = "System") ∧
    (updateTerraformState id resourceDataKeys sampleState sampleProfile).1.attrs "level"
      = some (Value.leaf (Leaf.str "Device Level")) :=
  ⟨⟨List.Perm.refl _, rfl⟩,
   ((level_written id resourceDataKeys sampleState sampleProfile (List.Perm.refl _)).2.1 rfl).2
      rfl⟩

/-! ## C22: the guarded upload of the package Update -/

/-- After the guarded upload block, the package Update computes no hash and
uploads nothing. -/
theorem packagesUpdate_trace_after_block {σ : Type} (env : Env σ) (conn : Client σ)
    (state : String → Option Value) (d : ResourceData) (w : World σ) (n : Int)
    (hid : Atoi d.id = Except.ok n) :
    ∃ rest, (ResourceJamfProPackagesUpdate env (some conn) state d w).2.1.trace
        = (packagesUploadIfChanged env conn state d w).2.1.trace ++ rest ∧
      ∀ ev ∈ rest, ev.isHash = false ∧ ev.isUpload = false := by
  obtain ⟨d₁, w₁, od, hp⟩ :
      ∃ d₁ w₁ od, packagesUploadIfChanged env conn state d w = (d₁, w₁, od) := ⟨_, _, _, rfl⟩
  rw [hp]
  cases od with
  | some e => exact ⟨[], by simp [ResourceJamfProPackagesUpdate, hid, hp], by simp⟩
  | none =>
    cases hc : env.construct d₁ with
    | error err =>
      exact ⟨[Event.construct], by simp [ResourceJamfProPackagesUpdate, hid, hp, hc, World.log],
        by simp [Event.isHash, Event.isUpload]⟩
    | ok resource =>
      rcases hu : conn.UpdateByID w₁.remote n resource with ⟨r, _ | err⟩
      · obtain ⟨t, ht, hsteps⟩ := resourceRead_trace_steps
          "error asserting meta as *client.APIClient" env (some conn) d₁
          (World.mk r (w₁.trace ++ [Event.construct, Event.remoteUpdateByID n]))
        refine ⟨[Event.construct, Event.remoteUpdateByID n] ++ t, ?_, ?_⟩
        · unfold ResourceJamfProPackagesUpdate
          simp only [hid, hp, hc, World.log, hu, List.append_assoc, List.singleton_append,
            List.nil_append]
          split <;> simpa [ResourceJamfProPackagesRead] using ht
        · intro ev hev
          simp only [List.mem_append, List.mem_cons, List.mem_singleton, List.not_mem_nil,
            or_false] at hev
          rcases hev with (rfl | rfl) | hev
          · simp [Event.isHash, Event.isUpload]
          · simp [Event.isHash, Event.isUpload]
          · have h := hsteps ev hev
            cases ev <;> simp_all [Event.isReadStep, Event.isHash, Event.isUpload]
      · exact ⟨[Event.construct, Event.remoteUpdateByID n],
          by simp [ResourceJamfProPackagesUpdate, hid, hp, hc, hu, World.log],
          by simp [Event.isHash, Event.isUpload]⟩

theorem packagesUploadIfChanged_unchanged {σ : Type} (env : Env σ) (conn : Client σ)
    (state : String → Option Value) (d : ResourceData) (w : World σ)
    (hch : d.HasChange state "package_file_path" = false) :
    packagesUploadIfChanged env conn state d w = (d, w, none) := by
  unfold packagesUploadIfChanged
  simp [hch]

theorem packagesUploadIfChanged_same_hash {σ : Type} (env : Env σ) (conn : Client σ)
    (state : String → Option Value) (d : ResourceData) (w : World σ) (h : String)
    (hch : d.HasChange state "package_file_path" = true)
    (hh : env.generateMD5FileHash (d.GetString "package_file_path") = Except.ok h)
    (heq : h = GetChangeOld state "md5_file_hash") :
    packagesUploadIfChanged env conn state d w
      = (d, w.log (Event.generateHash (d.GetString "package_file_path")), none) := by
  unfold packagesUploadIfChanged
  simp [hch, hh, heq]

theorem packagesUploadIfChanged_upload_ok {σ : Type} (env : Env σ) (conn : Client σ)
    (state : String → Option Value) (d : ResourceData) (w : World σ) (h uri : String) (r : σ)
    (hch : d.HasChange state "package_file_path" = true)
    (hh : env.generateMD5FileHash (d.GetString "package_file_path") = Except.ok h)
    (hne : h ≠ GetChangeOld state "md5_file_hash")
    (hup : conn.CreateJCDS2PackageV2 w.remote (d.GetString "package_file_path")
      = (r, Except.ok uri)) :
    packagesUploadIfChanged env conn state d w
      = ((((d.Set "package_uri" (Value.leaf (Leaf.str uri))).1.Set "md5_file_hash"
            (Value.leaf (Leaf.str h))).1.Set "filename"
            (Value.leaf (Leaf.str (filepathBase (d.GetString "package_file_path"))))).1,
          World.mk r (w.trace ++ [Event.generateHash (d.GetString "package_file_path"),
            Event.remoteUpload (d.GetString "package_file_path")]),
          none) := by
  unfold packagesUploadIfChanged
  simp [hch, hh, hne, hup, World.log]

theorem packagesUploadIfChanged_upload_error {σ : Type} (env : Env σ) (conn : Client σ)
    (state : String → Option Value) (d : ResourceData) (w : World σ) (h err : String) (r : σ)
    (hch : d.HasChange state "package_file_path" = true)
    (hh : env.generateMD5FileHash (d.GetString "package_file_path") = Except.ok h)
    (hne : h ≠ GetChangeOld state "md5_file_hash")
    (hup : conn.CreateJCDS2PackageV2 w.remote (d.GetString "package_file_path")
      = (r, Except.error err)) :
    (packagesUploadIfChanged env conn state d w).1 = d ∧
    (packagesUploadIfChanged env conn state d w).2.1.trace
      = w.trace ++ [Event.generateHash (d.GetString "package_file_path"),
          Event.remoteUpload (d.GetString "package_file_path")] ∧
    ∃ diags, (packagesUploadIfChanged env conn state d w).2.2 = some diags ∧
      HasError diags = true := by
  unfold packagesUploadIfChanged
  simp [hch, hh, hne, hup, World.log, hasError_diagFromErr]

theorem three_sets_attrs (d : ResourceData) (a b c : Value)
    (ha : d.setErr "package_uri" a = none) (hb : d.setErr "md5_file_hash" b = none)
    (hc : d.setErr "filename" c = none) :
    (((d.Set "package_uri" a).1.Set "md5_file_hash" b).1.Set "filename" c).1.attrs "package_uri"
      = some a ∧
    (((d.Set "package_uri" a).1.Set "md5_file_hash" b).1.Set "filename" c).1.attrs "md5_file_hash"
      = some b ∧
    (((d.Set "package_uri" a).1.Set "md5_file_hash" b).1.Set "filename" c).1.attrs "filename"
      = some c := by
  simp [ResourceData.Set, ha, hb, hc]

/-- C22: the package Update on a well-formed ID.  When `package_file_path` has no
change, the guarded block returns the state and the world as they were and the
whole Update computes no hash and uploads nothing.  When it has changed and the
new hash equals the previous `md5_file_hash`, the hash is computed once, nothing
is uploaded and the state leaves the block unchanged.  When the hash differs and
the upload succeeds, the hash is computed once, the file is uploaded once, and the
state that leaves the block is the result of the three writes of `package_uri`,
`md5_file_hash` and `filename`, which hold the upload URI, the new hash and the
base name of the path when the schema accepts them; a failed upload is attempted
once, ends in an error and leaves the state unchanged. -/
theorem upload_only_when_file_changed {σ : Type} (env : Env σ) (conn : Client σ)
    (state : String → Option Value) (d : ResourceData) (w : World σ) (n : Int)
    (hid : Atoi d.id = Except.ok n) :
    (d.HasChange state "package_file_path" = false →
      packagesUploadIfChanged env conn state d w = (d, w, none) ∧
      ∃ rest, (ResourceJamfProPackagesUpdate env (some conn) state d w).2.1.trace
          = w.trace ++ rest ∧
        ∀ ev ∈ rest, ev.isHash = false ∧ ev.isUpload = false) ∧
    (∀ h, d.HasChange state "package_file_path" = true →
      env.generateMD5FileHash (d.GetString "package_file_path") = Except.ok h →
      h = GetChangeOld state "md5_file_hash" →
      (packagesUploadIfChanged env conn state d w).1 = d ∧
      (packagesUploadIfChanged env conn state d w).2.2 = none ∧
      ∃ rest, (ResourceJamfProPackagesUpdate env (some conn) state d w).2.1.trace
          = w.trace ++ Event.generateHash (d.GetString "package_file_path") :: rest ∧
        ∀ ev ∈ rest, ev.isHash = false ∧ ev.isUpload = false) ∧
    (∀ h r uri, d.HasChange state "package_file_path" = true →
      env.generateMD5FileHash (d.GetString "package_file_path") = Except.ok h →
      h ≠ GetChangeOld state "md5_file_hash" →
      conn.CreateJCDS2PackageV2 w.remote (d.GetString "package_file_path")
        = (r, Except.ok uri) →
      (packagesUploadIfChanged env conn state d w).1
        = (((d.Set "package_uri" (Value.leaf (Leaf.str uri))).1.Set "md5_file_hash"
            (Value.leaf (Leaf.str h))).1.Set "filename"
            (Value.leaf (Leaf.str (filepathBase (d.GetString "package_file_path"))))).1 ∧
      (packagesUploadIfChanged env conn state d w).2.2 = none ∧
      (∃ rest, (ResourceJamfProPackagesUpdate env (some conn) state d w).2.1.trace
          = w.trace ++ [Event.generateHash (d.GetString "package_file_path"),
              Event.remoteUpload (d.GetString "package_file_path")] ++ rest ∧
        ∀ ev ∈ rest, ev.isHash = false ∧ ev.isUpload = false) ∧
      (d.setErr "package_uri" (Value.leaf (Leaf.str uri)) = none →
        d.setErr "md5_file_hash" (Value.leaf (Leaf.str h)) = none →
        d.setErr "filename"
          (Value.leaf (Leaf.str (filepathBase (d.GetString "package_file_path")))) = none →
        (packagesUploadIfChanged env conn state d w).1.attrs "package_uri"
          = some (Value.leaf (Leaf.str uri)) ∧
        (packagesUploadIfChanged env conn state d w).1.attrs "md5_file_hash"
          = some (Value.leaf (Leaf.str h)) ∧
        (packagesUploadIfChanged env conn state d w).1.attrs "filename"
          = some (Value.leaf (Leaf.str (filepathBase (d.GetString "package_file_path")))))) ∧
    (∀ h r err, d.HasChange state "package_file_path" = true →
      env.generateMD5FileHash (d.GetString "package_file_path") = Except.ok h →
      h ≠ GetChangeOld state "md5_file_hash" →
      conn.CreateJCDS2PackageV2 w.remote (d.GetString "package_file_path")
        = (r, Except.error err) →
      (ResourceJamfProPackagesUpdate env (some conn) state d w).1 = d ∧
      HasError (ResourceJamfProPackagesUpdate env (some conn) state d w).2.2 = true ∧
      (ResourceJamfProPackagesUpdate env (some conn) state d w).2.1.trace
        = w.trace ++ [Event.generateHash (d.GetString "package_file_path"),
            Event.remoteUpload (d.GetString "package_file_path")]) := by
  obtain ⟨rest, hrest, hsteps⟩ := packagesUpdate_trace_after_block env conn state d w n hid
  refine ⟨?_, ?_, ?_, ?_⟩
  · intro hch
    have hp := packagesUploadIfChanged_unchanged env conn state d w hch
    rw [hp] at hrest
    exact ⟨hp, rest, hrest, hsteps⟩
  · intro h hch hh heq
    have hp := packagesUploadIfChanged_same_hash env conn state d w h hch hh heq
    rw [hp] at hrest
    rw [hp]
    exact ⟨rfl, rfl, rest, by simpa [World.log] using hrest, hsteps⟩
  · intro h r uri hch hh hne hup
    have hp := packagesUploadIfChanged_upload_ok env conn state d w h uri r hch hh hne hup
    rw [hp] at hrest
    rw [hp]
    exact ⟨rfl, rfl, ⟨rest, by simpa using hrest, hsteps⟩, three_sets_attrs d _ _ _⟩
  · intro h r err hch hh hne hup
    unfold ResourceJamfProPackagesUpdate
    unfold packagesUploadIfChanged
    simp [hid, hch, hh, hne, hup, World.log, hasError_diagFromErr]

/-- C22 at a concrete input: the stored package has ID `12` and a path that the
prior state did not have; the hash differs from the stored one, so the file is
uploaded and the three attributes are written. -/
theorem upload_only_when_file_changed_witness :
    Atoi sampleResourceData.id = Except.ok 12 ∧
    ((packagesUploadIfChanged (sampleEnv false) (countingClient 0 0) (fun _ => none)
        sampleResourceData sampleWorld).1.attrs "package_uri"
      = some (Value.leaf (Leaf.str "jcds:///tmp/a.pkg")) ∧
    (packagesUploadIfChanged (sampleEnv false) (countingClient 0 0) (fun _ => none)
        sampleResourceData sampleWorld).1.attrs "md5_file_hash"
      = some (Value.leaf (Leaf.str "9e107d9d372bb6826bd81d3542a419d6")) ∧
    (packagesUploadIfChanged (sampleEnv false) (countingClient 0 0) (fun _ => none)
        sampleResourceData sampleWorld).1.attrs "filename"
      = some (Value.leaf (Leaf.str
          (filepathBase (sampleResourceData.GetString "package_file_path"))))) ∧
    filepathBase (sampleResourceData.GetString "package_file_path") = "a.pkg" :=
  ⟨rfl,
   ((upload_only_when_file_changed (sampleEnv false) (countingClient 0 0) (fun _ => none)
      sampleResourceData sampleWorld 12 rfl).2.2.1
      "9e107d9d372bb6826bd81d3542a419d6" 1 "jcds:///tmp/a.pkg" (by decide) rfl (by decide)
      rfl).2.2.2 rfl rfl rfl,
   by decide⟩

/-! ## C23: the `category` validator -/

theorem utf8ByteSize_ne_zero (v : String) (hv : v ≠ "") : v.utf8ByteSize ≠ 0 := by
  obtain ⟨cs⟩ := v
  cases cs with
  | nil => exact absurd rfl hv
  | cons c cs =>
    have hc := Char.utf8Size_pos c
    simp only [String.utf8ByteSize, String.utf8ByteSize.go]
    omega

theorem categoryUnknownError_ne_empty (key : String) :
    categoryUnknownError key ≠ categoryEmptyError key := by
  intro h
  have h' := congrArg String.length h
  simp only [categoryUnknownError, categoryEmptyError, String.length_append,
    add_right_inj] at h'
  exact absurd h' (by decide)

theorem categoryUnknownError_ne_notString (key : String) (val : Leaf) :
    categoryUnknownError key ≠ categoryNotStringError key val := by
  intro h
  have h' := congrArg String.data h
  simp only [categoryUnknownError, categoryNotStringError, String.data_append,
    List.append_assoc, List.append_cancel_left_eq] at h'
  cases val <;> simp [goTypeName] at h'

/-- C23: the `category` validator of the package resource never returns a
warning; for a value that is not a string it returns exactly one error, the
"must be a string" error; for the empty string exactly one error, the "must not
be empty" error; for every non-empty string, `"Unknown"` included, no error; and
the error of the third branch, "must be Unknown or a non-empty string", is in the
result for no input. -/
theorem categoryValidateFunc_outcomes (val : Leaf) (key : String) :
    (categoryValidateFunc val key).1 = [] ∧
    ((∀ s, val ≠ Leaf.str s) →
      (categoryValidateFunc val key).2 = [categoryNotStringError key val]) ∧
    (val = Leaf.str "" → (categoryValidateFunc val key).2 = [categoryEmptyError key]) ∧
    (∀ s, val = Leaf.str s → s ≠ "" → (categoryValidateFunc val key).2 = []) ∧
    (categoryValidateFunc (Leaf.str "Unknown") key).2 = [] ∧
    categoryUnknownError key ∉ (categoryValidateFunc val key).2 := by
  have hstr : ∀ s, s ≠ "" → categoryValidateFunc (Leaf.str s) key = ([], []) := by
    intro s hs
    simp [categoryValidateFunc, hs, utf8ByteSize_ne_zero s hs]
  have hempty : categoryValidateFunc (Leaf.str "") key = ([], [categoryEmptyError key]) := by
    simp [categoryValidateFunc]
  refine ⟨?_, ?_, ?_, ?_, ?_, ?_⟩
  · cases val with
    | str s =>
      by_cases hs : s = ""
      · rw [hs, hempty]
      · rw [hstr s hs]
    | _ => rfl
  · intro hns
    cases val with
    | str s => exact absurd rfl (hns s)
    | _ => rfl
  · intro hv
    rw [hv, hempty]
  · intro s hv hs
    rw [hv, hstr s hs]
  · rw [hstr "Unknown" (by decide)]
  · cases val with
    | str s =>
      by_cases hs : s = ""
      · rw [hs, hempty]
        simpa using categoryUnknownError_ne_empty key
      · rw [hstr s hs]
        simp
    | int n =>
      simpa [categoryValidateFunc] using categoryUnknownError_ne_notString key (Leaf.int n)
    | bool b =>
      simpa [categoryValidateFunc] using categoryUnknownError_ne_notString key (Leaf.bool b)
    | ints l =>
      simpa [categoryValidateFunc] using categoryUnknownError_ne_notString key (Leaf.ints l)
    | strs l =>
      simpa [categoryValidateFunc] using categoryUnknownError_ne_notString key (Leaf.strs l)

/-- C23 at concrete inputs: an integer, the empty string and a category name. -/
theorem categoryValidateFunc_outcomes_witness :
    (categoryValidateFunc (Leaf.int 3) "category").2
      = ["\"category\" must be a string, got: int"] ∧
    (categoryValidateFunc (Leaf.str "") "category").2 = [categoryEmptyError "category"] ∧
    (categoryValidateFunc (Leaf.str "Apps") "category").2 = [] :=
  ⟨(categoryValidateFunc_outcomes (Leaf.int 3) "category").2.1 (fun _ h => Leaf.noConfusion h),
   (categoryValidateFunc_outcomes (Leaf.str "") "category").2.2.1 rfl,
   (categoryValidateFunc_outcomes (Leaf.str "Apps") "category").2.2.2.1 "Apps" rfl (by decide)⟩

/-! ## C24: a malformed ID -/

theorem resourceRead_malformed {σ : Type} (assertMsg : String) (env : Env σ)
    (clientOfMeta : Option (Client σ)) (d : ResourceData) (w : World σ) (e : String)
    (h : Atoi d.id = Except.error e) :
    FailsWithoutRemoteCall d w (resourceRead assertMsg env clientOfMeta d w) := by
  unfold FailsWithoutRemoteCall resourceRead
  cases clientOfMeta with
  | none =>
    exact ⟨rfl, hasError_diagErrorf _, rfl, [Event.read], rfl, by simp [Event.isRemote]⟩
  | some client =>
    simp only [h]
    refine ⟨trivial, hasError_diagFromErr _, rfl, [Event.read], rfl, by simp [Event.isRemote]⟩

theorem resourceDelete_malformed {σ : Type} (assertMsg failMsg : String) (env : Env σ)
    (clientOfMeta : Option (Client σ)) (d : ResourceData) (w : World σ) (e : String)
    (h : Atoi d.id = Except.error e) :
    FailsWithoutRemoteCall d w (resourceDelete assertMsg failMsg env clientOfMeta d w) := by
  unfold FailsWithoutRemoteCall resourceDelete
  cases clientOfMeta with
  | none => exact ⟨rfl, hasError_diagErrorf _, rfl, [], by simp, by simp⟩
  | some client =>
    simp only [h]
    refine ⟨trivial, hasError_diagFromErr _, trivial, [], by simp, by simp⟩

theorem fileShareUpdate_malformed {σ : Type} (env : Env σ)
    (clientOfMeta : Option (Client σ)) (d : ResourceData) (w : World σ) (e : String)
    (h : Atoi d.id = Except.error e) :
    FailsWithoutRemoteCall d w
      (ResourceJamfProFileShareDistributionPointsUpdate env clientOfMeta d w) := by
  unfold FailsWithoutRemoteCall ResourceJamfProFileShareDistributionPointsUpdate
  cases clientOfMeta with
  | none => exact ⟨rfl, hasError_diagErrorf _, rfl, [], by simp, by simp⟩
  | some client =>
    simp only [h]
    refine ⟨trivial, hasError_diagFromErr _, trivial, [], by simp, by simp⟩

theorem packagesUpdate_malformed {σ : Type} (env : Env σ)
    (clientOfMeta : Option (Client σ)) (state : String → Option Value) (d : ResourceData)
    (w : World σ) (e : String) (h : Atoi d.id = Except.error e) :
    FailsWithoutRemoteCall d w (ResourceJamfProPackagesUpdate env clientOfMeta state d w) := by
  unfold FailsWithoutRemoteCall ResourceJamfProPackagesUpdate
  cases clientOfMeta with
  | none => exact ⟨rfl, hasError_diagErrorf _, rfl, [], by simp, by simp⟩
  | some client =>
    simp only [h]
    refine ⟨trivial, hasError_diagFromErr _, trivial, [], by simp, by simp⟩

/-- C24: when `strconv.Atoi` rejects the resource ID, Read, Update and Delete of
the file share distribution point and of the package return an error diagnostic,
leave the state with its ID as it was, leave the remote system untouched and log
no remote call; and `checkResourceExists` returns an error and the remote system
as it was, without the fetch by ID. -/
theorem malformed_id_fails_without_remote_call {σ : Type} (env : Env σ)
    (clientOfMeta : Option (Client σ)) (client : Client σ) (state : String → Option Value)
    (d : ResourceData) (w : World σ) (e : String) (h : Atoi d.id = Except.error e) :
    FailsWithoutRemoteCall d w
      (ResourceJamfProFileShareDistributionPointsRead env clientOfMeta d w) ∧
    FailsWithoutRemoteCall d w
      (ResourceJamfProFileShareDistributionPointsUpdate env clientOfMeta d w) ∧
    FailsWithoutRemoteCall d w
      (ResourceJamfProFileShareDistributionPointsDelete env clientOfMeta d w) ∧
    FailsWithoutRemoteCall d w (ResourceJamfProPackagesRead env clientOfMeta d w) ∧
    FailsWithoutRemoteCall d w (ResourceJamfProPackagesUpdate env clientOfMeta state d w) ∧
    FailsWithoutRemoteCall d w (ResourceJamfProPackagesDelete env clientOfMeta d w) ∧
    ∀ s, ∃ msg, checkResourceExists client d.id s = (s, Except.error msg) :=
  ⟨resourceRead_malformed _ env clientOfMeta d w e h,
   fileShareUpdate_malformed env clientOfMeta d w e h,
   resourceDelete_malformed _ _ env clientOfMeta d w e h,
   resourceRead_malformed _ env clientOfMeta d w e h,
   packagesUpdate_malformed env clientOfMeta state d w e h,
   resourceDelete_malformed _ _ env clientOfMeta d w e h,
   fun s => ⟨_, checkResourceExists_malformed client d.id e s h⟩⟩

/-- C24 at a concrete input: the stored ID is `abc`, and the package Update returns
the state and the remote counter as they were. -/
theorem malformed_id_fails_without_remote_call_witness :
    Atoi sampleResourceDataBadId.id
      = Except.error "strconv.Atoi: parsing \"abc\": invalid syntax" ∧
    FailsWithoutRemoteCall sampleResourceDataBadId sampleWorld
      (ResourceJamfProPackagesUpdate (sampleEnv false) (some (countingClient 0 0))
        (fun _ => none) sampleResourceDataBadId sampleWorld) :=
  ⟨rfl,
   (malformed_id_fails_without_remote_call (sampleEnv false) (some (countingClient 0 0))
      (countingClient 0 0) (fun _ => none) sampleResourceDataBadId sampleWorld
      "strconv.Atoi: parsing \"abc\": invalid syntax" rfl).2.2.2.2.1⟩

/-! ## C25: the flattened lists as multisets -/

theorem sortInts_collectIds_spec {α : Type} (getID : α → Int) (xs : List α) :
    (sortInts (collectIds getID xs)).Perm
      ((xs.map getID).filter (fun n => decide (n ≠ 0))) ∧
    (∀ n, (sortInts (collectIds getID xs)).count n
      = if n = 0 then 0 else (xs.map getID).count n) ∧
    (0 : Int) ∉ sortInts (collectIds getID xs) ∧
    (sortInts (collectIds getID xs)).length ≤ xs.length := by
  have hp : (sortInts (collectIds getID xs)).Perm
      ((xs.map getID).filter (fun n => decide (n ≠ 0))) := by
    rw [← collectIds_eq]
    exact sortInts_perm _
  refine ⟨hp, ?_, ?_, ?_⟩
  · intro n
    rw [hp.count_eq]
    by_cases hn : n = 0
    · rw [if_pos hn]
      exact List.count_eq_zero.mpr (fun hmem => by simp [List.mem_filter, hn] at hmem)
    · rw [if_neg hn]
      exact List.count_filter (by simpa using hn)
  · intro hmem
    have := hp.mem_iff.mp hmem
    simp [List.mem_filter] at this
  · rw [hp.length_eq]
    exact (List.length_filter_le _ _).trans (by simp)

theorem sortStrings_collectNames_spec (xs : List ScopeEntity) :
    (sortStrings (collectNames xs)).Perm
      ((xs.map ScopeEntity.Name).filter (fun n => decide (n ≠ ""))) ∧
    (∀ n, (sortStrings (collectNames xs)).count n
      = if n = "" then 0 else (xs.map ScopeEntity.Name).count n) ∧
    "" ∉ sortStrings (collectNames xs) ∧
    (sortStrings (collectNames xs)).length ≤ xs.length := by
  have hp : (sortStrings (collectNames xs)).Perm
      ((xs.map ScopeEntity.Name).filter (fun n => decide (n ≠ ""))) := by
    rw [← collectNames_eq]
    exact sortStrings_perm _
  refine ⟨hp, ?_, ?_, ?_⟩
  · intro n
    rw [hp.count_eq]
    by_cases hn : n = ""
    · rw [if_pos hn]
      exact List.count_eq_zero.mpr (fun hmem => by simp [List.mem_filter, hn] at hmem)
    · rw [if_neg hn]
      exact List.count_filter (by simpa using hn)
  · intro hmem
    have := hp.mem_iff.mp hmem
    simp [List.mem_filter] at this
  · rw [hp.length_eq]
    exact (List.length_filter_le _ _).trans (by simp)

/-- C25: for every input, the output of `flattenAndSortScopeEntityIds`, of
`flattenAndSortMobileDeviceIDs` and of `flattenAndSortNetworkSegmentIds` is a
permutation of the IDs of the input with the zero IDs removed: every non-zero ID
occurs in the output as many times as in the input, 0 does not occur, and the
output is no longer than the input; `flattenAndSortScopeEntityNames` does the
same for the names with the empty name removed. -/
theorem flattenAndSort_multiset (entities : List ScopeEntity) (devices : List MobileDevice)
    (segments : List NetworkSegment) :
    ((flattenAndSortScopeEntityIds entities).Perm
        ((entities.map ScopeEntity.ID).filter (fun n => decide (n ≠ 0))) ∧
      (∀ n, (flattenAndSortScopeEntityIds entities).count n
        = if n = 0 then 0 else (entities.map ScopeEntity.ID).count n) ∧
      (0 : Int) ∉ flattenAndSortScopeEntityIds entities ∧
      (flattenAndSortScopeEntityIds entities).length ≤ entities.length) ∧
    ((flattenAndSortMobileDeviceIDs devices).Perm
        ((devices.map MobileDevice.ID).filter (fun n => decide (n ≠ 0))) ∧
      (∀ n, (flattenAndSortMobileDeviceIDs devices).count n
        = if n = 0 then 0 else (devices.map MobileDevice.ID).count n) ∧
      (0 : Int) ∉ flattenAndSortMobileDeviceIDs devices ∧
      (flattenAndSortMobileDeviceIDs devices).length ≤ devices.length) ∧
    ((flattenAndSortNetworkSegmentIds segments).Perm
        ((segments.map NetworkSegment.ID).filter (fun n => decide (n ≠ 0))) ∧
      (∀ n, (flattenAndSortNetworkSegmentIds segments).count n
        = if n = 0 then 0 else (segments.map NetworkSegment.ID).count n) ∧
      (0 : Int) ∉ flattenAndSortNetworkSegmentIds segments ∧
      (flattenAndSortNetworkSegmentIds segments).length ≤ segments.length) ∧
    ((flattenAndSortScopeEntityNames entities).Perm
        ((entities.map ScopeEntity.Name).filter (fun n => decide (n ≠ ""))) ∧
      (∀ n, (flattenAndSortScopeEntityNames entities).count n
        = if n = "" then 0 else (entities.map ScopeEntity.Name).count n) ∧
      "" ∉ flattenAndSortScopeEntityNames entities ∧
      (flattenAndSortScopeEntityNames entities).length ≤ entities.length) :=
  ⟨sortInts_collectIds_spec ScopeEntity.ID entities,
   sortInts_collectIds_spec MobileDevice.ID devices,
   sortInts_collectIds_spec NetworkSegment.ID segments,
   sortStrings_collectNames_spec entities⟩

/-! ## C26: when the limitation and exclusion blocks are returned -/

theorem mapSet_ne_nil {β : Type} (m : List (String × β)) (k : String) (v : β) :
    mapSet m k v ≠ [] := by
  cases m with
  | nil => simp [mapSet]
  | cons kv m =>
    obtain ⟨k', v'⟩ := kv
    by_cases h : k' = k <;> simp [mapSet, h]

theorem mem_mapSet {β : Type} (m : List (String × β)) (k : String) (v : β) (kv : String × β)
    (h : kv ∈ mapSet m k v) : kv = (k, v) ∨ kv ∈ m := by
  induction m with
  | nil => exact Or.inl (by simpa [mapSet] using h)
  | cons kv' m ih =>
    obtain ⟨k', v'⟩ := kv'
    by_cases hk : k' = k
    · simp only [mapSet, hk, if_true, List.mem_cons] at h
      rcases h with h | h
      · exact Or.inl h
      · exact Or.inr (List.mem_cons_of_mem _ h)
    · simp only [mapSet, hk, if_false, List.mem_cons] at h
      rcases h with h | h
      · exact Or.inr (h ▸ List.mem_cons_self _ _)
      · rcases ih h with h | h
        · exact Or.inl h
        · exact Or.inr (List.mem_cons_of_mem _ h)

theorem sortInts_eq_nil (l : List Int) : sortInts l = [] ↔ l = [] := by
  constructor
  · intro h
    have := (sortInts_perm l).length_eq
    rw [h] at this
    exact List.length_eq_zero.mp this.symm
  · intro h
    rw [h]
    rfl

theorem sortStrings_eq_nil (l : List String) : sortStrings l = [] ↔ l = [] := by
  constructor
  · intro h
    have := (sortStrings_perm l).length_eq
    rw [h] at this
    exact List.length_eq_zero.mp this.symm
  · intro h
    rw [h]
    rfl

theorem collectIds_eq_nil {α : Type} (getID : α → Int) (xs : List α) :
    collectIds getID xs = [] ↔ ∀ e ∈ xs, getID e = 0 := by
  rw [collectIds_eq]
  simp [List.filter_eq_nil_iff]

theorem collectNames_eq_nil (xs : List ScopeEntity) :
    collectNames xs = [] ↔ ∀ e ∈ xs, e.Name = "" := by
  rw [collectNames_eq]
  simp [List.filter_eq_nil_iff]

theorem putIds_eq_nil {α : Type} (getID : α → Int) (result : Block) (key : String)
    (xs : List α) :
    putIds result key xs.length (sortInts (collectIds getID xs)) = [] ↔
      result = [] ∧ ∀ e ∈ xs, getID e = 0 := by
  unfold putIds
  by_cases hz : ∀ e ∈ xs, getID e = 0
  · have h0 : sortInts (collectIds getID xs) = [] :=
      (sortInts_eq_nil _).mpr ((collectIds_eq_nil getID xs).mpr hz)
    simp only [h0, List.length_nil, lt_self_iff_false, if_false, ite_self]
    exact ⟨fun h => ⟨h, hz⟩, fun h => h.1⟩
  · have h0 : sortInts (collectIds getID xs) ≠ [] :=
      fun h => hz ((collectIds_eq_nil getID xs).mp ((sortInts_eq_nil _).mp h))
    have hx : xs ≠ [] := fun h => hz (by simp [h])
    have hl : 0 < (sortInts (collectIds getID xs)).length := List.length_pos.mpr h0
    have hn : 0 < xs.length := List.length_pos.mpr hx
    simp [hl, hn, hz, mapSet_ne_nil]

theorem putNames_eq_nil (result : Block) (key : String) (xs : List ScopeEntity) :
    putNames result key xs.length (sortStrings (collectNames xs)) = [] ↔
      result = [] ∧ ∀ e ∈ xs, e.Name = "" := by
  unfold putNames
  by_cases hz : ∀ e ∈ xs, e.Name = ""
  · have h0 : sortStrings (collectNames xs) = [] :=
      (sortStrings_eq_nil _).mpr ((collectNames_eq_nil xs).mpr hz)
    simp only [h0, List.length_nil, lt_self_iff_false, if_false, ite_self]
    exact ⟨fun h => ⟨h, hz⟩, fun h => h.1⟩
  · have h0 : sortStrings (collectNames xs) ≠ [] :=
      fun h => hz ((collectNames_eq_nil xs).mp ((sortStrings_eq_nil _).mp h))
    have hx : xs ≠ [] := fun h => hz (by simp [h])
    have hl : 0 < (sortStrings (collectNames xs)).length := List.length_pos.mpr h0
    have hn : 0 < xs.length := List.length_pos.mpr hx
    simp [hl, hn, hz, mapSet_ne_nil]

theorem putIds_nonEmptyLists (result : Block) (key : String) (n : Nat) (ids : List Int)
    (h : ∀ kv ∈ result, kv.2.isNonEmptyList = true) :
    ∀ kv ∈ putIds result key n ids, kv.2.isNonEmptyList = true := by
  unfold putIds
  split
  · split
    · rename_i hl
      intro kv hkv
      rcases mem_mapSet _ _ _ _ hkv with hkv | hkv
      · rw [hkv]
        cases ids with
        | nil => simp at hl
        | cons a l => rfl
      · exact h kv hkv
    · exact h
  · exact h

theorem putNames_nonEmptyLists (result : Block) (key : String) (n : Nat) (names : List String)
    (h : ∀ kv ∈ result, kv.2.isNonEmptyList = true) :
    ∀ kv ∈ putNames result key n names, kv.2.isNonEmptyList = true := by
  unfold putNames
  split
  · split
    · rename_i hl
      intro kv hkv
      rcases mem_mapSet _ _ _ _ hkv with hkv | hkv
      · rw [hkv]
        cases names with
        | nil => simp at hl
        | cons a l => rfl
      · exact h kv hkv
    · exact h
  · exact h

theorem blockResult_spec (R : Block) (P : Prop) (hnil : R = [] ↔ P)
    (hinv : ∀ kv ∈ R, kv.2.isNonEmptyList = true) :
    ((if R.length = 0 then (Except.ok none : Except String (Option (List Block)))
        else Except.ok (some [R])) = Except.ok none ↔ P) ∧
    ((if R.length = 0 then (Except.ok none : Except String (Option (List Block)))
        else Except.ok (some [R])) = Except.ok none ∨
      ∃ b, (if R.length = 0 then (Except.ok none : Except String (Option (List Block)))
          else Except.ok (some [R])) = Except.ok (some [b]) ∧
        b ≠ [] ∧ ∀ kv ∈ b, kv.2.isNonEmptyList = true) := by
  by_cases hR : R = []
  · have hl : R.length = 0 := by rw [hR]; rfl
    rw [if_pos hl]
    exact ⟨⟨fun _ => hnil.mp hR, fun _ => rfl⟩, Or.inl rfl⟩
  · have hl : ¬ R.length = 0 := fun h => hR (List.length_eq_zero.mp h)
    rw [if_neg hl]
    refine ⟨⟨fun h => ?_, fun h => absurd (hnil.mpr h) hR⟩, Or.inr ⟨R, rfl, hR, hinv⟩⟩
    simp at h

/-- C26: `setLimitations` returns nil exactly when no network segment, iBeacon or
user group has a non-zero ID and no user has a non-empty name; otherwise it
returns a list of one map that is non-empty and whose every value is a non-empty
list.  The same holds for `setExclusions` over its ten collections. -/
theorem blocks_returned_iff_contribution (l : Limitation) (x : Exclusion) :
    ((setLimitations l = Except.ok none ↔ l.NothingToReport) ∧
      (setLimitations l = Except.ok none ∨
        ∃ b, setLimitations l = Except.ok (some [b]) ∧ b ≠ [] ∧
          ∀ kv ∈ b, kv.2.isNonEmptyList = true)) ∧
    ((setExclusions x = Except.ok none ↔ x.NothingToReport) ∧
      (setExclusions x = Except.ok none ∨
        ∃ b, setExclusions x = Except.ok (some [b]) ∧ b ≠ [] ∧
          ∀ kv ∈ b, kv.2.isNonEmptyList = true)) := by
  constructor
  · simp only [setLimitations]
    refine blockResult_spec _ _ ?_ ?_
    · simp only [flattenAndSortScopeEntityIds, flattenAndSortNetworkSegmentIds,
        flattenAndSortScopeEntityNames, putIds_eq_nil, putNames_eq_nil, true_and,
        Limitation.NothingToReport, and_assoc]
    · repeat (first | apply putIds_nonEmptyLists | apply putNames_nonEmptyLists)
      simp
  · simp only [setExclusions]
    refine blockResult_spec _ _ ?_ ?_
    · simp only [flattenAndSortScopeEntityIds, flattenAndSortNetworkSegmentIds,
        flattenAndSortMobileDeviceIDs, flattenAndSortScopeEntityNames, putIds_eq_nil,
        putNames_eq_nil, true_and, Exclusion.NothingToReport, and_assoc]
    · repeat (first | apply putIds_nonEmptyLists | apply putNames_nonEmptyLists)
      simp

/-- C26 at concrete inputs: limitations whose collections hold only zero IDs and
an empty name give nil, and limitations with one user group of ID 5 give one map
with that single key. -/
theorem blocks_returned_iff_contribution_witness :
    sampleLimitationZeros.NothingToReport ∧
    setLimitations sampleLimitationZeros = Except.ok none ∧
    setLimitations sampleLimitationOne
      = Except.ok (some [[("directory_service_usergroup_ids", Leaf.ints [5])]]) ∧
    ¬ sampleExclusionOne.NothingToReport :=
  have hz : sampleLimitationZeros.NothingToReport := by
    simp [Limitation.NothingToReport, sampleLimitationZeros]
  ⟨hz,
   (blocks_returned_iff_contribution sampleLimitationZeros sampleExclusionOne).1.1.mpr hz,
   rfl,
   fun h => absurd
     ((blocks_returned_iff_contribution sampleLimitationZeros sampleExclusionOne).2.1.mpr h)
     (by
       have heq : setExclusions sampleExclusionOne
           = Except.ok (some [[("building_ids", Leaf.ints [3])]]) := rfl
       rw [heq]
       intro h'
       cases h')⟩

/-! ## C27: the scope helpers never fail -/

theorem resourceData_scope (r : ResourceMobileDeviceConfigurationProfile) :
    mapGet (resourceData r) "scope" = none := by
  simp [resourceData, mapSet, mapGet]

theorem attemptedWrites_scope_count (N : String → String) (o : List String)
    (r : ResourceMobileDeviceConfigurationProfile) :
    (attemptedWrites N o r).countP (fun kv => decide (kv.1 = "scope")) = 1 := by
  obtain ⟨m, hm⟩ := setScope_ok r
  have htail : (o.filterMap (fun k =>
      (mapGet (resourceData r) k).map (fun v => (k, Value.leaf v)))).countP
        (fun kv => decide (kv.1 = "scope")) = 0 := by
    rw [List.countP_eq_zero]
    intro kv hkv
    simp only [List.mem_filterMap, Option.map_eq_some'] at hkv
    obtain ⟨k, _, l, hl, rfl⟩ := hkv
    simp only [decide_eq_true_eq]
    intro hk
    rw [hk, resourceData_scope] at hl
    cases hl
  unfold attemptedWrites
  rw [hm]
  simp only [List.countP_append, htail]
  by_cases hs : r.General.Site.ID = -1 <;> by_cases hc : r.General.Category.ID = -1 <;>
    simp [hs, hc, List.countP_cons]

/-- C27: for every input `setLimitations`, `setExclusions` and `setScope` return a
nil error, so `updateTerraformState` never takes its scope-error branch: it is the
run of the attempted writes, among which there is exactly one write of `scope`,
and the value of that write is a list of exactly one element, the map `setScope`
returned. -/
theorem scope_error_branch_unreachable (N : String → String) (o : List String)
    (d : ResourceData) (r : ResourceMobileDeviceConfigurationProfile) (l : Limitation)
    (x : Exclusion) :
    (∃ v, setLimitations l = Except.ok v) ∧
    (∃ v, setExclusions x = Except.ok v) ∧
    (∀ e, setScope r ≠ Except.error e) ∧
    ∃ m, setScope r = Except.ok m ∧
      updateTerraformState N o d r = applyWrites (attemptedWrites N o r) (d, []) ∧
      (∀ v, ("scope", v) ∈ attemptedWrites N o r ↔ v = Value.scope [m]) ∧
      (attemptedWrites N o r).countP (fun kv => decide (kv.1 = "scope")) = 1 := by
  obtain ⟨m, hm⟩ := setScope_ok r
  refine ⟨?_, ?_, ?_, m, hm, updateTerraformState_eq_applyWrites N o d r, ?_,
    attemptedWrites_scope_count N o r⟩
  · rcases setLimitations_ok l with h | ⟨b, h⟩
    · exact ⟨_, h⟩
    · exact ⟨_, h⟩
  · rcases setExclusions_ok x with h | ⟨b, h⟩
    · exact ⟨_, h⟩
    · exact ⟨_, h⟩
  · intro e he
    rw [hm] at he
    cases he
  · intro v
    rw [attemptedWrites_mem]
    constructor
    · rintro (⟨_, h, _⟩ | ⟨h, _⟩ | ⟨_, h, _⟩ | ⟨m', hm', _, hv⟩ | ⟨_, l', hl, _⟩)
      · exact absurd h (by decide)
      · exact absurd h (by decide)
      · exact absurd h (by decide)
      · rw [hm] at hm'
        cases hm'
        exact hv
      · rw [resourceData_scope] at hl
        cases hl
    · intro hv
      exact Or.inr (Or.inr (Or.inr (Or.inl ⟨m, hm, rfl, hv⟩)))

end JamfPro
